import Mathlib

/-!
Supply-demand matching engine of `ai-processor-v2.js`

A shallow embedding of the `AIProcessor` class: the per-criterion sub-scores, the
weighted combination, threshold filtering and ranking, the requirement store update of
`processMessage`, the lead-quality score and the action recommendation, the extraction of
requirements from the message text by the patterns of `initializeLeadRules`, and the
inventory operations with their re-matching pass. The secondary matcher `PropertyMatcher`
of `ai-processor.js` is embedded as well.

Modelling conventions.

* A JavaScript number is a `JSNum`: an exact rational, `+Infinity`, `-Infinity` or `NaN`.
  The operations `+ - * /` of `JSNum` are exact and negative zero is identified with zero;
  the special values follow IEEE 754, so a division by zero gives an infinity or `NaN`
  exactly as in the source.
* The rounding of IEEE doubles is the function `roundDouble`: round to nearest, ties to
  even, 53 significant bits, an infinity on overflow. `parseFloat` rounds with it. The match
  score and the extraction confidence are also given over an `Arithmetic`; its instance
  `doubleArithmetic` rounds every literal and every operation as the language does, its
  instance `exactArithmetic` is the exact arithmetic of the other definitions.
* A JavaScript string is a Lean `String`; `toLowerCase` and `includes` work on its list of
  characters. Lower-casing maps the ASCII letters `A`..`Z`.
* A field that may be `null`/`undefined` is an `Option`; the truthiness tests of the source
  (`if (a && b)`) are the functions `truthyStr`, `truthyNum` and `Option.isSome`.
* A `Map` is an association list in insertion order.
-/

namespace CrystalPower

/-! ## JavaScript numbers -/

/-- A JavaScript number: a finite value, an infinity, or `NaN`. -/
inductive JSNum where
  | fin (q : ℚ)
  | posInf
  | negInf
  | nan
  deriving DecidableEq

namespace JSNum

/-- Negation. -/
def neg : JSNum → JSNum
  | fin a => fin (-a)
  | posInf => negInf
  | negInf => posInf
  | nan => nan

/-- Addition (`+`). -/
def add : JSNum → JSNum → JSNum
  | fin a, fin b => fin (a + b)
  | fin _, posInf => posInf
  | fin _, negInf => negInf
  | posInf, fin _ => posInf
  | posInf, posInf => posInf
  | negInf, fin _ => negInf
  | negInf, negInf => negInf
  | _, _ => nan

/-- Subtraction (`-`). -/
def sub (x y : JSNum) : JSNum := add x (neg y)

/-- Multiplication (`*`). -/
def mul : JSNum → JSNum → JSNum
  | fin a, fin b => fin (a * b)
  | fin a, posInf => if a = 0 then nan else if 0 < a then posInf else negInf
  | fin a, negInf => if a = 0 then nan else if 0 < a then negInf else posInf
  | posInf, fin b => if b = 0 then nan else if 0 < b then posInf else negInf
  | negInf, fin b => if b = 0 then nan else if 0 < b then negInf else posInf
  | posInf, posInf => posInf
  | posInf, negInf => negInf
  | negInf, posInf => negInf
  | negInf, negInf => posInf
  | _, _ => nan

/-- Division (`/`): a finite non-zero value over zero is an infinity, `0 / 0` is `NaN`. -/
def div : JSNum → JSNum → JSNum
  | fin a, fin b =>
      if b = 0 then (if 0 < a then posInf else if a < 0 then negInf else nan)
      else fin (a / b)
  | fin _, posInf => fin 0
  | fin _, negInf => fin 0
  | posInf, fin b => if 0 ≤ b then posInf else negInf
  | negInf, fin b => if 0 ≤ b then negInf else posInf
  | _, _ => nan

/-- Absolute value (`Math.abs`). -/
def abs : JSNum → JSNum
  | fin a => fin |a|
  | posInf => posInf
  | negInf => posInf
  | nan => nan

/-- Comparison `x <= y`; false as soon as one side is `NaN`. -/
def le : JSNum → JSNum → Prop
  | fin a, fin b => a ≤ b
  | fin _, posInf => True
  | negInf, fin _ => True
  | negInf, negInf => True
  | negInf, posInf => True
  | posInf, posInf => True
  | _, _ => False

/-- Comparison `x < y`; false as soon as one side is `NaN`. -/
def lt : JSNum → JSNum → Prop
  | fin a, fin b => a < b
  | fin _, posInf => True
  | negInf, fin _ => True
  | negInf, posInf => True
  | _, _ => False

instance : Add JSNum := ⟨add⟩
instance : Sub JSNum := ⟨sub⟩
instance : Mul JSNum := ⟨mul⟩
instance : Div JSNum := ⟨div⟩
instance : LE JSNum := ⟨le⟩
instance : LT JSNum := ⟨lt⟩

instance decLe : DecidableRel (fun x y : JSNum => x ≤ y) := fun x y => by
  cases x <;> cases y <;> simp only [LE.le, le] <;> infer_instance

instance decLt : DecidableRel (fun x y : JSNum => x < y) := fun x y => by
  cases x <;> cases y <;> simp only [LT.lt, lt] <;> infer_instance

/-- Truthiness of a number: every value but `0` and `NaN`. -/
def truthy : JSNum → Bool
  | fin a => decide (a ≠ 0)
  | posInf => true
  | negInf => true
  | nan => false

/-- The number is finite and lies in the closed unit interval. -/
def InUnit (x : JSNum) : Prop := ∃ q : ℚ, x = fin q ∧ 0 ≤ q ∧ q ≤ 1

/-- The number is finite and strictly positive. -/
def Positive (x : JSNum) : Prop := ∃ q : ℚ, x = fin q ∧ 0 < q

end JSNum

/-! ## IEEE double arithmetic -/

/-- The integer nearest to a rational, a tie going to the even one. -/
def roundHalfEven (x : ℚ) : ℤ :=
  if x - ⌊x⌋ < 1 / 2 then ⌊x⌋
  else if 1 / 2 < x - ⌊x⌋ then ⌊x⌋ + 1
  else if ⌊x⌋ % 2 = 0 then ⌊x⌋ else ⌊x⌋ + 1

/-- The double nearest to a rational, round to nearest with ties to even: 53 significant
bits, the exponent of the last bit not below -1074 (subnormal numbers), and an infinity
once the rounded magnitude reaches `2^1024`. -/
def roundDouble (q : ℚ) : JSNum :=
  if q = 0 then .fin 0
  else
    let e : ℤ := max (Int.log 2 |q|) (-1022)
    let ulp : ℚ := 2 ^ (e - 52)
    let v : ℚ := roundHalfEven (|q| / ulp) * ulp
    if 2 ^ (1024 : ℤ) ≤ v then (if 0 < q then .posInf else .negInf)
    else .fin (if 0 < q then v else -v)

/-- The double nearest to the exact value of an operation; the infinities and `NaN` stay. -/
def roundNum : JSNum → JSNum
  | .fin q => roundDouble q
  | x => x

/-- An arithmetic on numbers: the value of a decimal literal and of the four operations. -/
structure Arithmetic where
  lit : ℚ → JSNum
  add : JSNum → JSNum → JSNum
  sub : JSNum → JSNum → JSNum
  mul : JSNum → JSNum → JSNum
  div : JSNum → JSNum → JSNum

/-- Exact arithmetic: no result is rounded. -/
def exactArithmetic : Arithmetic where
  lit := JSNum.fin
  add := fun x y => x + y
  sub := fun x y => x - y
  mul := fun x y => x * y
  div := fun x y => x / y

/-- The arithmetic of the language: a literal is the nearest double, and each operation
answers the double nearest to its exact result. -/
def doubleArithmetic : Arithmetic where
  lit := roundDouble
  add := fun x y => roundNum (x + y)
  sub := fun x y => roundNum (x - y)
  mul := fun x y => roundNum (x * y)
  div := fun x y => roundNum (x / y)

/-! ## JavaScript strings -/

/-- The method `String.prototype.toLowerCase`, as the list of characters of the result. -/
def toLowerCase (s : String) : List Char := s.toList.map Char.toLower

/-- The test `hay.includes(needle)`: the needle occurs as a contiguous run of the haystack. -/
def includes (hay needle : List Char) : Bool :=
  hay.tails.any (fun t => needle.isPrefixOf t)

/-- Truthiness of an optional string: present and non-empty. -/
def truthyStr : Option String → Bool
  | some s => !s.toList.isEmpty
  | none => false

/-- Truthiness of an optional number: present, non-zero and not `NaN`. -/
def truthyNum : Option JSNum → Bool
  | some x => x.truthy
  | none => false

/-! ## Data model -/

/-- Urgency labels returned by `assessUrgency`. -/
inductive Urgency where
  | high
  | medium
  | low
  deriving DecidableEq, Repr

/-- Sentiment labels returned by `analyzeSentiment`. -/
inductive Sentiment where
  | positive
  | negative
  | neutral
  deriving DecidableEq, Repr

/-- Intent categories of `initializeIntentClassifier`. -/
inductive IntentCategory where
  | BUY
  | RENT
  | SELL
  | INVEST
  deriving DecidableEq, Repr

/-- The object returned by `extractBudget`. -/
structure Budget where
  amount : JSNum
  currency : String
  raw : String
  deriving DecidableEq

/-- The object returned by `extractLocation`. -/
structure Location where
  area : String
  raw : String
  confidence : JSNum
  deriving DecidableEq

/-- The object returned by `extractPropertyType`. -/
structure PropertyType where
  type : String
  raw : String
  confidence : JSNum
  deriving DecidableEq

/-- The object returned by `extractSize`. -/
structure Size where
  area : JSNum
  unit : String
  raw : String
  deriving DecidableEq

/-- The object returned by `classifyIntent`. -/
structure Intent where
  intent : IntentCategory
  confidence : JSNum
  keyword : String
  deriving DecidableEq

/-- The `requirements` object built by `extractCustomerRequirements`; `none` is `null`. -/
structure Requirements where
  intent : Option Intent
  budget : Option Budget
  location : Option Location
  propertyType : Option PropertyType
  size : Option Size
  bedrooms : Option Nat
  bathrooms : Option Nat
  contact : Option String
  urgency : Urgency
  sentiment : Sentiment
  confidence : JSNum
  extractedAt : Nat
  deriving DecidableEq

/-- The record kept per customer in `customerRequirements`: the requirement keys plus the
three keys `processMessage` adds. -/
structure StoredRequirements extends Requirements where
  lastUpdated : Nat
  conversationId : String
  messageHistory : List String
  deriving DecidableEq

/-- A property of the supply inventory; `none` is a missing (`undefined`/`null`) field. -/
structure Property where
  id : String
  title : String
  type : Option String
  location : Option String
  price : Option JSNum
  size : Option JSNum
  bedrooms : Option Nat
  bathrooms : Option Nat
  amenities : List String
  status : String
  deriving DecidableEq

/-- Actions returned by `getRecommendedAction`. -/
inductive RecommendedAction where
  | IMMEDIATE_CONTACT
  | SCHEDULE_VIEWING
  | PRESENT_OPTION
  | COLLECT_MORE_INFO
  deriving DecidableEq, Repr

/-- The reason strings of `generateMatchReasons`, by template and interpolated value. -/
inductive MatchReason where
  | excellentLocation (location : String)
  | goodLocation (location : String)
  | withinBudget (price : JSNum)
  | nearBudget (price : JSNum)
  deriving DecidableEq

/-- One entry of the list returned by `findMatchingProperties`. -/
structure Match where
  propertyId : String
  property : Property
  matchScore : JSNum
  matchReasons : List MatchReason
  recommendedAction : RecommendedAction
  deriving DecidableEq

/-- The four weights of `initializePropertyWeights` used in scoring, plus `amenities`. -/
structure PropertyWeights where
  location : JSNum
  budget : JSNum
  propertyType : JSNum
  size : JSNum
  amenities : JSNum

/-- The `action` labels of `generateActionRecommendation`. -/
inductive Action where
  | NO_MATCHES
  | EXCELLENT_MATCH
  | GOOD_MATCH
  | PARTIAL_MATCH
  deriving DecidableEq, Repr

/-- The `priority` labels of `generateActionRecommendation`. -/
inductive Priority where
  | high
  | medium
  | low
  deriving DecidableEq, Repr

/-- The object returned by `generateActionRecommendation` (the two prose fields are fixed
by the action). -/
structure ActionRecommendation where
  action : Action
  priority : Priority
  deriving DecidableEq, Repr

/-- The `quality` bands of `assessLeadQuality`. -/
inductive Quality where
  | HIGH
  | MEDIUM
  | LOW
  deriving DecidableEq, Repr

/-- The factor strings pushed by `assessLeadQuality`. -/
inductive Factor where
  | clearBudget
  | specificLocation
  | propertyTypeSpecified
  | clearIntent
  | highUrgency
  | mediumUrgency
  | positiveSentiment
  deriving DecidableEq, Repr

/-- The object returned by `assessLeadQuality`. -/
structure LeadQuality where
  score : Nat
  quality : Quality
  factors : List Factor
  deriving DecidableEq, Repr

/-- The `timeframe` strings of `shouldHumanAgentContact`. -/
inductive Timeframe where
  | withinOneHour
  | withinTwoHours
  | withinOneDay
  | whenMoreProperties
  deriving DecidableEq, Repr

/-- The object returned by `shouldHumanAgentContact` (the `reason` prose is fixed by the
branch, as is the `priority`, written in upper case there). -/
structure ContactDecision where
  shouldContact : Bool
  priority : Priority
  timeframe : Timeframe
  deriving DecidableEq, Repr

/-- The answers of the pattern helpers of `extractCustomerRequirements` on one message:
`extractBudget`, `extractLocation`, `extractPropertyType`, `extractSize`, `classifyIntent`
(`none` is `null`), `analyzeSentiment` and `assessUrgency`. -/
structure Extraction where
  budgetMatch : Option Budget
  locationMatch : Option Location
  typeMatch : Option PropertyType
  sizeMatch : Option Size
  intentMatch : Option Intent
  sentiment : Sentiment
  urgency : Urgency

/-- The object returned by `processMessage` on its success path. -/
structure ProcessResult where
  success : Bool
  demandAnalysis : Requirements
  matchingProperties : List Match
  recommendedAction : ActionRecommendation
  leadQuality : LeadQuality
  shouldHumanContact : ContactDecision

/-- The mutable fields of an `AIProcessor` instance; each `Map` in insertion order. -/
structure AIProcessor where
  propertyInventory : List (String × Property)
  customerRequirements : List (String × StoredRequirements)
  matchingResults : List (String × List Match)
  conversationHistory : List (String × List String)

/-! ## Maps -/

/-- The method `Map.prototype.get`. -/
def mapGet {β : Type} (m : List (String × β)) (k : String) : Option β :=
  (m.find? (fun e => e.1 == k)).map Prod.snd

/-- The method `Map.prototype.set`: replace the value in place when the key exists, else
append. -/
def mapSet {β : Type} : List (String × β) → String → β → List (String × β)
  | [], k, v => [(k, v)]
  | e :: rest, k, v => if e.1 = k then (k, v) :: rest else e :: mapSet rest k v

namespace AIProcessor

/-- The weights of `initializePropertyWeights`. -/
def initializePropertyWeights : PropertyWeights where
  location := .fin (35 / 100)
  budget := .fin (25 / 100)
  propertyType := .fin (20 / 100)
  size := .fin (15 / 100)
  amenities := .fin (5 / 100)

/-- The field `propertyMatchingWeights`, set once by the constructor. -/
def propertyMatchingWeights : PropertyWeights := initializePropertyWeights

/-- The field `matchingThreshold`, set once by the constructor. -/
def matchingThreshold : JSNum := .fin (75 / 100)

/-- The method `calculateLocationMatch(reqLocation, propLocation)`. -/
def calculateLocationMatch (reqLocation : Location) (propLocation : String) : JSNum :=
  let req := toLowerCase reqLocation.area
  let prop := toLowerCase propLocation
  if req = prop then .fin 1
  else if includes prop req || includes req prop then .fin (8 / 10)
  else .fin 0

/-- The method `calculateBudgetMatch(reqBudget, propPrice)`. -/
def calculateBudgetMatch (reqBudget : Budget) (propPrice : JSNum) : JSNum :=
  let budget := reqBudget.amount
  let price := propPrice
  if price ≤ budget then
    let ratio := price / budget
    if JSNum.fin (7 / 10) ≤ ratio then .fin 1 else ratio
  else
    let overBudget := (price - budget) / budget
    if overBudget ≤ .fin (1 / 10) then .fin (8 / 10)
    else if overBudget ≤ .fin (2 / 10) then .fin (6 / 10)
    else .fin 0

/-- The table `similarTypes` of `calculateTypeMatch`, in key order. -/
def similarTypes : List (List Char × List (List Char)) :=
  [("apartment".toList, ["flat".toList, "unit".toList]),
   ("villa".toList, ["house".toList, "townhouse".toList]),
   ("studio".toList, ["loft".toList])]

/-- The method `calculateTypeMatch(reqType, propType)`. -/
def calculateTypeMatch (reqType : PropertyType) (propType : String) : JSNum :=
  let req := toLowerCase reqType.type
  let prop := toLowerCase propType
  if req = prop then .fin 1
  else if similarTypes.any (fun e =>
      (decide (req = e.1) && e.2.contains prop) || (decide (prop = e.1) && e.2.contains req))
    then .fin (8 / 10)
  else .fin 0

/-- The method `calculateSizeMatch(reqSize, propSize)`. -/
def calculateSizeMatch (reqSize : Size) (propSize : JSNum) : JSNum :=
  let required := reqSize.area
  let available := propSize
  let difference := JSNum.abs (available - required) / required
  if difference ≤ .fin (1 / 10) then .fin 1
  else if difference ≤ .fin (2 / 10) then .fin (8 / 10)
  else if difference ≤ .fin (3 / 10) then .fin (6 / 10)
  else .fin 0

/-- The running pair `(totalScore, totalWeight)` of `calculateMatchingScore` after one
criterion block: unchanged when the guard fails, else both sums advance. -/
def addCriterion (acc : JSNum × JSNum) (guard : Bool) (score weight : JSNum) :
    JSNum × JSNum :=
  if guard then (acc.1 + score * weight, acc.2 + weight) else acc

/-- The method `calculateMatchingScore(requirements, property)`. -/
def calculateMatchingScore (requirements : Requirements) (property : Property) : JSNum :=
  let w := propertyMatchingWeights
  let acc : JSNum × JSNum := (.fin 0, .fin 0)
  let acc :=
    match requirements.location, property.location with
    | some reqLocation, some propLocation =>
        addCriterion acc (truthyStr (some propLocation))
          (calculateLocationMatch reqLocation propLocation) w.location
    | _, _ => acc
  let acc :=
    match requirements.budget, property.price with
    | some reqBudget, some propPrice =>
        addCriterion acc (truthyNum (some propPrice))
          (calculateBudgetMatch reqBudget propPrice) w.budget
    | _, _ => acc
  let acc :=
    match requirements.propertyType, property.type with
    | some reqType, some propType =>
        addCriterion acc (truthyStr (some propType))
          (calculateTypeMatch reqType propType) w.propertyType
    | _, _ => acc
  let acc :=
    match requirements.size, property.size with
    | some reqSize, some propSize =>
        addCriterion acc (truthyNum (some propSize))
          (calculateSizeMatch reqSize propSize) w.size
    | _, _ => acc
  if JSNum.fin 0 < acc.2 then acc.1 / acc.2 else .fin 0

/-- The method `generateMatchReasons(requirements, property, score)`. -/
def generateMatchReasons (requirements : Requirements) (property : Property) :
    List MatchReason :=
  let reasons : List MatchReason := []
  let reasons :=
    match requirements.location, property.location with
    | some reqLocation, some propLocation =>
        if truthyStr (some propLocation) then
          let locationScore := calculateLocationMatch reqLocation propLocation
          if JSNum.fin (8 / 10) ≤ locationScore then
            reasons ++ [MatchReason.excellentLocation propLocation]
          else if JSNum.fin 0 < locationScore then
            reasons ++ [MatchReason.goodLocation propLocation]
          else reasons
        else reasons
    | _, _ => reasons
  let reasons :=
    match requirements.budget, property.price with
    | some reqBudget, some propPrice =>
        if truthyNum (some propPrice) then
          let budgetScore := calculateBudgetMatch reqBudget propPrice
          if JSNum.fin (8 / 10) ≤ budgetScore then
            reasons ++ [MatchReason.withinBudget propPrice]
          else if JSNum.fin 0 < budgetScore then
            reasons ++ [MatchReason.nearBudget propPrice]
          else reasons
        else reasons
    | _, _ => reasons
  reasons

/-- The method `getRecommendedAction(score)`. -/
def getRecommendedAction (score : JSNum) : RecommendedAction :=
  if JSNum.fin (9 / 10) ≤ score then .IMMEDIATE_CONTACT
  else if JSNum.fin (8 / 10) ≤ score then .SCHEDULE_VIEWING
  else if JSNum.fin (7 / 10) ≤ score then .PRESENT_OPTION
  else .COLLECT_MORE_INFO

/-- The method `loadPropertyInventory()`. The rows answered by `fetch` are an input:
`none` when the request throws or the answer lacks `success`/`data`, else the rows, each
already renamed to the fields of `Property`. -/
def loadPropertyInventory (s : AIProcessor) (fetched : Option (List Property)) :
    AIProcessor :=
  match fetched with
  | some rows =>
      let inventory := rows.foldl (fun inv property => mapSet inv property.id property)
        s.propertyInventory
      { s with propertyInventory := inventory }
  | none => s

/-- The comparator `(a, b) => b.matchScore - a.matchScore` handed to `Array.prototype.sort`. -/
def compareMatches (a b : Match) : JSNum := b.matchScore - a.matchScore

/-- The call `matches.sort(compareMatches)`: a stable sort, an element stays in front of a
later one unless the comparator is positive. -/
def sortMatches (l : List Match) : List Match :=
  l.insertionSort (fun a b => ¬ (JSNum.fin 0 < compareMatches a b))

/-- The entry pushed by the loop of `findMatchingProperties` for one inventory entry. -/
def makeMatch (requirements : Requirements) (entry : String × Property) : Match where
  propertyId := entry.1
  property := entry.2
  matchScore := calculateMatchingScore requirements entry.2
  matchReasons := generateMatchReasons requirements entry.2
  recommendedAction := getRecommendedAction (calculateMatchingScore requirements entry.2)

/-- The method `findMatchingProperties(requirements, customerId)`: the state after the
optional inventory load, and the returned list. -/
def findMatchingProperties (s : AIProcessor) (requirements : Requirements)
    (fetched : Option (List Property)) : AIProcessor × List Match :=
  let s := if s.propertyInventory.length = 0 then loadPropertyInventory s fetched else s
  let found := (s.propertyInventory.filter (fun entry =>
      decide (matchingThreshold ≤ calculateMatchingScore requirements entry.2))).map
        (makeMatch requirements)
  (s, (sortMatches found).take 10)

/-- The method `generateActionRecommendation(requirements, matches)`. -/
def generateActionRecommendation (_requirements : Requirements) (found : List Match) :
    ActionRecommendation :=
  match found with
  | [] => { action := .NO_MATCHES, priority := .medium }
  | bestMatch :: _ =>
      if JSNum.fin (9 / 10) ≤ bestMatch.matchScore then
        { action := .EXCELLENT_MATCH, priority := .high }
      else if JSNum.fin (8 / 10) ≤ bestMatch.matchScore then
        { action := .GOOD_MATCH, priority := .medium }
      else { action := .PARTIAL_MATCH, priority := .low }

/-- The method `assessLeadQuality(requirements)`. -/
def assessLeadQuality (requirements : Requirements) : LeadQuality :=
  let acc : Nat × List Factor := (0, [])
  let acc := if requirements.budget.isSome then (acc.1 + 25, acc.2 ++ [Factor.clearBudget])
    else acc
  let acc := if requirements.location.isSome
    then (acc.1 + 20, acc.2 ++ [Factor.specificLocation]) else acc
  let acc := if requirements.propertyType.isSome
    then (acc.1 + 15, acc.2 ++ [Factor.propertyTypeSpecified]) else acc
  let acc := if requirements.intent.isSome then (acc.1 + 20, acc.2 ++ [Factor.clearIntent])
    else acc
  let acc :=
    if requirements.urgency = .high then (acc.1 + 15, acc.2 ++ [Factor.highUrgency])
    else if requirements.urgency = .medium then (acc.1 + 10, acc.2 ++ [Factor.mediumUrgency])
    else acc
  let acc := if requirements.sentiment = .positive
    then (acc.1 + 5, acc.2 ++ [Factor.positiveSentiment]) else acc
  let score := acc.1
  { score := min score 100
    quality := if score ≥ 80 then .HIGH else if score ≥ 60 then .MEDIUM else .LOW
    factors := acc.2 }

/-- The method `shouldHumanAgentContact(requirements, matches)`. -/
def shouldHumanAgentContact (requirements : Requirements) (found : List Match) :
    ContactDecision :=
  let leadQuality := assessLeadQuality requirements
  let bestIsGood : Bool :=
    match found with
    | [] => false
    | bestMatch :: _ => decide (JSNum.fin (8 / 10) ≤ bestMatch.matchScore)
  if leadQuality.quality = .HIGH ∧ bestIsGood = true then
    { shouldContact := true, priority := .high, timeframe := .withinOneHour }
  else if requirements.urgency = .high then
    { shouldContact := true, priority := .high, timeframe := .withinTwoHours }
  else if leadQuality.quality = .MEDIUM ∧ found.length > 0 then
    { shouldContact := true, priority := .medium, timeframe := .withinOneDay }
  else
    { shouldContact := false, priority := .low, timeframe := .whenMoreProperties }

/-- The method `extractCustomerRequirements(message, sender)`, from the answers of the
pattern helpers on the message and the clock reading of `Date.now()`. -/
def extractCustomerRequirements (e : Extraction) (now : Nat) : Requirements :=
  let requirements : Requirements :=
    { intent := none, budget := none, location := none, propertyType := none,
      size := none, bedrooms := none, bathrooms := none, contact := none,
      urgency := .medium, sentiment := .neutral, confidence := .fin 0,
      extractedAt := now }
  let requirements :=
    match e.budgetMatch with
    | some budgetMatch =>
        { requirements with budget := some budgetMatch,
                            confidence := requirements.confidence + JSNum.fin (2 / 10) }
    | none => requirements
  let requirements :=
    match e.locationMatch with
    | some locationMatch =>
        { requirements with location := some locationMatch,
                            confidence := requirements.confidence + JSNum.fin (25 / 100) }
    | none => requirements
  let requirements :=
    match e.typeMatch with
    | some typeMatch =>
        { requirements with propertyType := some typeMatch,
                            confidence := requirements.confidence + JSNum.fin (2 / 10) }
    | none => requirements
  let requirements :=
    match e.sizeMatch with
    | some sizeMatch =>
        { requirements with size := some sizeMatch,
                            confidence := requirements.confidence + JSNum.fin (15 / 100) }
    | none => requirements
  let requirements :=
    match e.intentMatch with
    | some intentMatch =>
        { requirements with intent := some intentMatch,
                            confidence := requirements.confidence + JSNum.fin (2 / 10) }
    | none => requirements
  { requirements with sentiment := e.sentiment, urgency := e.urgency }

/-- The method `getMessageHistory(conversationId)`. -/
def getMessageHistory (s : AIProcessor) (conversationId : String) : List String :=
  (mapGet s.conversationHistory conversationId).getD []

/-- The object literal stored by `processMessage`:
`{...customerRequirements.get(sender), ...requirements, lastUpdated, conversationId,
messageHistory}`. A later spread overrides every key it owns, and `requirements` owns each
of its twelve keys (a field left at `null` included), so no key of the stored record
survives; the three trailing keys override the rest. -/
def mergeRequirements (_previous : Option StoredRequirements) (requirements : Requirements)
    (lastUpdated : Nat) (conversationId : String) (messageHistory : List String) :
    StoredRequirements :=
  { toRequirements := requirements
    lastUpdated := lastUpdated
    conversationId := conversationId
    messageHistory := messageHistory }

/-- The method `processMessage(message, sender, conversationId)` on its success path: the
state afterwards and the returned analysis. -/
def processMessage (s : AIProcessor) (e : Extraction) (sender conversationId : String)
    (extractedAt lastUpdated : Nat) (fetched : Option (List Property)) :
    AIProcessor × ProcessResult :=
  let requirements := extractCustomerRequirements e extractedAt
  let stored := mergeRequirements (mapGet s.customerRequirements sender) requirements
    lastUpdated conversationId (getMessageHistory s conversationId)
  let s := { s with customerRequirements := mapSet s.customerRequirements sender stored }
  let r := findMatchingProperties s requirements fetched
  let s := r.1
  let matchingResults := r.2
  let s := { s with matchingResults := mapSet s.matchingResults sender matchingResults }
  (s, { success := true
        demandAnalysis := requirements
        matchingProperties := matchingResults
        recommendedAction := generateActionRecommendation requirements matchingResults
        leadQuality := assessLeadQuality requirements
        shouldHumanContact := shouldHumanAgentContact requirements matchingResults })

end AIProcessor

/-! ## The specification's wording, for comparison with the code -/

/-- The synonym classes of property types named by the specification. -/
def synonymClasses : List (List (List Char)) :=
  [["apartment".toList, "flat".toList, "unit".toList],
   ["villa".toList, "house".toList, "townhouse".toList],
   ["studio".toList, "loft".toList]]

/-- The type sub-score as the specification words it: `1.0` for labels equal ignoring case,
`0.8` for two different members of one synonym class, `0.0` otherwise. -/
def specTypeMatch (reqType propType : String) : JSNum :=
  if toLowerCase reqType = toLowerCase propType then .fin 1
  else if synonymClasses.any (fun c =>
      c.contains (toLowerCase reqType) && c.contains (toLowerCase propType))
    then .fin (8 / 10)
  else .fin 0

/-- The four criteria that enter the match score. -/
inductive Criterion where
  | location
  | budget
  | propertyType
  | size
  deriving DecidableEq, Repr

namespace Criterion

/-- The default weight of a criterion: location 0.35, budget 0.25, propertyType 0.20,
size 0.15. -/
def weight : Criterion → JSNum
  | location => .fin (35 / 100)
  | budget => .fin (25 / 100)
  | propertyType => .fin (20 / 100)
  | size => .fin (15 / 100)

/-- The criterion is specified on both sides: the requirement holds a value for it and the
field of the property is set (a missing, empty or zero field counts as not set, as the
truthiness tests of the source have it). -/
def specified (requirements : Requirements) (property : Property) : Criterion → Bool
  | location => requirements.location.isSome && truthyStr property.location
  | budget => requirements.budget.isSome && truthyNum property.price
  | propertyType => requirements.propertyType.isSome && truthyStr property.type
  | size => requirements.size.isSome && truthyNum property.size

/-- The sub-score of a criterion that both sides carry (`0` stands in where a side lacks
it; such a criterion is never summed). -/
def subScore (requirements : Requirements) (property : Property) : Criterion → JSNum
  | location =>
      match requirements.location, property.location with
      | some reqLocation, some propLocation =>
          AIProcessor.calculateLocationMatch reqLocation propLocation
      | _, _ => .fin 0
  | budget =>
      match requirements.budget, property.price with
      | some reqBudget, some propPrice => AIProcessor.calculateBudgetMatch reqBudget propPrice
      | _, _ => .fin 0
  | propertyType =>
      match requirements.propertyType, property.type with
      | some reqType, some propType => AIProcessor.calculateTypeMatch reqType propType
      | _, _ => .fin 0
  | size =>
      match requirements.size, property.size with
      | some reqSize, some propSize => AIProcessor.calculateSizeMatch reqSize propSize
      | _, _ => .fin 0

/-- Both sides carry a value for the criterion, whatever the value is. -/
def present (requirements : Requirements) (property : Property) : Criterion → Bool
  | location => requirements.location.isSome && property.location.isSome
  | budget => requirements.budget.isSome && property.price.isSome
  | propertyType => requirements.propertyType.isSome && property.type.isSome
  | size => requirements.size.isSome && property.size.isSome

end Criterion

/-- The fields a property carries hold proper values, as the data model has them: a
location and a type that are not the empty string, a positive price and a positive size. -/
def Property.Proper (property : Property) : Prop :=
  (∀ l, property.location = some l → l ≠ "") ∧
  (∀ t, property.type = some t → t ≠ "") ∧
  (∀ x, property.price = some x → x.Positive) ∧
  (∀ x, property.size = some x → x.Positive)

/-- The sum of a list of numbers. -/
def sumNums (l : List JSNum) : JSNum := l.foldr (fun x acc => x + acc) (.fin 0)

/-- The criteria specified in both the requirement and the property. -/
def specifiedCriteria (requirements : Requirements) (property : Property) : List Criterion :=
  [Criterion.location, Criterion.budget, Criterion.propertyType, Criterion.size].filter
    (Criterion.specified requirements property)

/-- The match score as the specification words it: the weighted average
`(sum of w_c * s_c) / (sum of w_c)` over the criteria specified on both sides, and `0` when
there is none. -/
def weightedAverage (requirements : Requirements) (property : Property) : JSNum :=
  let present := specifiedCriteria requirements property
  if present.isEmpty then .fin 0
  else
    sumNums (present.map (fun c => c.weight * c.subScore requirements property)) /
      sumNums (present.map Criterion.weight)

/-- The pairs of a class head and one of its listed similar types, as `similarTypes` of the
source relates them: apartment with flat or unit, villa with house or townhouse, studio
with loft. -/
def similarPairs : List (List Char × List Char) :=
  [("apartment".toList, "flat".toList), ("apartment".toList, "unit".toList),
   ("villa".toList, "house".toList), ("villa".toList, "townhouse".toList),
   ("studio".toList, "loft".toList)]

/-- The lead-quality points as the specification lists them: budget present 25, location
present 20, propertyType present 15, intent present 20, urgency high 15 or medium 10,
sentiment positive 5. -/
def leadPoints (requirements : Requirements) : Nat :=
  (if requirements.budget.isSome then 25 else 0) +
  (if requirements.location.isSome then 20 else 0) +
  (if requirements.propertyType.isSome then 15 else 0) +
  (if requirements.intent.isSome then 20 else 0) +
  (match requirements.urgency with
    | .high => 15
    | .medium => 10
    | .low => 0) +
  (if requirements.sentiment = .positive then 5 else 0)

/-! ## Sample records -/

/-- A requirement: an apartment of 100 sqm in Maadi for up to 1,000,000 EGP. -/
def sampleRequirements : Requirements where
  intent := none
  budget := some ⟨.fin 1000000, "EGP", "budget 1,000,000 egp"⟩
  location := some ⟨"Maadi", "in Maadi", .fin (8 / 10)⟩
  propertyType := some ⟨"apartment", "apartment", .fin (9 / 10)⟩
  size := some ⟨.fin 100, "sqm", "100 sqm"⟩
  bedrooms := none
  bathrooms := none
  contact := none
  urgency := .low
  sentiment := .neutral
  confidence := .fin (8 / 10)
  extractedAt := 0

/-- A property record with the given id, location and price: an apartment of 100 sqm. -/
def sampleProperty (id location : String) (price : ℚ) : Property where
  id := id
  title := "Apartment"
  type := some "apartment"
  location := some location
  price := some (.fin price)
  size := some (.fin 100)
  bedrooms := some 2
  bathrooms := some 1
  amenities := []
  status := "available"

/-- A processor whose inventory holds three sample properties, stored in ascending order
of their scores against `sampleRequirements`: 0.5, 0.76 and 0.9. -/
def sampleProcessor : AIProcessor where
  propertyInventory :=
    [("p3", sampleProperty "p3" "Giza" 500000),
     ("p2", sampleProperty "p2" "Maadi" 88000),
     ("p1", sampleProperty "p1" "Maadi" 620000)]
  customerRequirements := []
  matchingResults := []
  conversationHistory := []

/-- The stored record of a customer whose earlier message gave `sampleRequirements`. -/
def sampleStored : StoredRequirements where
  toRequirements := sampleRequirements
  lastUpdated := 1
  conversationId := "c1"
  messageHistory := []

/-- The sample processor with one customer on file. -/
def sampleDemandProcessor : AIProcessor :=
  { sampleProcessor with customerRequirements := [("201001234567", sampleStored)] }

/-- The answers of the pattern helpers on the message "hello": no pattern and no keyword
occurs in it, so every helper answers `null`, the sentiment is neutral and the urgency low. -/
def helloExtraction : Extraction where
  budgetMatch := none
  locationMatch := none
  typeMatch := none
  sizeMatch := none
  intentMatch := none
  sentiment := .neutral
  urgency := .low

/-! ## Regular expressions

The patterns of `initializeLeadRules` are data; `String.prototype.match` runs them with the
backtracking semantics of the language: alternatives in order, greedy or lazy repetition,
the leftmost start that admits a match. All patterns carry the flag `i`; letters are folded
over ASCII, which is exact for patterns whose letters are ASCII. -/

/-- One member of a character class. -/
inductive ClassItem where
  | char (c : Char)
  | range (lo hi : Char)
  | digit
  | space

/-- The shape of the patterns in use: the empty pattern, one character of a class,
sequence, alternation, repetition `{min,max}` (greedy or lazy) and a capturing group. -/
inductive Regex where
  | eps
  | cls (items : List ClassItem)
  | seq (a b : Regex)
  | alt (a b : Regex)
  | rep (a : Regex) (min : Nat) (max : Option Nat) (greedy : Bool)
  | group (index : Nat) (a : Regex)

/-- The state of a match in progress: the input still to read and the captures so far,
the latest first. -/
structure MatchState where
  rest : List Char
  captures : List (Nat × List Char)

/-- The characters matched by `\s` (and removed by `trim`): white space and line
terminators. -/
def isWhiteSpace (c : Char) : Bool :=
  c == ' ' || c == '\t' || c == '\n' || c == '\r' || c.toNat == 11 || c.toNat == 12 ||
  c.toNat == 0xA0 || c.toNat == 0x1680 || (0x2000 ≤ c.toNat && c.toNat ≤ 0x200A) ||
  c.toNat == 0x2028 || c.toNat == 0x2029 || c.toNat == 0x202F || c.toNat == 0x205F ||
  c.toNat == 0x3000 || c.toNat == 0xFEFF

/-- Whether a character belongs to a class member, with or without the flag `i`. -/
def ClassItem.test (ignoreCase : Bool) (c : Char) : ClassItem → Bool
  | .char x => if ignoreCase then c.toLower == x.toLower else c == x
  | .range lo hi =>
      (lo.toNat ≤ c.toNat && c.toNat ≤ hi.toNat) ||
      (ignoreCase &&
        ((lo.toNat ≤ c.toLower.toNat && c.toLower.toNat ≤ hi.toNat) ||
         (lo.toNat ≤ c.toUpper.toNat && c.toUpper.toNat ≤ hi.toNat)))
  | .digit => c.isDigit
  | .space => isWhiteSpace c

/-- Repetition of a matcher, all outcomes in order of preference. An iteration that reads
nothing once `min` is met is dropped, so at most `min` plus the length of the input
iterations occur; the first argument bounds them. -/
def repeatMatcher (step : MatchState → List MatchState) (greedy : Bool) :
    Nat → Nat → Option Nat → MatchState → List MatchState
  | 0, min, _, s => if min = 0 then [s] else []
  | fuel + 1, min, max, s =>
      if max = some 0 then [s]
      else
        let more := (step s).flatMap (fun s' =>
          if min = 0 ∧ s'.rest.length = s.rest.length then []
          else repeatMatcher step greedy fuel (min - 1) (max.map (fun n => n - 1)) s')
        let stop := if min = 0 then [s] else []
        if greedy then more ++ stop else stop ++ more

/-- All ways a pattern matches at the front of the input, in order of preference. -/
def matcher (ignoreCase : Bool) : Regex → MatchState → List MatchState
  | .eps, s => [s]
  | .cls items, s =>
      match s.rest with
      | c :: cs =>
          if items.any (ClassItem.test ignoreCase c) then [{ s with rest := cs }] else []
      | [] => []
  | .seq a b, s => (matcher ignoreCase a s).flatMap (fun s' => matcher ignoreCase b s')
  | .alt a b, s => matcher ignoreCase a s ++ matcher ignoreCase b s
  | .rep a min max greedy, s =>
      repeatMatcher (fun s' => matcher ignoreCase a s') greedy (s.rest.length + min + 1)
        min max s
  | .group index a, s =>
      (matcher ignoreCase a s).map (fun s' =>
        { s' with captures :=
            (index, s.rest.take (s.rest.length - s'.rest.length)) :: s'.captures })

/-- The array answered by `match`: the matched text and the captures. -/
structure RegExpMatch where
  whole : List Char
  captures : List (Nat × List Char)
  deriving DecidableEq

/-- The element `match[index]` of the array, `none` when the group took no part. -/
def RegExpMatch.group? (m : RegExpMatch) (index : Nat) : Option (List Char) :=
  (m.captures.find? (fun e => e.1 == index)).map Prod.snd

/-- The element `match[index]` where the group always takes part. -/
def RegExpMatch.group (m : RegExpMatch) (index : Nat) : List Char :=
  (m.group? index).getD []

/-- The call `input.match(pattern)` for a pattern without the flag `g`: the first match at
the leftmost start that admits one, `none` (that is `null`) when there is none. -/
def regexMatch (ignoreCase : Bool) (re : Regex) : List Char → Option RegExpMatch
  | [] =>
      match matcher ignoreCase re ⟨[], []⟩ with
      | s' :: _ => some ⟨[], s'.captures⟩
      | [] => none
  | c :: cs =>
      match matcher ignoreCase re ⟨c :: cs, []⟩ with
      | s' :: _ => some ⟨(c :: cs).take ((c :: cs).length - s'.rest.length), s'.captures⟩
      | [] => regexMatch ignoreCase re cs

namespace Regex

/-- A literal run of characters. -/
def lit (s : String) : Regex := s.toList.foldr (fun c r => Regex.seq (.cls [.char c]) r) .eps

/-- A sequence of patterns. -/
def seqs (l : List Regex) : Regex := l.foldr Regex.seq .eps

/-- An alternation `a|b|...`. -/
def alts : List Regex → Regex
  | [] => .cls []
  | [a] => a
  | a :: rest => .alt a (alts rest)

/-- The quantifier `*`. -/
def star (a : Regex) : Regex := .rep a 0 none true

/-- The quantifier `+`. -/
def plus (a : Regex) : Regex := .rep a 1 none true

/-- The lazy quantifier `+?`. -/
def plusLazy (a : Regex) : Regex := .rep a 1 none false

/-- The quantifier `?`. -/
def opt (a : Regex) : Regex := .rep a 0 (some 1) true

/-- The quantifier `{lo,hi}`. -/
def times (a : Regex) (lo hi : Nat) : Regex := .rep a lo (some hi) true

/-- The class `\d`. -/
def digit : Regex := .cls [.digit]

/-- The class `\s`. -/
def space : Regex := .cls [.space]

/-- The class `[:\s]`. -/
def colonOrSpace : Regex := .cls [.char ':', .space]

/-- The class `[a-zA-Z\s]`. -/
def letterOrSpace : Regex := .cls [.range 'a' 'z', .range 'A' 'Z', .space]

end Regex

/-- The method `String.prototype.trim`. -/
def trim (s : List Char) : List Char :=
  ((s.dropWhile isWhiteSpace).reverse.dropWhile isWhiteSpace).reverse

/-- The value of a run of decimal digits. -/
def parseDigits (cs : List Char) : Nat :=
  cs.foldl (fun n c => 10 * n + (c.toNat - '0'.toNat)) 0

/-- The function `parseFloat` on an unsigned decimal numeral without exponent (all a budget
pattern can capture): the digits, then optionally a point and more digits, read as the
double nearest to the decimal value, which is `Infinity` for a numeral too large for a
finite double; `NaN` when the text starts with neither. -/
def parseFloat (cs : List Char) : JSNum :=
  let whole := cs.takeWhile Char.isDigit
  let fraction :=
    match cs.dropWhile Char.isDigit with
    | '.' :: ds => ds.takeWhile Char.isDigit
    | _ => []
  if whole.isEmpty && fraction.isEmpty then .nan
  else roundDouble ((parseDigits whole : ℚ) + (parseDigits fraction : ℚ) / 10 ^ fraction.length)

/-- The function `parseInt` on text that starts with decimal digits: the double nearest to
their value; `NaN` otherwise. -/
def parseInt (cs : List Char) : JSNum :=
  let whole := cs.takeWhile Char.isDigit
  if whole.isEmpty then .nan else roundDouble (parseDigits whole : ℚ)

/-! ## Requirement extraction from the message text -/

/-- The four pattern lists of `leadExtractionRules.patterns` that the helpers read. -/
structure LeadExtractionRules where
  budget : List Regex
  location : List Regex
  propertyType : List Regex
  size : List Regex

namespace AIProcessor

open Regex in
/-- The sub-pattern `\d{1,3}(?:,\d{3})*(?:\.\d{2})?` shared by the budget patterns. -/
def amountPattern : Regex :=
  seqs [times digit 1 3, star (seqs [lit ",", times digit 3 3]),
    opt (seqs [lit ".", times digit 2 2])]

open Regex in
/-- The sub-pattern `egp|le|pound|million|k|thousand` shared by the budget patterns. -/
def unitPattern : Regex :=
  alts [lit "egp", lit "le", lit "pound", lit "million", lit "k", lit "thousand"]

open Regex in
/-- The shape `keyword[:\s]*(amount)\s*(unit)` of the budget patterns that start with a
keyword: `budget`, `can\s+afford`, `up\s+to`, `max`. -/
def keywordBudgetPattern (keyword : Regex) : Regex :=
  seqs [keyword, star colonOrSpace, .group 1 amountPattern, star space, .group 2 unitPattern]

open Regex in
/-- The sub-pattern `sqm|m2|meter|square\s*meter` shared by the size patterns. -/
def sizeUnitPattern : Regex :=
  alts [lit "sqm", lit "m2", lit "meter", seqs [lit "square", star space, lit "meter"]]

open Regex in
/-- The sub-pattern `apartment|flat|villa` shared by the bedroom and bathroom patterns. -/
def roomTypePattern : Regex := alts [lit "apartment", lit "flat", lit "villa"]

open Regex in
/-- The patterns of `initializeLeadRules`, each in the order of the source. -/
def leadExtractionRules : LeadExtractionRules where
  budget :=
    [keywordBudgetPattern (lit "budget"),
     seqs [.group 1 amountPattern, star space, .group 2 unitPattern, star space,
       lit "budget"],
     keywordBudgetPattern (seqs [lit "can", plus space, lit "afford"]),
     keywordBudgetPattern (seqs [lit "up", plus space, lit "to"]),
     keywordBudgetPattern (lit "max")]
  location :=
    [seqs [alts [lit "in", lit "at", lit "near", lit "around"], plus space,
       .group 1 (seqs [plusLazy letterOrSpace,
         alts [lit "city", lit "area", lit "district", lit "zone", lit "compound",
           seqs [lit "new", plus space, lit "capital"],
           seqs [lit "6th", plus space, lit "october"],
           seqs [lit "sheikh", plus space, lit "zayed"],
           lit "maadi", lit "zamalek", lit "heliopolis",
           seqs [lit "nasr", plus space, lit "city"]]])],
     seqs [lit "location", star colonOrSpace, .group 1 (plus letterOrSpace)],
     seqs [lit "area", star colonOrSpace, .group 1 (plus letterOrSpace)],
     seqs [lit "district", star colonOrSpace, .group 1 (plus letterOrSpace)],
     .group 1 (alts
       [seqs [lit "new", plus space, lit "administrative", plus space, lit "capital"],
        seqs [lit "new", plus space, lit "capital"],
        seqs [lit "6th", plus space, lit "of", plus space, lit "october"],
        seqs [lit "sheikh", plus space, lit "zayed"],
        lit "maadi", lit "zamalek", lit "heliopolis",
        seqs [lit "nasr", plus space, lit "city"],
        lit "downtown",
        seqs [lit "garden", plus space, lit "city"],
        lit "dokki", lit "mohandeseen", lit "giza", lit "alexandria", lit "hurghada",
        seqs [lit "sharm", plus space, lit "el", plus space, lit "sheikh"]])]
  propertyType :=
    [.group 1 (alts [lit "apartment", lit "flat", lit "villa", lit "townhouse", lit "duplex",
       lit "studio", lit "penthouse", lit "chalet", lit "office", lit "shop", lit "warehouse",
       lit "land", lit "plot"]),
     seqs [.group 1 (plus digit), star space,
       .group 2 (alts [lit "bed", lit "bedroom", lit "br"]), star space,
       .group 3 roomTypePattern],
     seqs [.group 1 (plus digit), star space,
       .group 2 (alts [lit "bath", lit "bathroom", lit "br"]), star space,
       .group 3 roomTypePattern],
     seqs [lit "property", star space, lit "type", star colonOrSpace,
       .group 1 (plus letterOrSpace)]]
  size :=
    [seqs [.group 1 (plus digit), star space,
       .group 2 (alts [lit "sqm", lit "m2", lit "meter",
         seqs [lit "square", star space, lit "meter"], lit "متر"])],
     seqs [lit "size", star colonOrSpace, .group 1 (plus digit), star space,
       .group 2 sizeUnitPattern],
     seqs [lit "area", star colonOrSpace, .group 1 (plus digit), star space,
       .group 2 sizeUnitPattern]]

/-- The step "convert to standard format (EGP)" of `extractBudget`: the amount scaled by
what the lower-cased unit contains. -/
def convertToEGP (amount : JSNum) (unit : List Char) : JSNum :=
  if includes unit "million".toList then amount * JSNum.fin 1000000
  else if includes unit "k".toList || includes unit "thousand".toList then
    amount * JSNum.fin 1000
  else amount

/-- The method `extractBudget(message)`. -/
def extractBudget (message : String) : Option Budget :=
  leadExtractionRules.budget.findSome? (fun pattern =>
    (regexMatch true pattern message.toList).map (fun m =>
      let amount := parseFloat ((m.group 1).filter (fun c => c != ','))
      let unit := toLowerCase (String.mk (m.group 2))
      { amount := convertToEGP amount unit, currency := "EGP", raw := String.mk m.whole }))

/-- The method `extractLocation(message)`. -/
def extractLocation (message : String) : Option Location :=
  leadExtractionRules.location.findSome? (fun pattern =>
    (regexMatch true pattern message.toList).map (fun m =>
      { area := String.mk (trim (m.group 1)), raw := String.mk m.whole,
        confidence := .fin (8 / 10) }))

/-- The method `extractPropertyType(message)`; `match[1] || match[0]` falls back to the
whole match when the first group is missing or empty. -/
def extractPropertyType (message : String) : Option PropertyType :=
  leadExtractionRules.propertyType.findSome? (fun pattern =>
    (regexMatch true pattern message.toList).map (fun m =>
      let first := m.group 1
      { type := String.mk (if first.isEmpty then m.whole else first),
        raw := String.mk m.whole, confidence := .fin (9 / 10) }))

/-- The method `extractSize(message)`. -/
def extractSize (message : String) : Option Size :=
  leadExtractionRules.size.findSome? (fun pattern =>
    (regexMatch true pattern message.toList).map (fun m =>
      { area := parseInt (m.group 1), unit := "sqm", raw := String.mk m.whole }))

/-- The table `intentClassifier.categories` of `initializeIntentClassifier`, in key
order. -/
def intentCategories : List (IntentCategory × List String) :=
  [(.BUY, ["buy", "purchase", "invest", "own", "ownership"]),
   (.RENT, ["rent", "lease", "rental", "monthly", "tenant"]),
   (.SELL, ["sell", "selling", "market", "list", "offer"]),
   (.INVEST, ["investment", "roi", "return", "profit", "portfolio"])]

/-- The method `classifyIntent(message)`. -/
def classifyIntent (message : String) : Option Intent :=
  let text := toLowerCase message
  intentCategories.findSome? (fun entry =>
    entry.2.findSome? (fun keyword =>
      if includes text keyword.toList then
        some { intent := entry.1, confidence := .fin (8 / 10), keyword := keyword }
      else none))

/-- The list `sentimentAnalyzer.positive` of `initializeSentimentAnalyzer`. -/
def positiveWords : List String :=
  ["excellent", "perfect", "amazing", "interested", "ready", "urgent", "serious"]

/-- The list `sentimentAnalyzer.negative` of `initializeSentimentAnalyzer`. -/
def negativeWords : List String :=
  ["expensive", "small", "far", "bad", "disappointed", "not interested"]

/-- The method `analyzeSentiment(message)`. -/
def analyzeSentiment (message : String) : Sentiment :=
  let text := toLowerCase message
  let positiveScore : Nat := positiveWords.foldl
    (fun score word => if includes text word.toList then score + 1 else score) 0
  let negativeScore : Nat := negativeWords.foldl
    (fun score word => if includes text word.toList then score + 1 else score) 0
  if positiveScore > negativeScore then .positive
  else if negativeScore > positiveScore then .negative
  else .neutral

/-- The list `urgentKeywords` of `assessUrgency`. -/
def urgentKeywords : List String := ["urgent", "asap", "immediately", "today", "now", "quick"]

/-- The method `assessUrgency(message)`. -/
def assessUrgency (message : String) : Urgency :=
  let text := toLowerCase message
  if urgentKeywords.any (fun keyword => includes text keyword.toList) then .high
  else if includes text "soon".toList || includes text "this week".toList then .medium
  else .low

/-- The seven helper calls that `extractCustomerRequirements(message, sender)` makes on the
message. -/
def runHelpers (message : String) : Extraction where
  budgetMatch := extractBudget message
  locationMatch := extractLocation message
  typeMatch := extractPropertyType message
  sizeMatch := extractSize message
  intentMatch := classifyIntent message
  sentiment := analyzeSentiment message
  urgency := assessUrgency message

end AIProcessor

/-! ## Inventory operations and re-matching -/

/-- The method `Map.prototype.has`. -/
def mapHas {β : Type} (m : List (String × β)) (k : String) : Bool :=
  m.any (fun e => e.1 == k)

/-- The method `Map.prototype.delete`. -/
def mapDelete {β : Type} (m : List (String × β)) (k : String) : List (String × β) :=
  m.filter (fun e => e.1 != k)

namespace AIProcessor

/-- The method `triggerReMatching()` run to its end: for each customer on file, in order,
the matches are computed anew and stored. (The rows a `fetch` would answer, should the
inventory be empty, are the input `fetched`.) -/
def triggerReMatching (s : AIProcessor) (fetched : Option (List Property)) : AIProcessor :=
  s.customerRequirements.foldl (fun st entry =>
    let r := findMatchingProperties st entry.2.toRequirements fetched
    let st := r.1
    { st with matchingResults := mapSet st.matchingResults entry.1 r.2 }) s

/-- The method `addPropertyToInventory(property)`, with the re-matching pass it starts run
to its end. -/
def addPropertyToInventory (s : AIProcessor) (property : Property)
    (fetched : Option (List Property)) : AIProcessor :=
  let inventory := mapSet s.propertyInventory property.id property
  triggerReMatching { s with propertyInventory := inventory } fetched

/-- The method `updatePropertyInInventory(propertyId, updatedProperty)`, with the
re-matching pass it starts run to its end. -/
def updatePropertyInInventory (s : AIProcessor) (propertyId : String)
    (updatedProperty : Property) (fetched : Option (List Property)) : AIProcessor :=
  if mapHas s.propertyInventory propertyId then
    let inventory := mapSet s.propertyInventory propertyId updatedProperty
    triggerReMatching { s with propertyInventory := inventory } fetched
  else s

/-- The method `removePropertyFromInventory(propertyId)`. -/
def removePropertyFromInventory (s : AIProcessor) (propertyId : String) : AIProcessor :=
  { s with propertyInventory := mapDelete s.propertyInventory propertyId }

/-- The method `getAllPropertyInventory()`. -/
def getAllPropertyInventory (s : AIProcessor) : List Property :=
  s.propertyInventory.map Prod.snd

end AIProcessor

/-- One call of an inventory operation. -/
inductive InventoryCall where
  | add (property : Property)
  | update (propertyId : String) (updatedProperty : Property)
  | remove (propertyId : String)

/-- The processor after one inventory call. -/
def InventoryCall.run (fetched : Option (List Property)) (s : AIProcessor) :
    InventoryCall → AIProcessor
  | .add property => AIProcessor.addPropertyToInventory s property fetched
  | .update propertyId updatedProperty =>
      AIProcessor.updatePropertyInInventory s propertyId updatedProperty fetched
  | .remove propertyId => AIProcessor.removePropertyFromInventory s propertyId

/-- The processor after a sequence of inventory calls, each run to its end before the
next. -/
def runCalls (fetched : Option (List Property)) (s : AIProcessor)
    (calls : List InventoryCall) : AIProcessor :=
  calls.foldl (InventoryCall.run fetched) s

/-- An update call stores the property under the property's own id. -/
def InventoryCall.KeyedById : InventoryCall → Prop
  | .update propertyId updatedProperty => updatedProperty.id = propertyId
  | _ => True

/-- The loop, the sort and the slice of `findMatchingProperties` over a given inventory. -/
def AIProcessor.matchesOver (inventory : List (String × Property))
    (requirements : Requirements) : List Match :=
  (AIProcessor.sortMatches ((inventory.filter (fun entry =>
    decide (AIProcessor.matchingThreshold ≤
      AIProcessor.calculateMatchingScore requirements entry.2))).map
        (AIProcessor.makeMatch requirements))).take 10

/-- A processor with no property, no customer and no cached result. -/
def emptyProcessor : AIProcessor where
  propertyInventory := []
  customerRequirements := []
  matchingResults := []
  conversationHistory := []

/-- Ten sample apartments in Maadi at 800,000 EGP, each scoring 1.0 against
`sampleRequirements`. -/
def crowdInventory : List (String × Property) :=
  ["q0", "q1", "q2", "q3", "q4", "q5", "q6", "q7", "q8", "q9"].map
    (fun id => (id, sampleProperty id "Maadi" 800000))

/-- A processor with the ten apartments of `crowdInventory` in stock and one customer on
file. -/
def crowdedProcessor : AIProcessor where
  propertyInventory := crowdInventory
  customerRequirements := [("201001234567", sampleStored)]
  matchingResults := []
  conversationHistory := []

/-! ## More of the specification's wording -/

/-- A score is the best of a match list: some entry carries it and no entry exceeds it. -/
def IsBestScore (best : JSNum) (found : List Match) : Prop :=
  (∃ m ∈ found, m.matchScore = best) ∧ ∀ m ∈ found, m.matchScore ≤ best

/-- The keyword list of an intent category. -/
def keywordsOf : IntentCategory → List String
  | .BUY => ["buy", "purchase", "invest", "own", "ownership"]
  | .RENT => ["rent", "lease", "rental", "monthly", "tenant"]
  | .SELL => ["sell", "selling", "market", "list", "offer"]
  | .INVEST => ["investment", "roi", "return", "profit", "portfolio"]

/-- The lower-cased message contains a keyword of the category. -/
def categoryContained (message : String) (category : IntentCategory) : Bool :=
  (keywordsOf category).any (fun keyword => includes (toLowerCase message) keyword.toList)

/-- The number of entries of a lexicon that the lower-cased message contains, each entry
counted once. -/
def containedCount (lexicon : List String) (message : String) : Nat :=
  (lexicon.filter (fun word => includes (toLowerCase message) word.toList)).length

/-- The sum of the fixed confidence weights of the fields a requirement carries: budget
0.2, location 0.25, propertyType 0.2, size 0.15, intent 0.2. -/
def extractedWeights (requirements : Requirements) : ℚ :=
  (if requirements.budget.isSome then 2 / 10 else 0) +
  (if requirements.location.isSome then 25 / 100 else 0) +
  (if requirements.propertyType.isSome then 2 / 10 else 0) +
  (if requirements.size.isSome then 15 / 100 else 0) +
  (if requirements.intent.isSome then 2 / 10 else 0)

/-- The factor by which the specification scales a budget by its unit token: 'million'
by 1,000,000, 'k' or 'thousand' by 1,000, any other unit by 1. -/
def unitFactor (unit : String) : ℚ :=
  if unit = "million" then 1000000
  else if unit = "k" ∨ unit = "thousand" then 1000
  else 1

/-! ## More sample records -/

/-- The sample requirement without budget and location: only the property type and the
size remain to compare. -/
def typeAndSizeRequirements : Requirements :=
  { sampleRequirements with budget := none, location := none }

/-- A processor whose inventory holds the one sample apartment `p1`, in Maadi at 620,000
EGP. -/
def singleProcessor : AIProcessor where
  propertyInventory := [("p1", sampleProperty "p1" "Maadi" 620000)]
  customerRequirements := []
  matchingResults := []
  conversationHistory := []
/-- A record that breaks every rule of the data model at once: the id is the empty string,
the price is negative and the size is zero. -/
def invalidProperty : Property :=
  { sampleProperty "" "Maadi" (-1) with size := some (.fin 0) }
/-! ## The secondary matcher `PropertyMatcher` -/

/-- A row of the table `properties` as `PropertyMatcher` reads it; `none` is a missing
field. -/
structure PropertyRow where
  id : String
  status : String
  price : Option JSNum
  location : Option String
  property_type : Option String
  bedrooms : Option JSNum
  bathrooms : Option JSNum
  deriving DecidableEq

/-- The object `criteria` handed to `findMatches`; `none` is a missing field. -/
structure Criteria where
  budget : Option JSNum
  location : Option String
  propertyType : Option String
  bedrooms : Option JSNum
  bathrooms : Option JSNum
  deriving DecidableEq

/-- One entry of the array answered by `findMatches`: the row, spread, with its score and
its reasons. -/
structure ScoredProperty where
  property : PropertyRow
  matchScore : JSNum
  matchReasons : List String
  deriving DecidableEq

/-- The field `weights` set by the constructor of `PropertyMatcher`. -/
structure MatcherWeights where
  budget : JSNum
  location : JSNum
  propertyType : JSNum
  bedrooms : JSNum
  bathrooms : JSNum

/-- A possibly missing number inside arithmetic: `undefined` converts to `NaN`. -/
def toNumber : Option JSNum → JSNum
  | some x => x
  | none => .nan

namespace PropertyMatcher

/-- The weights set by the constructor. -/
def weights : MatcherWeights where
  budget := .fin (3 / 10)
  location := .fin (25 / 100)
  propertyType := .fin (2 / 10)
  bedrooms := .fin (15 / 100)
  bathrooms := .fin (1 / 10)

/-- The method `scoreBudgetMatch(propertyPrice, targetBudget)`. -/
def scoreBudgetMatch (propertyPrice targetBudget : JSNum) : JSNum :=
  let priceDiff := JSNum.abs (propertyPrice - targetBudget) / targetBudget
  if priceDiff ≤ .fin (1 / 10) then .fin 1
  else if priceDiff ≤ .fin (2 / 10) then .fin (8 / 10)
  else if priceDiff ≤ .fin (3 / 10) then .fin (6 / 10)
  else if priceDiff ≤ .fin (5 / 10) then .fin (4 / 10)
  else .fin 0

/-- The table `locationAliases` of `scoreLocationMatch`. -/
def locationAliases : List (String × List String) :=
  [("new cairo", ["new cairo", "fifth settlement", "التجمع الخامس", "القاهرة الجديدة"]),
   ("zamalek", ["zamalek", "الزمالك"]),
   ("maadi", ["maadi", "المعادي"]),
   ("6th october", ["6th october", "6 october", "sixth of october", "٦ أكتوبر"]),
   ("heliopolis", ["heliopolis", "مصر الجديدة"]),
   ("alexandria", ["alexandria", "الإسكندرية"]),
   ("sheikh zayed", ["sheikh zayed", "الشيخ زايد"])]

/-- The keys every object literal inherits; `locationAliases[key]` answers for them a
function or an object, which the loop over the aliases cannot iterate. -/
def inheritedKeys : List String :=
  ["constructor", "__defineGetter__", "__defineSetter__", "hasOwnProperty",
   "__lookupGetter__", "__lookupSetter__", "isPrototypeOf", "propertyIsEnumerable",
   "toString", "valueOf", "__proto__", "toLocaleString"]

/-- The method `scoreLocationMatch(propertyLocation, targetLocation)`; `none` when it
throws: `toLowerCase` on a missing location, or the loop over an inherited key. -/
def scoreLocationMatch (propertyLocation : Option String) (targetLocation : String) :
    Option JSNum :=
  match propertyLocation with
  | none => none
  | some location =>
      let propertyLocationLower := toLowerCase location
      if targetLocation ∈ inheritedKeys then none
      else
        let targetAliases := (mapGet locationAliases targetLocation).getD [targetLocation]
        if targetAliases.any (fun name => includes propertyLocationLower (toLowerCase name))
        then some (.fin 1)
        else some (.fin 0)

/-- The method `scoreBedroomMatch(propertyBedrooms, targetBedrooms)`. -/
def scoreBedroomMatch (propertyBedrooms targetBedrooms : JSNum) : JSNum :=
  let diff := JSNum.abs (propertyBedrooms - targetBedrooms)
  if diff = .fin 0 then .fin 1
  else if diff = .fin 1 then .fin (7 / 10)
  else if diff = .fin 2 then .fin (4 / 10)
  else .fin 0

/-- The method `scoreBathroomMatch(propertyBathrooms, targetBathrooms)`. -/
def scoreBathroomMatch (propertyBathrooms targetBathrooms : JSNum) : JSNum :=
  let diff := JSNum.abs (propertyBathrooms - targetBathrooms)
  if diff = .fin 0 then .fin 1
  else if diff = .fin 1 then .fin (8 / 10)
  else .fin 0

/-- The method `calculateMatchScore(property, criteria)`; `none` when it throws. The pair
is `(totalScore, applicableWeights)`. -/
def calculateMatchScore (property : PropertyRow) (criteria : Criteria) : Option JSNum := do
  let acc : JSNum × JSNum := (.fin 0, .fin 0)
  let acc :=
    if truthyNum criteria.budget then
      (acc.1 + scoreBudgetMatch (toNumber property.price) (toNumber criteria.budget) *
        weights.budget, acc.2 + weights.budget)
    else acc
  let acc ←
    match criteria.location with
    | some targetLocation =>
        if truthyStr (some targetLocation) then
          (scoreLocationMatch property.location targetLocation).map (fun locationScore =>
            (acc.1 + locationScore * weights.location, acc.2 + weights.location))
        else some acc
    | none => some acc
  let acc :=
    if truthyStr criteria.propertyType then
      let typeScore : JSNum :=
        if property.property_type = criteria.propertyType then .fin 1 else .fin 0
      (acc.1 + typeScore * weights.propertyType, acc.2 + weights.propertyType)
    else acc
  let acc :=
    if truthyNum criteria.bedrooms then
      (acc.1 + scoreBedroomMatch (toNumber property.bedrooms) (toNumber criteria.bedrooms) *
        weights.bedrooms, acc.2 + weights.bedrooms)
    else acc
  let acc :=
    if truthyNum criteria.bathrooms then
      (acc.1 +
        scoreBathroomMatch (toNumber property.bathrooms) (toNumber criteria.bathrooms) *
          weights.bathrooms, acc.2 + weights.bathrooms)
    else acc
  if JSNum.fin 0 < acc.2 then some (acc.1 / acc.2) else some (.fin 0)

/-- The method `getMatchReasons(property, criteria)`; `none` when it throws. -/
def getMatchReasons (property : PropertyRow) (criteria : Criteria) : Option (List String) := do
  let reasons : List String := []
  let reasons :=
    if truthyNum criteria.budget then
      let priceDiff :=
        JSNum.abs (toNumber property.price - toNumber criteria.budget) /
          toNumber criteria.budget
      if priceDiff ≤ .fin (1 / 10) then reasons ++ ["Perfect budget match"]
      else if priceDiff ≤ .fin (3 / 10) then reasons ++ ["Good budget fit"]
      else reasons
    else reasons
  let reasons ←
    match criteria.location with
    | some targetLocation =>
        if truthyStr (some targetLocation) then
          (scoreLocationMatch property.location targetLocation).map (fun locationScore =>
            if JSNum.fin 0 < locationScore then reasons ++ ["Matches preferred location"]
            else reasons)
        else some reasons
    | none => some reasons
  let reasons :=
    if truthyStr criteria.propertyType ∧ property.property_type = criteria.propertyType then
      reasons ++ ["Exact property type match"]
    else reasons
  let reasons :=
    if truthyNum criteria.bedrooms then
      let diff := JSNum.abs (toNumber property.bedrooms - toNumber criteria.bedrooms)
      if diff = .fin 0 then reasons ++ ["Perfect bedroom count"]
      else if diff = .fin 1 then reasons ++ ["Close bedroom count match"]
      else reasons
    else reasons
  some reasons

/-- The loop of `findMatches` over the available rows; `none` when an iteration throws. -/
def scoreLoop (criteria : Criteria) : List PropertyRow → Option (List ScoredProperty)
  | [] => some []
  | property :: rest => do
      let score ← calculateMatchScore property criteria
      let entry ←
        if JSNum.fin (3 / 10) < score then
          (getMatchReasons property criteria).map (fun reasons =>
            [({ property := property, matchScore := score, matchReasons := reasons } :
              ScoredProperty)])
        else some []
      let scored ← scoreLoop criteria rest
      some (entry ++ scored)

/-- The call `scoredProperties.sort((a, b) => b.matchScore - a.matchScore)`: a stable sort,
an element stays in front of a later one unless the comparator is positive. -/
def sortScored (l : List ScoredProperty) : List ScoredProperty :=
  l.insertionSort (fun a b => ¬ (JSNum.fin 0 < b.matchScore - a.matchScore))

/-- The method `findMatches(criteria)`. The rows answered by the request for
`tables/properties` are an input: `none` when the request or its decoding throws or the
answer has no `data`. An exception inside the `try` block gives the empty array. -/
def findMatches (fetched : Option (List PropertyRow)) (criteria : Criteria) :
    List ScoredProperty :=
  match fetched with
  | none => []
  | some rows =>
      if rows.length = 0 then []
      else
        let properties := rows.filter (fun prop => prop.status = "available")
        match scoreLoop criteria properties with
        | some scoredProperties => sortScored scoredProperties
        | none => []

end PropertyMatcher

/-- A customer who asks for a villa in Maadi with five bedrooms and four bathrooms for
1,000,000 EGP. -/
def villaCriteria : Criteria where
  budget := some (.fin 1000000)
  location := some "maadi"
  propertyType := some "villa"
  bedrooms := some (.fin 5)
  bathrooms := some (.fin 4)

/-- An available apartment in Zamalek at exactly 1,000,000 EGP, with two bedrooms and one
bathroom. -/
def zamalekRow : PropertyRow where
  id := "r1"
  status := "available"
  price := some (.fin 1000000)
  location := some "Zamalek"
  property_type := some "apartment"
  bedrooms := some (.fin 2)
  bathrooms := some (.fin 1)
/-- The pattern has no capturing group. -/
def Regex.groupFree : Regex → Bool
  | .eps => true
  | .cls _ => true
  | .seq a b => a.groupFree && b.groupFree
  | .alt a b => a.groupFree && b.groupFree
  | .rep a _ _ _ => a.groupFree
  | .group _ _ => false

/-! ## The match score and the confidence in an arithmetic -/

namespace Arithmetic

/-- The field `propertyMatchingWeights`, its literals read in the arithmetic. -/
def propertyMatchingWeights (A : Arithmetic) : PropertyWeights where
  location := A.lit (35 / 100)
  budget := A.lit (25 / 100)
  propertyType := A.lit (20 / 100)
  size := A.lit (15 / 100)
  amenities := A.lit (5 / 100)

/-- The method `calculateLocationMatch(reqLocation, propLocation)` in the arithmetic. -/
def calculateLocationMatch (A : Arithmetic) (reqLocation : Location) (propLocation : String) :
    JSNum :=
  let req := toLowerCase reqLocation.area
  let prop := toLowerCase propLocation
  if req = prop then A.lit 1
  else if includes prop req || includes req prop then A.lit (8 / 10)
  else A.lit 0

/-- The method `calculateBudgetMatch(reqBudget, propPrice)` in the arithmetic. -/
def calculateBudgetMatch (A : Arithmetic) (reqBudget : Budget) (propPrice : JSNum) : JSNum :=
  let budget := reqBudget.amount
  let price := propPrice
  if price ≤ budget then
    let ratio := A.div price budget
    if A.lit (7 / 10) ≤ ratio then A.lit 1 else ratio
  else
    let overBudget := A.div (A.sub price budget) budget
    if overBudget ≤ A.lit (1 / 10) then A.lit (8 / 10)
    else if overBudget ≤ A.lit (2 / 10) then A.lit (6 / 10)
    else A.lit 0

/-- The method `calculateTypeMatch(reqType, propType)` in the arithmetic. -/
def calculateTypeMatch (A : Arithmetic) (reqType : PropertyType) (propType : String) : JSNum :=
  let req := toLowerCase reqType.type
  let prop := toLowerCase propType
  if req = prop then A.lit 1
  else if AIProcessor.similarTypes.any (fun e =>
      (decide (req = e.1) && e.2.contains prop) || (decide (prop = e.1) && e.2.contains req))
    then A.lit (8 / 10)
  else A.lit 0

/-- The method `calculateSizeMatch(reqSize, propSize)` in the arithmetic. -/
def calculateSizeMatch (A : Arithmetic) (reqSize : Size) (propSize : JSNum) : JSNum :=
  let required := reqSize.area
  let available := propSize
  let difference := A.div (JSNum.abs (A.sub available required)) required
  if difference ≤ A.lit (1 / 10) then A.lit 1
  else if difference ≤ A.lit (2 / 10) then A.lit (8 / 10)
  else if difference ≤ A.lit (3 / 10) then A.lit (6 / 10)
  else A.lit 0

/-- The running pair `(totalScore, totalWeight)` of `calculateMatchingScore` after one
criterion block, in the arithmetic. -/
def addCriterion (A : Arithmetic) (acc : JSNum × JSNum) (guard : Bool) (score weight : JSNum) :
    JSNum × JSNum :=
  if guard then (A.add acc.1 (A.mul score weight), A.add acc.2 weight) else acc

/-- The method `calculateMatchingScore(requirements, property)` in the arithmetic. -/
def calculateMatchingScore (A : Arithmetic) (requirements : Requirements)
    (property : Property) : JSNum :=
  let w := A.propertyMatchingWeights
  let acc : JSNum × JSNum := (A.lit 0, A.lit 0)
  let acc :=
    match requirements.location, property.location with
    | some reqLocation, some propLocation =>
        A.addCriterion acc (truthyStr (some propLocation))
          (A.calculateLocationMatch reqLocation propLocation) w.location
    | _, _ => acc
  let acc :=
    match requirements.budget, property.price with
    | some reqBudget, some propPrice =>
        A.addCriterion acc (truthyNum (some propPrice))
          (A.calculateBudgetMatch reqBudget propPrice) w.budget
    | _, _ => acc
  let acc :=
    match requirements.propertyType, property.type with
    | some reqType, some propType =>
        A.addCriterion acc (truthyStr (some propType))
          (A.calculateTypeMatch reqType propType) w.propertyType
    | _, _ => acc
  let acc :=
    match requirements.size, property.size with
    | some reqSize, some propSize =>
        A.addCriterion acc (truthyNum (some propSize))
          (A.calculateSizeMatch reqSize propSize) w.size
    | _, _ => acc
  if A.lit 0 < acc.2 then A.div acc.1 acc.2 else A.lit 0

/-- The method `extractCustomerRequirements(message, sender)`, from the answers of the
pattern helpers on the message and the clock reading of `Date.now()`, the confidence being
added up in the arithmetic. -/
def extractCustomerRequirements (A : Arithmetic) (e : Extraction) (now : Nat) : Requirements :=
  let requirements : Requirements :=
    { intent := none, budget := none, location := none, propertyType := none,
      size := none, bedrooms := none, bathrooms := none, contact := none,
      urgency := .medium, sentiment := .neutral, confidence := A.lit 0,
      extractedAt := now }
  let requirements :=
    match e.budgetMatch with
    | some budgetMatch =>
        { requirements with budget := some budgetMatch,
                            confidence := A.add requirements.confidence (A.lit (2 / 10)) }
    | none => requirements
  let requirements :=
    match e.locationMatch with
    | some locationMatch =>
        { requirements with location := some locationMatch,
                            confidence := A.add requirements.confidence (A.lit (25 / 100)) }
    | none => requirements
  let requirements :=
    match e.typeMatch with
    | some typeMatch =>
        { requirements with propertyType := some typeMatch,
                            confidence := A.add requirements.confidence (A.lit (2 / 10)) }
    | none => requirements
  let requirements :=
    match e.sizeMatch with
    | some sizeMatch =>
        { requirements with size := some sizeMatch,
                            confidence := A.add requirements.confidence (A.lit (15 / 100)) }
    | none => requirements
  let requirements :=
    match e.intentMatch with
    | some intentMatch =>
        { requirements with intent := some intentMatch,
                            confidence := A.add requirements.confidence (A.lit (2 / 10)) }
    | none => requirements
  { requirements with sentiment := e.sentiment, urgency := e.urgency }

end Arithmetic

/-- The weight of a criterion, its literal read in an arithmetic. -/
def Criterion.weightIn (A : Arithmetic) : Criterion → JSNum
  | .location => A.lit (35 / 100)
  | .budget => A.lit (25 / 100)
  | .propertyType => A.lit (20 / 100)
  | .size => A.lit (15 / 100)

/-- The sub-score of a criterion that both sides carry, computed in an arithmetic (`0`
stands in where a side lacks it; such a criterion is never summed). -/
def Criterion.subScoreIn (A : Arithmetic) (requirements : Requirements) (property : Property) :
    Criterion → JSNum
  | .location =>
      match requirements.location, property.location with
      | some reqLocation, some propLocation => A.calculateLocationMatch reqLocation propLocation
      | _, _ => A.lit 0
  | .budget =>
      match requirements.budget, property.price with
      | some reqBudget, some propPrice => A.calculateBudgetMatch reqBudget propPrice
      | _, _ => A.lit 0
  | .propertyType =>
      match requirements.propertyType, property.type with
      | some reqType, some propType => A.calculateTypeMatch reqType propType
      | _, _ => A.lit 0
  | .size =>
      match requirements.size, property.size with
      | some reqSize, some propSize => A.calculateSizeMatch reqSize propSize
      | _, _ => A.lit 0

/-- The sum of a list of numbers in an arithmetic, taken from the left starting at 0. -/
def sumIn (A : Arithmetic) (l : List JSNum) : JSNum := l.foldl A.add (A.lit 0)

/-- The weighted average `(sum of w_c * s_c) / (sum of w_c)` over the criteria specified on
both sides, evaluated in an arithmetic: each product, each sum from the left in the order
location, budget, propertyType, size, and the quotient; `0` when no criterion is
specified. -/
def weightedAverageIn (A : Arithmetic) (requirements : Requirements) (property : Property) :
    JSNum :=
  let present := specifiedCriteria requirements property
  if present.isEmpty then A.lit 0
  else
    A.div
      (sumIn A (present.map (fun c => A.mul (c.weightIn A) (c.subScoreIn A requirements property))))
      (sumIn A (present.map (Criterion.weightIn A)))

/-- A requirement for a villa in Maadi for up to 1,000,000 EGP, no size given. -/
def villaRequirements : Requirements :=
  { sampleRequirements with
    propertyType := some ⟨"villa", "villa", .fin (9 / 10)⟩, size := none }

/-- The fixed confidence weights of the helpers that answered, in the order in which
`extractCustomerRequirements` asks them: budget 0.2, location 0.25, propertyType 0.2,
size 0.15, intent 0.2. -/
def answeredWeights (e : Extraction) : List ℚ :=
  (if e.budgetMatch.isSome then [2 / 10] else []) ++
  (if e.locationMatch.isSome then [25 / 100] else []) ++
  (if e.typeMatch.isSome then [2 / 10] else []) ++
  (if e.sizeMatch.isSome then [15 / 100] else []) ++
  (if e.intentMatch.isSome then [2 / 10] else [])

namespace AIProcessor

/-- A call `extractCustomerRequirements(message, sender)` on a processor in state `s` at the
clock reading `now`: the state afterwards and the returned requirement. The method assigns
no field of the processor; it reads the rule library, which the constructor sets and no
method reassigns, through patterns without the flags `g` and `y`, so that no pattern keeps
a position between calls; the argument `sender` is not read. -/
def extractCustomerRequirementsRun (s : AIProcessor) (message _sender : String) (now : Nat) :
    AIProcessor × Requirements :=
  (s, extractCustomerRequirements (runHelpers message) now)

open Regex in
/-- The sub-pattern `جنيه|مليون|ألف` of the Arabic budget patterns. -/
def arabicUnitPattern : Regex := alts [lit "جنيه", lit "مليون", lit "ألف"]

open Regex in
/-- The list `arabicPatterns.budget` of `initializeLeadRules`, in the order of the source. No
method reads it. -/
def arabicBudgetPatterns : List Regex :=
  [seqs [lit "ميزانية", star colonOrSpace, .group 1 amountPattern, star space,
     .group 2 arabicUnitPattern],
   seqs [.group 1 amountPattern, star space, .group 2 arabicUnitPattern]]

/-- A message with a budget of 310 digits: "budget 1,000,...,000 egp" with 103 groups of
three zeros. -/
def longBudgetMessage : String :=
  "budget 1" ++ String.join (List.replicate 103 ",000") ++ " egp"

end AIProcessor

/-! ## Arithmetic of finite numbers -/

namespace JSNum

@[simp] theorem fin_le_fin (a b : ℚ) : (fin a ≤ fin b) ↔ a ≤ b := Iff.rfl

@[simp] theorem fin_lt_fin (a b : ℚ) : (fin a < fin b) ↔ a < b := Iff.rfl

@[simp] theorem fin_add_fin (a b : ℚ) : fin a + fin b = fin (a + b) := rfl

@[simp] theorem fin_mul_fin (a b : ℚ) : fin a * fin b = fin (a * b) := rfl

@[simp] theorem fin_sub_fin (a b : ℚ) : fin a - fin b = fin (a - b) := by
  show add (fin a) (neg (fin b)) = fin (a - b)
  simp [add, neg, sub_eq_add_neg]

theorem fin_div_fin (a : ℚ) {b : ℚ} (hb : b ≠ 0) : fin a / fin b = fin (a / b) := by
  show div (fin a) (fin b) = fin (a / b)
  simp [div, hb]

@[simp] theorem abs_fin (a : ℚ) : abs (fin a) = fin |a| := rfl

theorem zero_add_num (x : JSNum) : fin 0 + x = x := by
  cases x <;> first | rfl | simp

theorem add_zero_num (x : JSNum) : x + fin 0 = x := by
  cases x <;> first | rfl | simp

theorem add_assoc_num (x y z : JSNum) : x + y + z = x + (y + z) := by
  cases x <;> cases y <;> cases z <;> first | rfl | simp [add_assoc]

theorem fin_mul_comm (a : ℚ) (x : JSNum) : fin a * x = x * fin a := by
  cases x <;> first | rfl | simp [mul_comm]

end JSNum

/-! ## Rounding to the nearest double -/

/-- A rational within half a unit of an integer rounds to it. -/
theorem roundHalfEven_eq (x : ℚ) (m : ℤ) (h : |x - m| < 1 / 2) : roundHalfEven x = m := by
  rw [abs_lt] at h
  obtain ⟨h1, h2⟩ := h
  by_cases hx : (m : ℚ) ≤ x
  · have hf : ⌊x⌋ = m := by
      rw [Int.floor_eq_iff]
      constructor
      · exact hx
      · linarith
    rw [roundHalfEven, hf, if_pos (by linarith)]
  · have hx2 : x < m := not_le.mp hx
    have hf : ⌊x⌋ = m - 1 := by
      rw [Int.floor_eq_iff]
      push_cast
      constructor
      · linarith
      · linarith
    rw [roundHalfEven, hf]
    push_cast
    rw [if_neg (by linarith), if_pos (by linarith)]
    ring

/-- Rounding to an integer does not go below an integer below the argument. -/
theorem le_roundHalfEven (x : ℚ) (n : ℤ) (h : (n : ℚ) ≤ x) : n ≤ roundHalfEven x := by
  have hf : n ≤ ⌊x⌋ := Int.le_floor.mpr h
  rw [roundHalfEven]
  split_ifs <;> omega

/-- The exponent of a positive rational between two consecutive powers of two. -/
theorem log_two_eq (q : ℚ) (e : ℤ) (hq : 0 < q) (h1 : (2 : ℚ) ^ e ≤ q)
    (h2 : q < (2 : ℚ) ^ (e + 1)) : Int.log 2 q = e := by
  have ha : e ≤ Int.log 2 q :=
    (Int.zpow_le_iff_le_log (by norm_num : 1 < 2) hq).mp (by exact_mod_cast h1)
  have hb : Int.log 2 q < e + 1 :=
    (Int.lt_zpow_iff_log_lt (by norm_num : 1 < 2) hq).mp (by exact_mod_cast h2)
  omega

/-- A rational halfway between two integers rounds to the even one: here the upper. -/
theorem roundHalfEven_tie_up (x : ℚ) (m : ℤ) (h : x = m - 1 / 2) (heven : m % 2 = 0) :
    roundHalfEven x = m := by
  have hf : ⌊x⌋ = m - 1 := by
    rw [Int.floor_eq_iff, h]
    push_cast
    constructor <;> linarith
  have hodd : ¬ ((m - 1) % 2 = 0) := by omega
  rw [roundHalfEven, hf, h]
  push_cast
  rw [if_neg (by linarith), if_neg (by linarith), if_neg hodd]
  ring

/-- A rational halfway between two integers rounds to the even one: here the lower. -/
theorem roundHalfEven_tie_down (x : ℚ) (m : ℤ) (h : x = m + 1 / 2) (heven : m % 2 = 0) :
    roundHalfEven x = m := by
  have hf : ⌊x⌋ = m := by
    rw [Int.floor_eq_iff, h]
    constructor <;> linarith
  rw [roundHalfEven, hf, h, if_neg (by linarith), if_neg (by linarith), if_pos heven]

/-- The double nearest to a positive rational `q` with `2^e <= q < 2^(e+1)`, in the range
of normal numbers: `m * 2^(e-52)` for the integer `m` that `q / 2^(e-52)` rounds to. -/
theorem roundDouble_of_round (q : ℚ) (e m : ℤ) (hq : 0 < q) (he : -1022 ≤ e)
    (h1 : (2 : ℚ) ^ e ≤ q) (h2 : q < (2 : ℚ) ^ (e + 1))
    (hr : roundHalfEven (q / 2 ^ (e - 52)) = m)
    (hfin : (m : ℚ) * 2 ^ (e - 52) < 2 ^ (1024 : ℤ)) :
    roundDouble q = .fin (m * 2 ^ (e - 52)) := by
  have hlog : Int.log 2 |q| = e := by
    rw [abs_of_pos hq]
    exact log_two_eq q e hq h1 h2
  have hmax : max e (-1022) = e := max_eq_left he
  have hr2 : roundHalfEven (|q| / 2 ^ (e - 52)) = m := by
    rw [abs_of_pos hq]
    exact hr
  simp only [roundDouble, ne_of_gt hq, if_false, hlog, hmax, hr2, not_le.mpr hfin, hq, if_true]

/-- The double nearest to a positive rational, evaluated: `v` is `m * 2^(e-52)` with
`2^e <= q < 2^(e+1)` and `m` the integer within half a unit of `q / 2^(e-52)`. -/
theorem roundDouble_eval (q v : ℚ) (e m : ℤ) (hq : 0 < q) (he : -1022 ≤ e)
    (h1 : (2 : ℚ) ^ e ≤ q) (h2 : q < (2 : ℚ) ^ (e + 1))
    (hm1 : -(1 / 2) < q / 2 ^ (e - 52) - m) (hm2 : q / 2 ^ (e - 52) - m < 1 / 2)
    (hv : v = m * 2 ^ (e - 52)) (hfin : v < 2 ^ (1024 : ℤ)) :
    roundDouble q = .fin v := by
  rw [hv] at hfin ⊢
  exact roundDouble_of_round q e m hq he h1 h2
    (roundHalfEven_eq _ _ (abs_lt.mpr ⟨hm1, hm2⟩)) hfin

/-- The double nearest to a positive rational halfway between two doubles, evaluated: the
one with the even `m`, here the upper. -/
theorem roundDouble_eval_tie_up (q v : ℚ) (e m : ℤ) (hq : 0 < q) (he : -1022 ≤ e)
    (h1 : (2 : ℚ) ^ e ≤ q) (h2 : q < (2 : ℚ) ^ (e + 1))
    (hm : q / 2 ^ (e - 52) = m - 1 / 2) (heven : m % 2 = 0)
    (hv : v = m * 2 ^ (e - 52)) (hfin : v < 2 ^ (1024 : ℤ)) :
    roundDouble q = .fin v := by
  rw [hv] at hfin ⊢
  exact roundDouble_of_round q e m hq he h1 h2 (roundHalfEven_tie_up _ _ hm heven) hfin

/-- The double nearest to a positive rational halfway between two doubles, evaluated: the
one with the even `m`, here the lower. -/
theorem roundDouble_eval_tie_down (q v : ℚ) (e m : ℤ) (hq : 0 < q) (he : -1022 ≤ e)
    (h1 : (2 : ℚ) ^ e ≤ q) (h2 : q < (2 : ℚ) ^ (e + 1))
    (hm : q / 2 ^ (e - 52) = m + 1 / 2) (heven : m % 2 = 0)
    (hv : v = m * 2 ^ (e - 52)) (hfin : v < 2 ^ (1024 : ℤ)) :
    roundDouble q = .fin v := by
  rw [hv] at hfin ⊢
  exact roundDouble_of_round q e m hq he h1 h2 (roundHalfEven_tie_down _ _ hm heven) hfin

/-- The double nearest to a rational of at least an eighth is at least an eighth. -/
theorem eighth_le_roundDouble (q : ℚ) (hq : 1 / 8 ≤ q) : JSNum.fin (1 / 8) ≤ roundDouble q := by
  have hpos : 0 < q := by linarith
  have hlog : (-3 : ℤ) ≤ Int.log 2 |q| := by
    rw [abs_of_pos hpos]
    refine (Int.zpow_le_iff_le_log (by norm_num : 1 < 2) hpos).mp ?_
    norm_num
    linarith
  have hmax : max (Int.log 2 |q|) (-1022) = Int.log 2 |q| := max_eq_left (by omega)
  have hpow : (2 : ℚ) ^ Int.log 2 |q| ≤ |q| := by
    have h := Int.zpow_log_le_self (by norm_num : 1 < 2) (abs_pos.mpr (ne_of_gt hpos))
    exact_mod_cast h
  have hulp : (0 : ℚ) < 2 ^ (Int.log 2 |q| - 52) := zpow_pos (by norm_num) _
  have hsplit : (4503599627370496 : ℚ) * 2 ^ (Int.log 2 |q| - 52) = 2 ^ Int.log 2 |q| := by
    have h52 : (4503599627370496 : ℚ) = 2 ^ (52 : ℤ) := by norm_num
    rw [h52, ← zpow_add₀ (by norm_num : (2 : ℚ) ≠ 0)]
    congr 1
    ring
  have hx : ((4503599627370496 : ℤ) : ℚ) ≤ |q| / 2 ^ (Int.log 2 |q| - 52) := by
    rw [le_div_iff₀ hulp]
    push_cast
    rw [hsplit]
    exact hpow
  have hm := le_roundHalfEven _ _ hx
  have hv : (1 / 8 : ℚ) ≤ roundHalfEven (|q| / 2 ^ (Int.log 2 |q| - 52)) *
      2 ^ (Int.log 2 |q| - 52) := by
    have hm2 : (4503599627370496 : ℚ) ≤
        (roundHalfEven (|q| / 2 ^ (Int.log 2 |q| - 52)) : ℚ) := by
      exact_mod_cast hm
    have h3 : (2 : ℚ) ^ (-3 : ℤ) ≤ 2 ^ Int.log 2 |q| :=
      zpow_le_zpow_right₀ (by norm_num) hlog
    calc (1 / 8 : ℚ) = 2 ^ (-3 : ℤ) := by norm_num
      _ ≤ 2 ^ Int.log 2 |q| := h3
      _ = 4503599627370496 * 2 ^ (Int.log 2 |q| - 52) := hsplit.symm
      _ ≤ _ := mul_le_mul_of_nonneg_right hm2 (le_of_lt hulp)
  simp only [roundDouble, ne_of_gt hpos, if_false, hmax, hpos, if_true]
  split_ifs
  · exact True.intro
  · exact (JSNum.fin_le_fin _ _).mpr hv

/-- The double nearest to zero is zero. -/
theorem roundDouble_zero : roundDouble 0 = .fin 0 := by
  rw [roundDouble, if_pos rfl]

/-- The double nearest to a rational that is not negative is not negative: zero, a positive
number or the positive infinity. -/
theorem roundDouble_nonneg (q : ℚ) (hq : 0 ≤ q) : JSNum.fin 0 ≤ roundDouble q := by
  rcases eq_or_lt_of_le hq with h0 | hpos
  · rw [← h0, roundDouble_zero]
    exact (JSNum.fin_le_fin _ _).mpr le_rfl
  · have hulp : (0 : ℚ) < 2 ^ (max (Int.log 2 |q|) (-1022) - 52) := zpow_pos (by norm_num) _
    have hx : ((0 : ℤ) : ℚ) ≤ |q| / 2 ^ (max (Int.log 2 |q|) (-1022) - 52) := by
      push_cast
      exact div_nonneg (abs_nonneg q) (le_of_lt hulp)
    have hm := le_roundHalfEven _ _ hx
    have hm2 : (0 : ℚ) ≤ (roundHalfEven (|q| / 2 ^ (max (Int.log 2 |q|) (-1022) - 52)) : ℚ) := by
      exact_mod_cast hm
    simp only [roundDouble, ne_of_gt hpos, if_false, hpos, if_true]
    split_ifs
    · exact True.intro
    · exact (JSNum.fin_le_fin _ _).mpr (mul_nonneg hm2 (le_of_lt hulp))

/-- A rational of at least `2^1024` has no finite double: it rounds to the positive
infinity. -/
theorem roundDouble_overflow (q : ℚ) (hq : (2 : ℚ) ^ (1024 : ℤ) ≤ q) :
    roundDouble q = .posInf := by
  have hpos : 0 < q := lt_of_lt_of_le (zpow_pos (by norm_num) _) hq
  have hlog : (1024 : ℤ) ≤ Int.log 2 |q| := by
    rw [abs_of_pos hpos]
    exact (Int.zpow_le_iff_le_log (by norm_num : 1 < 2) hpos).mp (by exact_mod_cast hq)
  have hmax : max (Int.log 2 |q|) (-1022) = Int.log 2 |q| := max_eq_left (by omega)
  have hpow : (2 : ℚ) ^ Int.log 2 |q| ≤ |q| := by
    have h := Int.zpow_log_le_self (by norm_num : 1 < 2) (abs_pos.mpr (ne_of_gt hpos))
    exact_mod_cast h
  have hulp : (0 : ℚ) < 2 ^ (Int.log 2 |q| - 52) := zpow_pos (by norm_num) _
  have hsplit : (4503599627370496 : ℚ) * 2 ^ (Int.log 2 |q| - 52) = 2 ^ Int.log 2 |q| := by
    have h52 : (4503599627370496 : ℚ) = 2 ^ (52 : ℤ) := by norm_num
    rw [h52, ← zpow_add₀ (by norm_num : (2 : ℚ) ≠ 0)]
    congr 1
    ring
  have hx : ((4503599627370496 : ℤ) : ℚ) ≤ |q| / 2 ^ (Int.log 2 |q| - 52) := by
    rw [le_div_iff₀ hulp]
    push_cast
    rw [hsplit]
    exact hpow
  have hm := le_roundHalfEven _ _ hx
  have hm2 : (4503599627370496 : ℚ) ≤
      (roundHalfEven (|q| / 2 ^ (Int.log 2 |q| - 52)) : ℚ) := by
    exact_mod_cast hm
  have hv : (2 : ℚ) ^ (1024 : ℤ) ≤ roundHalfEven (|q| / 2 ^ (Int.log 2 |q| - 52)) *
      2 ^ (Int.log 2 |q| - 52) :=
    calc (2 : ℚ) ^ (1024 : ℤ) ≤ 2 ^ Int.log 2 |q| := zpow_le_zpow_right₀ (by norm_num) hlog
      _ = 4503599627370496 * 2 ^ (Int.log 2 |q| - 52) := hsplit.symm
      _ ≤ _ := mul_le_mul_of_nonneg_right hm2 (le_of_lt hulp)
  simp only [roundDouble, ne_of_gt hpos, if_false, hmax, hpos, if_true, hv]

/-- The number 2 is a double. -/
theorem double_two : roundDouble 2 = .fin 2 :=
  roundDouble_eval _ _ (1) 4503599627370496 (by norm_num) (by norm_num) (by norm_num)
    (by norm_num) (by norm_num) (by norm_num) (by norm_num) (by norm_num)

/-- The number 3.5 is a double. -/
theorem double_three_and_a_half : roundDouble (7 / 2) = .fin (7 / 2) :=
  roundDouble_eval _ _ (1) 7881299347898368 (by norm_num) (by norm_num) (by norm_num)
    (by norm_num) (by norm_num) (by norm_num) (by norm_num) (by norm_num)

/-- The number 500 is a double. -/
theorem double_500 : roundDouble 500 = .fin 500 :=
  roundDouble_eval _ _ (8) 8796093022208000 (by norm_num) (by norm_num) (by norm_num)
    (by norm_num) (by norm_num) (by norm_num) (by norm_num) (by norm_num)

/-- The number 850 is a double. -/
theorem double_850 : roundDouble 850 = .fin 850 :=
  roundDouble_eval _ _ (9) 7476679068876800 (by norm_num) (by norm_num) (by norm_num)
    (by norm_num) (by norm_num) (by norm_num) (by norm_num) (by norm_num)

/-- The number 1,250,000 is a double. -/
theorem double_1250000 : roundDouble 1250000 = .fin 1250000 :=
  roundDouble_eval _ _ (20) 5368709120000000 (by norm_num) (by norm_num) (by norm_num)
    (by norm_num) (by norm_num) (by norm_num) (by norm_num) (by norm_num)

/-- A double added to zero is that double. -/
theorem double_zero_add (w : ℚ) (h : roundDouble w = .fin w) :
    doubleArithmetic.add (.fin 0) (.fin w) = .fin w := by
  show roundDouble (0 + w) = .fin w
  rw [zero_add]
  exact h

/-- Zero added to a double is that double. -/
theorem double_add_zero (w : ℚ) (h : roundDouble w = .fin w) :
    doubleArithmetic.add (.fin w) (.fin 0) = .fin w := by
  show roundDouble (w + 0) = .fin w
  rw [add_zero]
  exact h

/-- One times a double is that double. -/
theorem double_one_mul (w : ℚ) (h : roundDouble w = .fin w) :
    doubleArithmetic.mul (.fin 1) (.fin w) = .fin w := by
  show roundDouble (1 * w) = .fin w
  rw [one_mul]
  exact h

/-- Zero times a finite number is zero. -/
theorem double_zero_mul (w : ℚ) : doubleArithmetic.mul (.fin 0) (.fin w) = .fin 0 := by
  show roundDouble (0 * w) = .fin 0
  rw [zero_mul]
  exact roundDouble_zero

/-! ## Doubles of the literals and of the sums of the source -/

/-- The literal `1` is a double. -/
theorem double_one :
    roundDouble 1 = .fin 1 :=
  roundDouble_eval _ _ (0) 4503599627370496 (by norm_num) (by norm_num) (by norm_num)
    (by norm_num) (by norm_num) (by norm_num) (by norm_num) (by norm_num)

/-- The double of the literal `0.35`. -/
theorem double_literal_035 :
    roundDouble (35 / 100) = .fin (3152519739159347 / 9007199254740992) :=
  roundDouble_eval _ _ (-2) 6305039478318694 (by norm_num) (by norm_num) (by norm_num)
    (by norm_num) (by norm_num) (by norm_num) (by norm_num) (by norm_num)

/-- The literal `0.25` is a double. -/
theorem double_literal_025 :
    roundDouble (25 / 100) = .fin (1 / 4) :=
  roundDouble_eval _ _ (-2) 4503599627370496 (by norm_num) (by norm_num) (by norm_num)
    (by norm_num) (by norm_num) (by norm_num) (by norm_num) (by norm_num)

/-- The double of the literal `0.20`. -/
theorem double_literal_020 :
    roundDouble (20 / 100) = .fin (3602879701896397 / 18014398509481984) :=
  roundDouble_eval _ _ (-3) 7205759403792794 (by norm_num) (by norm_num) (by norm_num)
    (by norm_num) (by norm_num) (by norm_num) (by norm_num) (by norm_num)

/-- The double of the literal `0.2`. -/
theorem double_literal_02 :
    roundDouble (2 / 10) = .fin (3602879701896397 / 18014398509481984) :=
  roundDouble_eval _ _ (-3) 7205759403792794 (by norm_num) (by norm_num) (by norm_num)
    (by norm_num) (by norm_num) (by norm_num) (by norm_num) (by norm_num)

/-- The double of the literal `0.15`. -/
theorem double_literal_015 :
    roundDouble (15 / 100) = .fin (5404319552844595 / 36028797018963968) :=
  roundDouble_eval _ _ (-3) 5404319552844595 (by norm_num) (by norm_num) (by norm_num)
    (by norm_num) (by norm_num) (by norm_num) (by norm_num) (by norm_num)

/-- The double of the literal `0.7`. -/
theorem double_literal_07 :
    roundDouble (7 / 10) = .fin (3152519739159347 / 4503599627370496) :=
  roundDouble_eval _ _ (-1) 6305039478318694 (by norm_num) (by norm_num) (by norm_num)
    (by norm_num) (by norm_num) (by norm_num) (by norm_num) (by norm_num)

/-- In doubles, `0.15 + 0.2` is `0.35`. -/
theorem double_add_0_15_0_2 :
    doubleArithmetic.add (.fin (5404319552844595 / 36028797018963968))
        (.fin (3602879701896397 / 18014398509481984)) =
      .fin (3152519739159347 / 9007199254740992) :=
  roundDouble_eval_tie_down _ _ (-2) 6305039478318694 (by norm_num) (by norm_num) (by norm_num)
    (by norm_num) (by norm_num) (by norm_num) (by norm_num) (by norm_num)

/-- In doubles, `0.2 + 0.15` is `0.35`. -/
theorem double_add_0_2_0_15 :
    doubleArithmetic.add (.fin (3602879701896397 / 18014398509481984))
        (.fin (5404319552844595 / 36028797018963968)) =
      .fin (3152519739159347 / 9007199254740992) :=
  roundDouble_eval_tie_down _ _ (-2) 6305039478318694 (by norm_num) (by norm_num) (by norm_num)
    (by norm_num) (by norm_num) (by norm_num) (by norm_num) (by norm_num)

/-- In doubles, `0.2 + 0.2` is `0.4`. -/
theorem double_add_0_2_0_2 :
    doubleArithmetic.add (.fin (3602879701896397 / 18014398509481984))
        (.fin (3602879701896397 / 18014398509481984)) =
      .fin (3602879701896397 / 9007199254740992) :=
  roundDouble_eval _ _ (-2) 7205759403792794 (by norm_num) (by norm_num) (by norm_num)
    (by norm_num) (by norm_num) (by norm_num) (by norm_num) (by norm_num)

/-- In doubles, `0.2 + 0.25` is `0.45`. -/
theorem double_add_0_2_0_25 :
    doubleArithmetic.add (.fin (3602879701896397 / 18014398509481984))
        (.fin (1 / 4)) =
      .fin (8106479329266893 / 18014398509481984) :=
  roundDouble_eval _ _ (-2) 8106479329266893 (by norm_num) (by norm_num) (by norm_num)
    (by norm_num) (by norm_num) (by norm_num) (by norm_num) (by norm_num)

/-- In doubles, `0.25 + 0.15` is `0.4`. -/
theorem double_add_0_25_0_15 :
    doubleArithmetic.add (.fin (1 / 4))
        (.fin (5404319552844595 / 36028797018963968)) =
      .fin (3602879701896397 / 9007199254740992) :=
  roundDouble_eval_tie_up _ _ (-2) 7205759403792794 (by norm_num) (by norm_num) (by norm_num)
    (by norm_num) (by norm_num) (by norm_num) (by norm_num) (by norm_num)

/-- In doubles, `0.25 + 0.2` is `0.45`. -/
theorem double_add_0_25_0_2 :
    doubleArithmetic.add (.fin (1 / 4))
        (.fin (3602879701896397 / 18014398509481984)) =
      .fin (8106479329266893 / 18014398509481984) :=
  roundDouble_eval _ _ (-2) 8106479329266893 (by norm_num) (by norm_num) (by norm_num)
    (by norm_num) (by norm_num) (by norm_num) (by norm_num) (by norm_num)

/-- In doubles, `0.35 + 0.2` is `0.55`. -/
theorem double_add_0_35_0_2 :
    doubleArithmetic.add (.fin (3152519739159347 / 9007199254740992))
        (.fin (3602879701896397 / 18014398509481984)) =
      .fin (2476979795053773 / 4503599627370496) :=
  roundDouble_eval_tie_up _ _ (-1) 4953959590107546 (by norm_num) (by norm_num) (by norm_num)
    (by norm_num) (by norm_num) (by norm_num) (by norm_num) (by norm_num)

/-- In doubles, `0.35 + 0.25` is `0.6`. -/
theorem double_add_0_35_0_25 :
    doubleArithmetic.add (.fin (3152519739159347 / 9007199254740992))
        (.fin (1 / 4)) =
      .fin (5404319552844595 / 9007199254740992) :=
  roundDouble_eval _ _ (-1) 5404319552844595 (by norm_num) (by norm_num) (by norm_num)
    (by norm_num) (by norm_num) (by norm_num) (by norm_num) (by norm_num)

/-- In doubles, `0.4 + 0.15` is `0.55`. -/
theorem double_add_0_4_0_15 :
    doubleArithmetic.add (.fin (3602879701896397 / 9007199254740992))
        (.fin (5404319552844595 / 36028797018963968)) =
      .fin (2476979795053773 / 4503599627370496) :=
  roundDouble_eval _ _ (-1) 4953959590107546 (by norm_num) (by norm_num) (by norm_num)
    (by norm_num) (by norm_num) (by norm_num) (by norm_num) (by norm_num)

/-- In doubles, `0.4 + 0.2` is `0.6000000000000001`. -/
theorem double_add_0_4_0_2 :
    doubleArithmetic.add (.fin (3602879701896397 / 9007199254740992))
        (.fin (3602879701896397 / 18014398509481984)) =
      .fin (1351079888211149 / 2251799813685248) :=
  roundDouble_eval_tie_up _ _ (-1) 5404319552844596 (by norm_num) (by norm_num) (by norm_num)
    (by norm_num) (by norm_num) (by norm_num) (by norm_num) (by norm_num)

/-- In doubles, `0.45 + 0.15` is `0.6`. -/
theorem double_add_0_45_0_15 :
    doubleArithmetic.add (.fin (8106479329266893 / 18014398509481984))
        (.fin (5404319552844595 / 36028797018963968)) =
      .fin (5404319552844595 / 9007199254740992) :=
  roundDouble_eval _ _ (-1) 5404319552844595 (by norm_num) (by norm_num) (by norm_num)
    (by norm_num) (by norm_num) (by norm_num) (by norm_num) (by norm_num)

/-- In doubles, `0.45 + 0.2` is `0.65`. -/
theorem double_add_0_45_0_2 :
    doubleArithmetic.add (.fin (8106479329266893 / 18014398509481984))
        (.fin (3602879701896397 / 18014398509481984)) =
      .fin (5854679515581645 / 9007199254740992) :=
  roundDouble_eval _ _ (-1) 5854679515581645 (by norm_num) (by norm_num) (by norm_num)
    (by norm_num) (by norm_num) (by norm_num) (by norm_num) (by norm_num)

/-- In doubles, `0.55 + 0.2` is `0.75`. -/
theorem double_add_0_55_0_2 :
    doubleArithmetic.add (.fin (2476979795053773 / 4503599627370496))
        (.fin (3602879701896397 / 18014398509481984)) =
      .fin (3 / 4) :=
  roundDouble_eval_tie_down _ _ (-1) 6755399441055744 (by norm_num) (by norm_num) (by norm_num)
    (by norm_num) (by norm_num) (by norm_num) (by norm_num) (by norm_num)

/-- In doubles, `0.6 + 0.2` is `0.8`. -/
theorem double_add_0_6_0_2 :
    doubleArithmetic.add (.fin (5404319552844595 / 9007199254740992))
        (.fin (3602879701896397 / 18014398509481984)) =
      .fin (3602879701896397 / 4503599627370496) :=
  roundDouble_eval_tie_up _ _ (-1) 7205759403792794 (by norm_num) (by norm_num) (by norm_num)
    (by norm_num) (by norm_num) (by norm_num) (by norm_num) (by norm_num)

/-- In doubles, `0.65 + 0.15` is `0.8`. -/
theorem double_add_0_65_0_15 :
    doubleArithmetic.add (.fin (5854679515581645 / 9007199254740992))
        (.fin (5404319552844595 / 36028797018963968)) =
      .fin (3602879701896397 / 4503599627370496) :=
  roundDouble_eval _ _ (-1) 7205759403792794 (by norm_num) (by norm_num) (by norm_num)
    (by norm_num) (by norm_num) (by norm_num) (by norm_num) (by norm_num)

/-- In doubles, `0.65 + 0.2` is `0.8500000000000001`. -/
theorem double_add_0_65_0_2 :
    doubleArithmetic.add (.fin (5854679515581645 / 9007199254740992))
        (.fin (3602879701896397 / 18014398509481984)) =
      .fin (1914029841632461 / 2251799813685248) :=
  roundDouble_eval_tie_up _ _ (-1) 7656119366529844 (by norm_num) (by norm_num) (by norm_num)
    (by norm_num) (by norm_num) (by norm_num) (by norm_num) (by norm_num)

/-- In doubles, `0.8 + 0.2` is `1.0`. -/
theorem double_add_0_8_0_2 :
    doubleArithmetic.add (.fin (3602879701896397 / 4503599627370496))
        (.fin (3602879701896397 / 18014398509481984)) =
      .fin 1 :=
  roundDouble_eval _ _ (0) 4503599627370496 (by norm_num) (by norm_num) (by norm_num)
    (by norm_num) (by norm_num) (by norm_num) (by norm_num) (by norm_num)

/-- The double `0.15` rounds to itself. -/
theorem double_of_0_15 :
    roundDouble (5404319552844595 / 36028797018963968) =
      .fin (5404319552844595 / 36028797018963968) :=
  roundDouble_eval _ _ (-3) 5404319552844595 (by norm_num) (by norm_num) (by norm_num)
    (by norm_num) (by norm_num) (by norm_num) (by norm_num) (by norm_num)

/-- The double `0.2` rounds to itself. -/
theorem double_of_0_2 :
    roundDouble (3602879701896397 / 18014398509481984) =
      .fin (3602879701896397 / 18014398509481984) :=
  roundDouble_eval _ _ (-3) 7205759403792794 (by norm_num) (by norm_num) (by norm_num)
    (by norm_num) (by norm_num) (by norm_num) (by norm_num) (by norm_num)

/-- The double `0.25` rounds to itself. -/
theorem double_of_0_25 :
    roundDouble (1 / 4) =
      .fin (1 / 4) :=
  roundDouble_eval _ _ (-2) 4503599627370496 (by norm_num) (by norm_num) (by norm_num)
    (by norm_num) (by norm_num) (by norm_num) (by norm_num) (by norm_num)

/-- The double `0.35` rounds to itself. -/
theorem double_of_0_35 :
    roundDouble (3152519739159347 / 9007199254740992) =
      .fin (3152519739159347 / 9007199254740992) :=
  roundDouble_eval _ _ (-2) 6305039478318694 (by norm_num) (by norm_num) (by norm_num)
    (by norm_num) (by norm_num) (by norm_num) (by norm_num) (by norm_num)

/-- The double `0.6` rounds to itself. -/
theorem double_of_0_6 :
    roundDouble (5404319552844595 / 9007199254740992) =
      .fin (5404319552844595 / 9007199254740992) :=
  roundDouble_eval _ _ (-1) 5404319552844595 (by norm_num) (by norm_num) (by norm_num)
    (by norm_num) (by norm_num) (by norm_num) (by norm_num) (by norm_num)

/-- In doubles, `0.6 / 0.8` is `0.7499999999999999`. -/
theorem double_div_0_6_0_8 :
    doubleArithmetic.div (.fin (5404319552844595 / 9007199254740992))
        (.fin (3602879701896397 / 4503599627370496)) =
      .fin (6755399441055743 / 9007199254740992) := by
  show roundNum (JSNum.fin _ / JSNum.fin _) = _
  rw [JSNum.fin_div_fin _ (by norm_num)]
  exact
    roundDouble_eval _ _ (-1) 6755399441055743 (by norm_num) (by norm_num) (by norm_num)
      (by norm_num) (by norm_num) (by norm_num) (by norm_num) (by norm_num)

namespace AIProcessor

/-! ## Budget sub-score -/

/-- C4. For a budget `b > 0` and a price `p > 0`, `calculateBudgetMatch` returns `1.0` when
`0.7*b <= p <= b`, `p/b` when `p < 0.7*b`, `0.8` when `b < p <= 1.1*b`, `0.6` when
`1.1*b < p <= 1.2*b` and `0.0` when `p > 1.2*b`. -/
theorem calculateBudgetMatch_bands (reqBudget : Budget) (b p : ℚ) (hb : 0 < b) (hp : 0 < p)
    (hamount : reqBudget.amount = .fin b) :
    (7 / 10 * b ≤ p ∧ p ≤ b → calculateBudgetMatch reqBudget (.fin p) = .fin 1) ∧
    (p < 7 / 10 * b → calculateBudgetMatch reqBudget (.fin p) = .fin (p / b)) ∧
    (b < p ∧ p ≤ 11 / 10 * b → calculateBudgetMatch reqBudget (.fin p) = .fin (8 / 10)) ∧
    (11 / 10 * b < p ∧ p ≤ 12 / 10 * b →
      calculateBudgetMatch reqBudget (.fin p) = .fin (6 / 10)) ∧
    (12 / 10 * b < p → calculateBudgetMatch reqBudget (.fin p) = .fin 0) := by
  have hb0 : b ≠ 0 := ne_of_gt hb
  have hratio : (7 / 10 ≤ p / b) ↔ 7 / 10 * b ≤ p := le_div_iff₀ hb
  have hover : ∀ c : ℚ, ((p - b) / b ≤ c) ↔ p ≤ (1 + c) * b := by
    intro c
    rw [div_le_iff₀ hb]
    constructor <;> intro h <;> linarith
  simp only [calculateBudgetMatch, hamount, JSNum.fin_le_fin, JSNum.fin_sub_fin,
    JSNum.fin_div_fin _ hb0, hratio, hover]
  refine ⟨?_, ?_, ?_, ?_, ?_⟩
  · rintro ⟨h1, h2⟩
    simp only [h1, h2, if_true]
  · intro h
    have h2 : p ≤ b := by linarith
    have h3 : ¬ (7 / 10 * b ≤ p) := not_le.mpr h
    simp only [h2, h3, if_true, if_false]
  · rintro ⟨h1, h2⟩
    have h3 : ¬ (p ≤ b) := not_le.mpr h1
    have h4 : p ≤ (1 + 1 / 10) * b := by linarith
    simp only [h3, h4, if_true, if_false]
  · rintro ⟨h1, h2⟩
    have h3 : ¬ (p ≤ b) := by
      intro h
      linarith
    have h4 : ¬ (p ≤ (1 + 1 / 10) * b) := by
      intro h
      linarith
    have h5 : p ≤ (1 + 2 / 10) * b := by linarith
    simp only [h3, h4, h5, if_true, if_false]
  · intro h1
    have h3 : ¬ (p ≤ b) := by
      intro h
      linarith
    have h4 : ¬ (p ≤ (1 + 1 / 10) * b) := by
      intro h
      linarith
    have h5 : ¬ (p ≤ (1 + 2 / 10) * b) := by
      intro h
      linarith
    simp only [h3, h4, h5, if_true, if_false]

/-- Witness of C4 at the budget 1,000,000: the prices 1,000,000, 1,100,000, 1,150,000 and
1,300,000 score 1.0, 0.8, 0.6 and 0.0. -/
theorem calculateBudgetMatch_bands_witness :
    calculateBudgetMatch ⟨.fin 1000000, "EGP", "budget 1,000,000 egp"⟩ (.fin 1000000)
      = .fin 1 ∧
    calculateBudgetMatch ⟨.fin 1000000, "EGP", "budget 1,000,000 egp"⟩ (.fin 1100000)
      = .fin (8 / 10) ∧
    calculateBudgetMatch ⟨.fin 1000000, "EGP", "budget 1,000,000 egp"⟩ (.fin 1150000)
      = .fin (6 / 10) ∧
    calculateBudgetMatch ⟨.fin 1000000, "EGP", "budget 1,000,000 egp"⟩ (.fin 1300000)
      = .fin 0 :=
  ⟨(calculateBudgetMatch_bands _ 1000000 1000000 (by norm_num) (by norm_num) rfl).1
      (by norm_num),
   (calculateBudgetMatch_bands _ 1000000 1100000 (by norm_num) (by norm_num) rfl).2.2.1
      (by norm_num),
   (calculateBudgetMatch_bands _ 1000000 1150000 (by norm_num) (by norm_num) rfl).2.2.2.1
      (by norm_num),
   (calculateBudgetMatch_bands _ 1000000 1300000 (by norm_num) (by norm_num) rfl).2.2.2.2
      (by norm_num)⟩

/-! ## Size sub-score -/

/-- C7. For a required area `r > 0` and an available size `a >= 0`, `calculateSizeMatch`
returns `1.0` when `|a - r| / r <= 0.10`, `0.8` when it lies in `(0.10, 0.20]`, `0.6` when
it lies in `(0.20, 0.30]` and `0.0` when it exceeds `0.30`. (The bound `a >= 0` is not
needed: the statement holds for every finite `a`.) -/
theorem calculateSizeMatch_bands (reqSize : Size) (r a : ℚ) (hr : 0 < r)
    (harea : reqSize.area = .fin r) :
    (|a - r| / r ≤ 1 / 10 → calculateSizeMatch reqSize (.fin a) = .fin 1) ∧
    (1 / 10 < |a - r| / r ∧ |a - r| / r ≤ 2 / 10 →
      calculateSizeMatch reqSize (.fin a) = .fin (8 / 10)) ∧
    (2 / 10 < |a - r| / r ∧ |a - r| / r ≤ 3 / 10 →
      calculateSizeMatch reqSize (.fin a) = .fin (6 / 10)) ∧
    (3 / 10 < |a - r| / r → calculateSizeMatch reqSize (.fin a) = .fin 0) := by
  have hr0 : r ≠ 0 := ne_of_gt hr
  simp only [calculateSizeMatch, harea, JSNum.fin_le_fin, JSNum.fin_sub_fin, JSNum.abs_fin,
    JSNum.fin_div_fin _ hr0]
  refine ⟨?_, ?_, ?_, ?_⟩
  · intro h1
    simp only [h1, if_true]
  · rintro ⟨h1, h2⟩
    have h3 : ¬ (|a - r| / r ≤ 1 / 10) := not_le.mpr h1
    simp only [h2, h3, if_true, if_false]
  · rintro ⟨h1, h2⟩
    have h3 : ¬ (|a - r| / r ≤ 1 / 10) := by
      intro h
      linarith
    have h4 : ¬ (|a - r| / r ≤ 2 / 10) := not_le.mpr h1
    simp only [h2, h3, h4, if_true, if_false]
  · intro h1
    have h3 : ¬ (|a - r| / r ≤ 1 / 10) := by
      intro h
      linarith
    have h4 : ¬ (|a - r| / r ≤ 2 / 10) := by
      intro h
      linarith
    have h5 : ¬ (|a - r| / r ≤ 3 / 10) := not_le.mpr h1
    simp only [h3, h4, h5, if_false]

/-- Witness of C7: against a required 100 sqm, 108 sqm scores 1.0 and 125 sqm scores 0.6. -/
theorem calculateSizeMatch_bands_witness :
    calculateSizeMatch ⟨.fin 100, "sqm", "100 sqm"⟩ (.fin 108) = .fin 1 ∧
    calculateSizeMatch ⟨.fin 100, "sqm", "100 sqm"⟩ (.fin 125) = .fin (6 / 10) :=
  ⟨(calculateSizeMatch_bands _ 100 108 (by norm_num) rfl).1
      (by norm_num [abs_of_nonneg]),
   (calculateSizeMatch_bands _ 100 125 (by norm_num) rfl).2.2.1
      (by norm_num [abs_of_nonneg])⟩

/-! ## Location sub-score -/

/-- The test `hay.includes(needle)` holds exactly when the needle is a contiguous run of
the haystack. -/
theorem includes_iff (hay needle : List Char) :
    includes hay needle = true ↔ needle <:+: hay := by
  simp only [includes, List.any_eq_true, List.mem_tails, List.isPrefixOf_iff_prefix]
  rw [ List.infix_iff_prefix_suffix]
  constructor
  · rintro ⟨t, h1, h2⟩
    exact ⟨t, h2, h1⟩
  · rintro ⟨t, h1, h2⟩
    exact ⟨t, h2, h1⟩

/-- C5. `calculateLocationMatch` returns `1.0` when the requirement area and the property
location are equal ignoring case, `0.8` when they are not equal but one contains the other
as a substring ignoring case, and `0.0` otherwise; "Maadi" against "Maadi, Cairo" gives
`0.8`, "Zamalek" against "Zamalek" gives `1.0`, "Giza" against "Alexandria" gives `0.0`. -/
theorem calculateLocationMatch_spec :
    (∀ (reqLocation : Location) (propLocation : String),
      (toLowerCase reqLocation.area = toLowerCase propLocation →
        calculateLocationMatch reqLocation propLocation = .fin 1) ∧
      (toLowerCase reqLocation.area ≠ toLowerCase propLocation →
        (toLowerCase reqLocation.area <:+: toLowerCase propLocation ∨
          toLowerCase propLocation <:+: toLowerCase reqLocation.area) →
        calculateLocationMatch reqLocation propLocation = .fin (8 / 10)) ∧
      (toLowerCase reqLocation.area ≠ toLowerCase propLocation →
        ¬ (toLowerCase reqLocation.area <:+: toLowerCase propLocation) →
        ¬ (toLowerCase propLocation <:+: toLowerCase reqLocation.area) →
        calculateLocationMatch reqLocation propLocation = .fin 0)) ∧
    calculateLocationMatch ⟨"Maadi", "in Maadi", .fin (8 / 10)⟩ "Maadi, Cairo"
      = .fin (8 / 10) ∧
    calculateLocationMatch ⟨"Zamalek", "in Zamalek", .fin (8 / 10)⟩ "Zamalek" = .fin 1 ∧
    calculateLocationMatch ⟨"Giza", "Giza", .fin (8 / 10)⟩ "Alexandria" = .fin 0 := by
  have general : ∀ (reqLocation : Location) (propLocation : String),
      (toLowerCase reqLocation.area = toLowerCase propLocation →
        calculateLocationMatch reqLocation propLocation = .fin 1) ∧
      (toLowerCase reqLocation.area ≠ toLowerCase propLocation →
        (toLowerCase reqLocation.area <:+: toLowerCase propLocation ∨
          toLowerCase propLocation <:+: toLowerCase reqLocation.area) →
        calculateLocationMatch reqLocation propLocation = .fin (8 / 10)) ∧
      (toLowerCase reqLocation.area ≠ toLowerCase propLocation →
        ¬ (toLowerCase reqLocation.area <:+: toLowerCase propLocation) →
        ¬ (toLowerCase propLocation <:+: toLowerCase reqLocation.area) →
        calculateLocationMatch reqLocation propLocation = .fin 0) := by
    intro reqLocation propLocation
    refine ⟨?_, ?_, ?_⟩
    · intro h
      simp only [calculateLocationMatch, h, if_true]
    · intro hne hsub
      have hinc : (includes (toLowerCase propLocation) (toLowerCase reqLocation.area) ||
          includes (toLowerCase reqLocation.area) (toLowerCase propLocation)) = true := by
        rw [Bool.or_eq_true, includes_iff, includes_iff]
        exact hsub
      simp only [calculateLocationMatch, hne, hinc, if_true, if_false]
    · intro hne h1 h2
      have hinc : ¬ ((includes (toLowerCase propLocation) (toLowerCase reqLocation.area) ||
          includes (toLowerCase reqLocation.area) (toLowerCase propLocation)) = true) := by
        rw [Bool.or_eq_true, includes_iff, includes_iff]
        rintro (h | h)
        · exact h1 h
        · exact h2 h
      simp only [calculateLocationMatch, hne, hinc, if_false, Bool.false_eq_true]
  refine ⟨general, ?_, ?_, ?_⟩
  · exact (general _ _).2.1 (by decide) (Or.inl (by decide))
  · exact (general _ _).1 (by decide)
  · exact (general _ _).2.2 (by decide) (by decide) (by decide)

/-! ## Property type sub-score -/

/-- A loop of the shape used over `similarTypes` succeeds exactly on a key and one of its
listed values, in either order. -/
theorem similar_any_iff (apartment flat unit villa house townhouse studio loft req prop :
    List Char) :
    List.any [(apartment, [flat, unit]), (villa, [house, townhouse]), (studio, [loft])]
      (fun (e : List Char × List (List Char)) =>
        (decide (req = e.1) && e.2.contains prop) || (decide (prop = e.1) && e.2.contains req))
      = true ↔
    ((req, prop) ∈ [(apartment, flat), (apartment, unit), (villa, house),
        (villa, townhouse), (studio, loft)] ∨
     (prop, req) ∈ [(apartment, flat), (apartment, unit), (villa, house),
        (villa, townhouse), (studio, loft)]) := by
  simp
  constructor
  · rintro ((⟨h1, h2 | h2⟩ | ⟨h1, h2 | h2⟩) | (⟨h1, h2 | h2⟩ | ⟨h1, h2 | h2⟩) |
      (⟨h1, h2⟩ | ⟨h1, h2⟩)) <;> simp [h1, h2]
  · rintro ((⟨h1, h2⟩ | ⟨h1, h2⟩ | ⟨h1, h2⟩ | ⟨h1, h2⟩ | ⟨h1, h2⟩) |
      (⟨h1, h2⟩ | ⟨h1, h2⟩ | ⟨h1, h2⟩ | ⟨h1, h2⟩ | ⟨h1, h2⟩)) <;> simp [h1, h2]

/-- The loop over `similarTypes` succeeds exactly on a head and one of its similar types,
in either order. -/
theorem similarTypes_any_iff (req prop : List Char) :
    similarTypes.any (fun e =>
      (decide (req = e.1) && e.2.contains prop) || (decide (prop = e.1) && e.2.contains req))
      = true ↔ ((req, prop) ∈ similarPairs ∨ (prop, req) ∈ similarPairs) :=
  similar_any_iff _ _ _ _ _ _ _ _ req prop

/-- C6, as the specification words it, fails: "flat" against "unit" are two different
members of the class of apartment, flat and unit, yet `calculateTypeMatch` returns `0.0`
where the wording gives `0.8`; likewise "townhouse" against "house". -/
theorem calculateTypeMatch_flat_unit :
    calculateTypeMatch ⟨"flat", "flat", .fin (9 / 10)⟩ "unit" = .fin 0 ∧
    specTypeMatch "flat" "unit" = .fin (8 / 10) ∧
    calculateTypeMatch ⟨"townhouse", "townhouse", .fin (9 / 10)⟩ "house" = .fin 0 ∧
    specTypeMatch "townhouse" "house" = .fin (8 / 10) ∧
    JSNum.fin 0 ≠ JSNum.fin (8 / 10) := by
  refine ⟨?_, ?_, ?_, ?_, ?_⟩
  · rw [calculateTypeMatch]
    simp only []
    rw [if_neg (by decide), if_neg (by decide)]
  · rw [specTypeMatch, if_neg (by decide), if_pos (by decide)]
  · rw [calculateTypeMatch]
    simp only []
    rw [if_neg (by decide), if_neg (by decide)]
  · rw [specTypeMatch, if_neg (by decide), if_pos (by decide)]
  · intro h
    have h2 : (0 : ℚ) = 8 / 10 := JSNum.fin.inj h
    norm_num at h2

/-- C6, amended. `calculateTypeMatch` returns `1.0` when the two labels are equal ignoring
case, `0.8` when they differ and one is a class head (apartment, villa, studio) and the
other one of the similar types listed for that head (flat or unit; house or townhouse;
loft), in either order and ignoring case, and `0.0` otherwise; so "apartment" against "flat"
gives `0.8` while "flat" against "unit" gives `0.0`. -/
theorem calculateTypeMatch_spec :
    (∀ (reqType : PropertyType) (propType : String),
      (toLowerCase reqType.type = toLowerCase propType →
        calculateTypeMatch reqType propType = .fin 1) ∧
      (toLowerCase reqType.type ≠ toLowerCase propType →
        ((toLowerCase reqType.type, toLowerCase propType) ∈ similarPairs ∨
          (toLowerCase propType, toLowerCase reqType.type) ∈ similarPairs) →
        calculateTypeMatch reqType propType = .fin (8 / 10)) ∧
      (toLowerCase reqType.type ≠ toLowerCase propType →
        (toLowerCase reqType.type, toLowerCase propType) ∉ similarPairs →
        (toLowerCase propType, toLowerCase reqType.type) ∉ similarPairs →
        calculateTypeMatch reqType propType = .fin 0)) ∧
    calculateTypeMatch ⟨"Apartment", "Apartment", .fin (9 / 10)⟩ "flat" = .fin (8 / 10) ∧
    calculateTypeMatch ⟨"flat", "flat", .fin (9 / 10)⟩ "Apartment" = .fin (8 / 10) ∧
    calculateTypeMatch ⟨"flat", "flat", .fin (9 / 10)⟩ "unit" = .fin 0 := by
  have general : ∀ (reqType : PropertyType) (propType : String),
      (toLowerCase reqType.type = toLowerCase propType →
        calculateTypeMatch reqType propType = .fin 1) ∧
      (toLowerCase reqType.type ≠ toLowerCase propType →
        ((toLowerCase reqType.type, toLowerCase propType) ∈ similarPairs ∨
          (toLowerCase propType, toLowerCase reqType.type) ∈ similarPairs) →
        calculateTypeMatch reqType propType = .fin (8 / 10)) ∧
      (toLowerCase reqType.type ≠ toLowerCase propType →
        (toLowerCase reqType.type, toLowerCase propType) ∉ similarPairs →
        (toLowerCase propType, toLowerCase reqType.type) ∉ similarPairs →
        calculateTypeMatch reqType propType = .fin 0) := by
    intro reqType propType
    refine ⟨?_, ?_, ?_⟩
    · intro h
      simp only [calculateTypeMatch, h, if_true]
    · intro hne hpair
      have hany := (similarTypes_any_iff (toLowerCase reqType.type) (toLowerCase propType)).mpr
        hpair
      simp only [calculateTypeMatch, hne, hany, if_true, if_false]
    · intro hne h1 h2
      have hany : ¬ (similarTypes.any (fun e =>
          (decide (toLowerCase reqType.type = e.1) && e.2.contains (toLowerCase propType)) ||
          (decide (toLowerCase propType = e.1) && e.2.contains (toLowerCase reqType.type)))
          = true) := by
        rw [similarTypes_any_iff]
        rintro (h | h)
        · exact h1 h
        · exact h2 h
      simp only [calculateTypeMatch, hne, hany, if_false, Bool.false_eq_true]
  refine ⟨general, ?_, ?_, ?_⟩
  · exact (general _ _).2.1 (by decide) (Or.inl (by decide))
  · exact (general _ _).2.1 (by decide) (Or.inr (by decide))
  · exact (general _ _).2.2 (by decide) (by decide) (by decide)

/-! ## Combined match score -/

/-- The four guarded blocks of `calculateMatchingScore`, written with the guard and the
sub-score of each criterion. -/
theorem calculateMatchingScore_eq_steps (requirements : Requirements) (property : Property) :
    calculateMatchingScore requirements property =
      (let g := Criterion.specified requirements property
       let sc := Criterion.subScore requirements property
       let acc := addCriterion (.fin 0, .fin 0) (g .location) (sc .location)
         Criterion.location.weight
       let acc := addCriterion acc (g .budget) (sc .budget) Criterion.budget.weight
       let acc := addCriterion acc (g .propertyType) (sc .propertyType)
         Criterion.propertyType.weight
       let acc := addCriterion acc (g .size) (sc .size) Criterion.size.weight
       if JSNum.fin 0 < acc.2 then acc.1 / acc.2 else .fin 0) := by
  obtain ⟨intent, budget, location, propertyType, size, bedrooms, bathrooms, contact, urgency,
    sentiment, confidence, extractedAt⟩ := requirements
  obtain ⟨id, title, ptype, plocation, price, psize, pbedrooms, pbathrooms, amenities,
    status⟩ := property
  cases budget <;> cases location <;> cases propertyType <;> cases size <;>
    cases ptype <;> cases plocation <;> cases price <;> cases psize <;> rfl

/-- A non-empty string is truthy. -/
theorem truthyStr_of_ne (t : String) (h : t ≠ "") : truthyStr (some t) = true := by
  cases htl : t.toList with
  | nil => exact absurd (String.ext htl) h
  | cons c cs =>
    have hd : t.data = c :: cs := htl
    simp [truthyStr, hd]

/-- A positive number is truthy. -/
theorem truthyNum_of_positive (x : JSNum) (h : x.Positive) : truthyNum (some x) = true := by
  obtain ⟨q, rfl, hq⟩ := h
  simp [truthyNum, JSNum.truthy, ne_of_gt hq]

/-- On a property whose fields hold proper values the truthiness tests of the source see a
criterion exactly when both sides carry it. -/
theorem specified_eq_present (requirements : Requirements) (property : Property)
    (h : property.Proper) (c : Criterion) :
    Criterion.specified requirements property c = Criterion.present requirements property c := by
  obtain ⟨hl, ht, hp, hs⟩ := h
  cases c
  · cases hv : property.location with
    | none => simp [Criterion.specified, Criterion.present, hv, truthyStr]
    | some l => simp [Criterion.specified, Criterion.present, hv, truthyStr_of_ne l (hl l hv)]
  · cases hv : property.price with
    | none => simp [Criterion.specified, Criterion.present, hv, truthyNum]
    | some x =>
      simp [Criterion.specified, Criterion.present, hv, truthyNum_of_positive x (hp x hv)]
  · cases hv : property.type with
    | none => simp [Criterion.specified, Criterion.present, hv, truthyStr]
    | some t => simp [Criterion.specified, Criterion.present, hv, truthyStr_of_ne t (ht t hv)]
  · cases hv : property.size with
    | none => simp [Criterion.specified, Criterion.present, hv, truthyNum]
    | some x =>
      simp [Criterion.specified, Criterion.present, hv, truthyNum_of_positive x (hs x hv)]

/-- In exact arithmetic the score of `calculateMatchingScore` is the weighted average
`(sum of w_c * s_c) / (sum of w_c)` over the criteria c among location (0.35), budget
(0.25), propertyType (0.20) and size (0.15) that are specified in both the requirement and
the property, and `0` when there is none. -/
theorem calculateMatchingScore_eq_weightedAverage (requirements : Requirements)
    (property : Property) :
    calculateMatchingScore requirements property = weightedAverage requirements property := by
  rw [calculateMatchingScore_eq_steps]
  simp only [weightedAverage, specifiedCriteria, List.filter_cons, List.filter_nil]
  generalize Criterion.specified requirements property .location = gl
  generalize Criterion.specified requirements property .budget = gb
  generalize Criterion.specified requirements property .propertyType = gt
  generalize Criterion.specified requirements property .size = gs
  cases gl <;> cases gb <;> cases gt <;> cases gs <;>
    simp [addCriterion, sumNums, Criterion.weight, JSNum.zero_add_num, JSNum.add_zero_num,
      JSNum.add_assoc_num, JSNum.fin_mul_comm] <;> norm_num

/-! ## Range of the scores -/

theorem calculateLocationMatch_inUnit (reqLocation : Location) (propLocation : String) :
    (calculateLocationMatch reqLocation propLocation).InUnit := by
  unfold calculateLocationMatch
  simp only []
  split_ifs
  · exact ⟨1, rfl, by norm_num, by norm_num⟩
  · exact ⟨8 / 10, rfl, by norm_num, by norm_num⟩
  · exact ⟨0, rfl, by norm_num, by norm_num⟩

theorem calculateTypeMatch_inUnit (reqType : PropertyType) (propType : String) :
    (calculateTypeMatch reqType propType).InUnit := by
  unfold calculateTypeMatch
  simp only []
  split_ifs
  · exact ⟨1, rfl, by norm_num, by norm_num⟩
  · exact ⟨8 / 10, rfl, by norm_num, by norm_num⟩
  · exact ⟨0, rfl, by norm_num, by norm_num⟩

theorem calculateBudgetMatch_inUnit (reqBudget : Budget) (propPrice : JSNum)
    (hb : reqBudget.amount.Positive) (hp : propPrice.Positive) :
    (calculateBudgetMatch reqBudget propPrice).InUnit := by
  obtain ⟨b, hbe, hb0⟩ := hb
  obtain ⟨p, hpe, hp0⟩ := hp
  subst hpe
  have hbne : b ≠ 0 := ne_of_gt hb0
  simp only [calculateBudgetMatch, hbe, JSNum.fin_le_fin, JSNum.fin_sub_fin,
    JSNum.fin_div_fin _ hbne]
  split_ifs with h1 h2 h3 h4
  · exact ⟨1, rfl, by norm_num, by norm_num⟩
  · exact ⟨p / b, rfl, le_of_lt (div_pos hp0 hb0), (div_le_one hb0).mpr h1⟩
  · exact ⟨8 / 10, rfl, by norm_num, by norm_num⟩
  · exact ⟨6 / 10, rfl, by norm_num, by norm_num⟩
  · exact ⟨0, rfl, by norm_num, by norm_num⟩

theorem calculateSizeMatch_inUnit (reqSize : Size) (propSize : JSNum)
    (hr : reqSize.area.Positive) (ha : propSize.Positive) :
    (calculateSizeMatch reqSize propSize).InUnit := by
  obtain ⟨r, hre, hr0⟩ := hr
  obtain ⟨a, hae, _⟩ := ha
  subst hae
  have hrne : r ≠ 0 := ne_of_gt hr0
  simp only [calculateSizeMatch, hre, JSNum.fin_le_fin, JSNum.fin_sub_fin, JSNum.abs_fin,
    JSNum.fin_div_fin _ hrne]
  split_ifs
  · exact ⟨1, rfl, by norm_num, by norm_num⟩
  · exact ⟨8 / 10, rfl, by norm_num, by norm_num⟩
  · exact ⟨6 / 10, rfl, by norm_num, by norm_num⟩
  · exact ⟨0, rfl, by norm_num, by norm_num⟩

/-- One guarded block keeps both running sums finite, with `0 <= totalScore <= totalWeight`,
when the sub-score lies in the unit interval and the weight is not negative. -/
theorem addCriterion_bounds (acc : JSNum × JSNum) (guard : Bool) (score : JSNum) (w : ℚ)
    (hacc : ∃ n d : ℚ, acc = (.fin n, .fin d) ∧ 0 ≤ n ∧ n ≤ d)
    (hscore : guard = true → score.InUnit) (hw : 0 ≤ w) :
    ∃ n d : ℚ, addCriterion acc guard score (.fin w) = (.fin n, .fin d) ∧ 0 ≤ n ∧ n ≤ d := by
  obtain ⟨n, d, rfl, hn, hnd⟩ := hacc
  cases guard with
  | false => exact ⟨n, d, rfl, hn, hnd⟩
  | true =>
    obtain ⟨q, rfl, hq0, hq1⟩ := hscore rfl
    refine ⟨n + q * w, d + w, by simp [addCriterion], ?_, ?_⟩
    · have := mul_nonneg hq0 hw
      linarith
    · have : q * w ≤ 1 * w := mul_le_mul_of_nonneg_right hq1 hw
      linarith

/-- The final quotient of `calculateMatchingScore` lies in the unit interval when
`0 <= totalScore <= totalWeight`. -/
theorem quotient_inUnit (acc : JSNum × JSNum)
    (hacc : ∃ n d : ℚ, acc = (.fin n, .fin d) ∧ 0 ≤ n ∧ n ≤ d) :
    (if JSNum.fin 0 < acc.2 then acc.1 / acc.2 else JSNum.fin 0).InUnit := by
  obtain ⟨n, d, rfl, hn, hnd⟩ := hacc
  simp only [JSNum.fin_lt_fin]
  split_ifs with h
  · rw [JSNum.fin_div_fin _ (ne_of_gt h)]
    exact ⟨n / d, rfl, div_nonneg hn (le_of_lt h), (div_le_one h).mpr hnd⟩
  · exact ⟨0, rfl, by norm_num, by norm_num⟩

/-- C2. When the budget amount, the price, the required area and the property size are
positive whenever present, each of the four sub-scores lies in `[0,1]` and so does the
combined `calculateMatchingScore`. -/
theorem scores_inUnit (requirements : Requirements) (property : Property)
    (hbudget : ∀ b, requirements.budget = some b → b.amount.Positive)
    (hprice : ∀ p, property.price = some p → p.Positive)
    (harea : ∀ sz, requirements.size = some sz → sz.area.Positive)
    (hsize : ∀ a, property.size = some a → a.Positive) :
    (∀ r l, requirements.location = some r → property.location = some l →
      (calculateLocationMatch r l).InUnit) ∧
    (∀ b p, requirements.budget = some b → property.price = some p →
      (calculateBudgetMatch b p).InUnit) ∧
    (∀ t pt, requirements.propertyType = some t → property.type = some pt →
      (calculateTypeMatch t pt).InUnit) ∧
    (∀ sz a, requirements.size = some sz → property.size = some a →
      (calculateSizeMatch sz a).InUnit) ∧
    (calculateMatchingScore requirements property).InUnit := by
  refine ⟨fun r l _ _ => calculateLocationMatch_inUnit r l,
    fun b p hb hp => calculateBudgetMatch_inUnit b p (hbudget b hb) (hprice p hp),
    fun t pt _ _ => calculateTypeMatch_inUnit t pt,
    fun sz a hs ha => calculateSizeMatch_inUnit sz a (harea sz hs) (hsize a ha), ?_⟩
  have zeroUnit : (JSNum.fin 0).InUnit := ⟨0, rfl, by norm_num, by norm_num⟩
  have hl : (Criterion.subScore requirements property .location).InUnit := by
    simp only [Criterion.subScore]
    split
    · exact calculateLocationMatch_inUnit _ _
    · exact zeroUnit
  have ht : (Criterion.subScore requirements property .propertyType).InUnit := by
    simp only [Criterion.subScore]
    split
    · exact calculateTypeMatch_inUnit _ _
    · exact zeroUnit
  have hb : (Criterion.subScore requirements property .budget).InUnit := by
    simp only [Criterion.subScore]
    split
    · next b p hbe hpe => exact calculateBudgetMatch_inUnit b p (hbudget b hbe) (hprice p hpe)
    · exact zeroUnit
  have hs : (Criterion.subScore requirements property .size).InUnit := by
    simp only [Criterion.subScore]
    split
    · next sz a hse hae => exact calculateSizeMatch_inUnit sz a (harea sz hse) (hsize a hae)
    · exact zeroUnit
  rw [calculateMatchingScore_eq_steps]
  apply quotient_inUnit
  refine addCriterion_bounds _ _ _ (15 / 100) ?_ (fun _ => hs) (by norm_num)
  refine addCriterion_bounds _ _ _ (20 / 100) ?_ (fun _ => ht) (by norm_num)
  refine addCriterion_bounds _ _ _ (25 / 100) ?_ (fun _ => hb) (by norm_num)
  refine addCriterion_bounds _ _ _ (35 / 100) ?_ (fun _ => hl) (by norm_num)
  exact ⟨0, 0, rfl, le_refl _, le_refl _⟩

/-- Witness of C2: the sample requirement against a Maadi apartment at 620,000 EGP. -/
theorem scores_inUnit_witness :
    (calculateMatchingScore sampleRequirements (sampleProperty "p1" "Maadi" 620000)).InUnit :=
  (scores_inUnit sampleRequirements (sampleProperty "p1" "Maadi" 620000)
    (fun b hb => by
      cases hb
      exact ⟨1000000, rfl, by norm_num⟩)
    (fun p hp => by
      cases hp
      exact ⟨620000, rfl, by norm_num⟩)
    (fun sz hs => by
      cases hs
      exact ⟨100, rfl, by norm_num⟩)
    (fun a ha => by
      cases ha
      exact ⟨100, rfl, by norm_num⟩)).2.2.2.2

/-! ## Threshold filtering and ranking -/

/-- A number that a finite bound does not exceed is finite or `+Infinity`. -/
theorem fin_le_cases (t : ℚ) (x : JSNum) (h : JSNum.fin t ≤ x) :
    (∃ q : ℚ, x = .fin q ∧ t ≤ q) ∨ x = .posInf := by
  cases x with
  | fin q => exact Or.inl ⟨q, rfl, h⟩
  | posInf => exact Or.inr rfl
  | negInf => exact False.elim h
  | nan => exact False.elim h

/-- On scores that reach the threshold the comparator of the sort orders by descending
score: it is positive exactly when the first score is strictly lower. -/
theorem compare_not_pos_iff (x y : JSNum) (hx : matchingThreshold ≤ x)
    (hy : matchingThreshold ≤ y) : ¬ (JSNum.fin 0 < y - x) ↔ y ≤ x := by
  rcases fin_le_cases _ _ hx with ⟨a, rfl, _⟩ | rfl <;>
    rcases fin_le_cases _ _ hy with ⟨b, rfl, _⟩ | rfl
  · simp
  · exact ⟨fun h => h trivial, fun h => False.elim h⟩
  · exact ⟨fun _ => trivial, fun _ h => h⟩
  · exact ⟨fun _ => trivial, fun _ h => h⟩

/-- Scores that reach the threshold are totally ordered. -/
theorem le_total_of_threshold (x y : JSNum) (hx : matchingThreshold ≤ x)
    (hy : matchingThreshold ≤ y) : y ≤ x ∨ x ≤ y := by
  rcases fin_le_cases _ _ hx with ⟨a, rfl, _⟩ | rfl <;>
    rcases fin_le_cases _ _ hy with ⟨b, rfl, _⟩ | rfl
  · exact le_total b a
  · exact Or.inr trivial
  · exact Or.inl trivial
  · exact Or.inl trivial

/-- The order on scores that reach the threshold is transitive. -/
theorem le_trans_of_threshold (x y z : JSNum) (hx : matchingThreshold ≤ x)
    (hy : matchingThreshold ≤ y) (hz : matchingThreshold ≤ z) (h1 : z ≤ y) (h2 : y ≤ x) :
    z ≤ x := by
  rcases fin_le_cases _ _ hx with ⟨a, rfl, _⟩ | rfl <;>
    rcases fin_le_cases _ _ hy with ⟨b, rfl, _⟩ | rfl <;>
    rcases fin_le_cases _ _ hz with ⟨c, rfl, _⟩ | rfl
  · exact @le_trans ℚ _ c b a h1 h2
  · exact False.elim h1
  · exact False.elim h2
  · exact False.elim h2
  · exact trivial
  · exact trivial
  · exact trivial
  · exact trivial

/-- Inserting a match into a list ranked by descending score keeps it ranked, all scores
reaching the threshold. -/
theorem orderedInsert_ranked (a : Match) (l : List Match)
    (ha : matchingThreshold ≤ a.matchScore)
    (hl : ∀ m ∈ l, matchingThreshold ≤ m.matchScore)
    (hs : l.Pairwise (fun x y => y.matchScore ≤ x.matchScore)) :
    (l.orderedInsert (fun x y => ¬ (JSNum.fin 0 < compareMatches x y)) a).Pairwise
      (fun x y => y.matchScore ≤ x.matchScore) := by
  induction l with
  | nil => simp
  | cons b l ih =>
    have hb : matchingThreshold ≤ b.matchScore := hl b (List.mem_cons_self _ _)
    have hl2 : ∀ m ∈ l, matchingThreshold ≤ m.matchScore :=
      fun m hm => hl m (List.mem_cons_of_mem _ hm)
    rw [List.pairwise_cons] at hs
    rw [List.orderedInsert]
    split_ifs with h
    · have hba : a.matchScore ≤ b.matchScore := by
        rcases le_total_of_threshold _ _ ha hb with h1 | h1
        · exact absurd h ((compare_not_pos_iff _ _ ha hb).mpr h1)
        · exact h1
      rw [List.pairwise_cons]
      refine ⟨?_, ih hl2 hs.2⟩
      intro x hx
      rcases (List.mem_orderedInsert _).mp hx with rfl | hx
      · exact hba
      · exact hs.1 x hx
    · have hab : b.matchScore ≤ a.matchScore := (compare_not_pos_iff _ _ ha hb).mp h
      rw [List.pairwise_cons]
      refine ⟨?_, List.pairwise_cons.mpr hs⟩
      intro x hx
      rcases List.mem_cons.mp hx with rfl | hx
      · exact hab
      · exact le_trans_of_threshold _ _ _ ha hb (hl2 x hx) (hs.1 x hx) hab

/-- The sort of `findMatchingProperties` ranks by descending score, all scores reaching the
threshold. -/
theorem sortMatches_ranked (l : List Match)
    (hl : ∀ m ∈ l, matchingThreshold ≤ m.matchScore) :
    (sortMatches l).Pairwise (fun x y => y.matchScore ≤ x.matchScore) := by
  induction l with
  | nil => simp [sortMatches]
  | cons a l ih =>
    have hl2 : ∀ m ∈ l, matchingThreshold ≤ m.matchScore :=
      fun m hm => hl m (List.mem_cons_of_mem _ hm)
    have hmem : ∀ m ∈ sortMatches l, matchingThreshold ≤ m.matchScore := by
      intro m hm
      exact hl2 m ((List.perm_insertionSort _ l).mem_iff.mp hm)
    exact orderedInsert_ranked a (sortMatches l) (hl a (List.mem_cons_self _ _)) hmem (ih hl2)

/-- A ranked list that holds exactly a match scoring 0.9 and a match scoring 0.76 lists
them in that order. -/
theorem ranked_pair (l : List Match) (m1 m2 : Match) (hperm : l.Perm [m1, m2])
    (hs : l.Pairwise (fun x y => y.matchScore ≤ x.matchScore))
    (h1 : m1.matchScore = .fin (9 / 10)) (h2 : m2.matchScore = .fin (76 / 100)) :
    l = [m1, m2] := by
  have hne : m1 ≠ m2 := by
    intro h
    rw [h] at h1
    rw [h2] at h1
    have h3 : (76 / 100 : ℚ) = 9 / 10 := JSNum.fin.inj h1
    norm_num at h3
  have hlen : l.length = 2 := hperm.length_eq
  obtain ⟨x, y, rfl⟩ := List.length_eq_two.mp hlen
  have hx : x = m1 ∨ x = m2 := by
    have := hperm.mem_iff.mp (List.mem_cons_self x [y])
    simpa using this
  have hy : y = m1 ∨ y = m2 := by
    have := hperm.mem_iff.mp (List.mem_cons_of_mem x (List.mem_cons_self y []))
    simpa using this
  have hm1 : m1 = x ∨ m1 = y := by
    have := hperm.mem_iff.mpr (List.mem_cons_self m1 [m2])
    simpa using this
  have hm2 : m2 = x ∨ m2 = y := by
    have := hperm.mem_iff.mpr (List.mem_cons_of_mem m1 (List.mem_cons_self m2 []))
    simpa using this
  have hyx : y.matchScore ≤ x.matchScore := by
    rw [List.pairwise_cons] at hs
    exact hs.1 y (List.mem_cons_self _ _)
  rcases hx with rfl | rfl
  · rcases hy with rfl | rfl
    · rcases hm2 with h | h <;> exact absurd h.symm hne
    · rfl
  · rcases hy with rfl | rfl
    · rw [h1, h2] at hyx
      have h3 : (9 / 10 : ℚ) ≤ 76 / 100 := (JSNum.fin_le_fin _ _).mp hyx
      norm_num at h3
    · rcases hm1 with h | h <;> exact absurd h hne

/-- C3. On a non-empty inventory `findMatchingProperties` leaves the inventory as it is and
returns exactly the properties whose `calculateMatchingScore` is at least the threshold
0.75, ordered by descending `matchScore` and cut to the first 10 (those cut off score no
higher than those kept); for three properties scoring 0.9, 0.76 and 0.5, stored in any
order, it returns exactly the first two, in the order [0.9, 0.76]. -/
theorem findMatchingProperties_spec (s : AIProcessor) (requirements : Requirements)
    (fetched : Option (List Property)) (hne : s.propertyInventory ≠ []) :
    (findMatchingProperties s requirements fetched).1 = s ∧
    (∀ m ∈ (findMatchingProperties s requirements fetched).2,
      (m.propertyId, m.property) ∈ s.propertyInventory ∧
      m.matchScore = calculateMatchingScore requirements m.property ∧
      matchingThreshold ≤ m.matchScore) ∧
    (findMatchingProperties s requirements fetched).2.Pairwise
      (fun a b => b.matchScore ≤ a.matchScore) ∧
    (findMatchingProperties s requirements fetched).2.length =
      min 10 (s.propertyInventory.filter (fun e =>
        decide (matchingThreshold ≤ calculateMatchingScore requirements e.2))).length ∧
    (∃ rest : List Match,
      ((findMatchingProperties s requirements fetched).2 ++ rest).Perm
        ((s.propertyInventory.filter (fun e =>
          decide (matchingThreshold ≤ calculateMatchingScore requirements e.2))).map
            (makeMatch requirements)) ∧
      ∀ m ∈ (findMatchingProperties s requirements fetched).2, ∀ m' ∈ rest,
        m'.matchScore ≤ m.matchScore) ∧
    (∀ e1 e2 e3 : String × Property, s.propertyInventory.Perm [e1, e2, e3] →
      calculateMatchingScore requirements e1.2 = .fin (9 / 10) →
      calculateMatchingScore requirements e2.2 = .fin (76 / 100) →
      calculateMatchingScore requirements e3.2 = .fin (5 / 10) →
      (findMatchingProperties s requirements fetched).2 =
        [makeMatch requirements e1, makeMatch requirements e2]) := by
  have hlen : ¬ (s.propertyInventory.length = 0) := by
    intro h
    exact hne (List.length_eq_zero.mp h)
  have hstate : (findMatchingProperties s requirements fetched).1 = s := by
    simp only [findMatchingProperties, hlen, if_false]
  have hresult : (findMatchingProperties s requirements fetched).2 =
      (sortMatches ((s.propertyInventory.filter (fun e =>
        decide (matchingThreshold ≤ calculateMatchingScore requirements e.2))).map
          (makeMatch requirements))).take 10 := by
    simp only [findMatchingProperties, hlen, if_false]
  generalize hfound : (s.propertyInventory.filter (fun e =>
    decide (matchingThreshold ≤ calculateMatchingScore requirements e.2))).map
      (makeMatch requirements) = found at hresult
  have hfoundmem : ∀ m ∈ found, (m.propertyId, m.property) ∈ s.propertyInventory ∧
      m.matchScore = calculateMatchingScore requirements m.property ∧
      matchingThreshold ≤ m.matchScore := by
    intro m hm
    rw [← hfound] at hm
    obtain ⟨e, he, rfl⟩ := List.mem_map.mp hm
    obtain ⟨hinv, hthr⟩ := List.mem_filter.mp he
    exact ⟨hinv, rfl, of_decide_eq_true hthr⟩
  have hsortperm : (sortMatches found).Perm found := List.perm_insertionSort _ found
  have hranked : (sortMatches found).Pairwise (fun a b => b.matchScore ≤ a.matchScore) :=
    sortMatches_ranked found (fun m hm => (hfoundmem m hm).2.2)
  rw [hresult]
  refine ⟨hstate, ?_, ?_, ?_, ?_, ?_⟩
  · intro m hm
    exact hfoundmem m (hsortperm.mem_iff.mp (List.mem_of_mem_take hm))
  · exact hranked.sublist (List.take_sublist _ _)
  · rw [List.length_take, hsortperm.length_eq, ← hfound, List.length_map]
  · refine ⟨(sortMatches found).drop 10, ?_, ?_⟩
    · rw [List.take_append_drop]
      exact hsortperm
    · have h := hranked
      rw [← List.take_append_drop 10 (sortMatches found), List.pairwise_append] at h
      exact fun m hm m' hm' => h.2.2 m hm m' hm'
  · intro e1 e2 e3 hperm h1 h2 h3
    have hfilter : ([e1, e2, e3].filter (fun e =>
        decide (matchingThreshold ≤ calculateMatchingScore requirements e.2))) = [e1, e2] := by
      have t1 : decide (matchingThreshold ≤ calculateMatchingScore requirements e1.2) = true := by
        rw [h1, matchingThreshold, decide_eq_true_eq, JSNum.fin_le_fin]
        norm_num
      have t2 : decide (matchingThreshold ≤ calculateMatchingScore requirements e2.2) = true := by
        rw [h2, matchingThreshold, decide_eq_true_eq, JSNum.fin_le_fin]
        norm_num
      have t3 : decide (matchingThreshold ≤ calculateMatchingScore requirements e3.2) = false := by
        rw [h3, matchingThreshold, decide_eq_false_iff_not, JSNum.fin_le_fin]
        norm_num
      simp only [List.filter_cons, List.filter_nil, t1, t2, t3, if_true, if_false,
        Bool.false_eq_true]
    have hfoundperm : found.Perm [makeMatch requirements e1, makeMatch requirements e2] := by
      rw [← hfound]
      have := (hperm.filter (fun e =>
        decide (matchingThreshold ≤ calculateMatchingScore requirements e.2))).map
          (makeMatch requirements)
      rw [hfilter] at this
      exact this
    have hsorted2 : (sortMatches found).Perm
        [makeMatch requirements e1, makeMatch requirements e2] := hsortperm.trans hfoundperm
    have htake : (sortMatches found).take 10 = sortMatches found := by
      apply List.take_of_length_le
      rw [hsorted2.length_eq]
      simp
    rw [htake]
    exact ranked_pair _ _ _ hsorted2 hranked h1 h2

/-- The sample area against the same location scores 1.0. -/
theorem sample_location_same :
    calculateLocationMatch ⟨"Maadi", "in Maadi", .fin (8 / 10)⟩ "Maadi" = .fin 1 := by
  rw [calculateLocationMatch]
  simp only []
  rw [if_pos (by decide)]

/-- The sample area against an unrelated location scores 0.0. -/
theorem sample_location_other :
    calculateLocationMatch ⟨"Maadi", "in Maadi", .fin (8 / 10)⟩ "Giza" = .fin 0 := by
  rw [calculateLocationMatch]
  simp only []
  rw [if_neg (by decide), if_neg (by decide)]

/-- The score of a sample property against the sample requirement, from its location
sub-score `sl` and a price below 70% of the budget. -/
theorem sampleProperty_score (id location : String) (price : ℚ) (sl : ℚ)
    (hloc : truthyStr (some location) = true)
    (hsl : calculateLocationMatch ⟨"Maadi", "in Maadi", .fin (8 / 10)⟩ location = .fin sl)
    (hprice : 0 < price) (hlow : price < 7 / 10 * 1000000) :
    calculateMatchingScore sampleRequirements (sampleProperty id location price) =
      .fin ((sl * (35 / 100) + price / 1000000 * (25 / 100) + 20 / 100 + 15 / 100) /
        (95 / 100)) := by
  have hb : calculateBudgetMatch ⟨.fin 1000000, "EGP", "budget 1,000,000 egp"⟩ (.fin price) =
      .fin (price / 1000000) := by
    have h1 : price ≤ 1000000 := by linarith
    have h2 : ¬ (7 / 10 ≤ price / 1000000) := by
      rw [le_div_iff₀ (by norm_num)]
      exact not_le.mpr hlow
    simp only [calculateBudgetMatch, JSNum.fin_le_fin,
      JSNum.fin_div_fin _ (by norm_num : (1000000 : ℚ) ≠ 0), h1, h2, if_true, if_false]
  have ht : calculateTypeMatch ⟨"apartment", "apartment", .fin (9 / 10)⟩ "apartment" =
      .fin 1 := by
    rw [calculateTypeMatch]
    simp only []
    rw [if_pos (by decide)]
  have hs : calculateSizeMatch ⟨.fin 100, "sqm", "100 sqm"⟩ (.fin 100) = .fin 1 := by
    simp only [calculateSizeMatch, JSNum.fin_sub_fin, JSNum.abs_fin, JSNum.fin_le_fin,
      JSNum.fin_div_fin _ (by norm_num : (100 : ℚ) ≠ 0)]
    norm_num
  have htype : truthyStr (some "apartment") = true := by decide
  have hne : price ≠ 0 := ne_of_gt hprice
  rw [calculateMatchingScore_eq_steps]
  simp only [Criterion.specified, Criterion.subScore, sampleRequirements, sampleProperty,
    Option.isSome, Bool.true_and, hloc, htype, truthyNum, JSNum.truthy, hsl, hb, ht, hs,
    addCriterion, Criterion.weight, if_true, JSNum.fin_add_fin, JSNum.fin_mul_fin,
    JSNum.fin_lt_fin, decide_eq_true_eq, ne_eq, hne, not_false_eq_true, decide_True]
  norm_num [JSNum.fin_div_fin]

/-- Witness of C3: the sample inventory is not empty and holds properties scoring 0.5, 0.76
and 0.9, in that order; the call returns the entries of `p1` and `p2`, in that order. -/
theorem findMatchingProperties_spec_witness :
    sampleProcessor.propertyInventory ≠ [] ∧
    (findMatchingProperties sampleProcessor sampleRequirements none).2 =
      [makeMatch sampleRequirements ("p1", sampleProperty "p1" "Maadi" 620000),
       makeMatch sampleRequirements ("p2", sampleProperty "p2" "Maadi" 88000)] :=
  ⟨by simp [sampleProcessor],
   (findMatchingProperties_spec sampleProcessor sampleRequirements none
      (by simp [sampleProcessor])).2.2.2.2.2
      ("p1", sampleProperty "p1" "Maadi" 620000) ("p2", sampleProperty "p2" "Maadi" 88000)
      ("p3", sampleProperty "p3" "Giza" 500000)
      (List.reverse_perm [("p1", sampleProperty "p1" "Maadi" 620000),
        ("p2", sampleProperty "p2" "Maadi" 88000), ("p3", sampleProperty "p3" "Giza" 500000)])
      (by
        rw [sampleProperty_score "p1" "Maadi" 620000 1 (by decide) sample_location_same
          (by norm_num) (by norm_num)]
        norm_num)
      (by
        rw [sampleProperty_score "p2" "Maadi" 88000 1 (by decide) sample_location_same
          (by norm_num) (by norm_num)]
        norm_num)
      (by
        rw [sampleProperty_score "p3" "Giza" 500000 0 (by decide) sample_location_other
          (by norm_num) (by norm_num)]
        norm_num)⟩

/-! ## Lead quality -/

/-- C9. `assessLeadQuality` returns the score `min(100, points)`, the points being 25 for a
budget, 20 for a location, 15 for a property type, 20 for an intent, 15 for high or 10 for
medium urgency and 5 for positive sentiment, and the band HIGH iff the score is at least 80,
MEDIUM iff it is at least 60 and below 80, LOW otherwise; budget, location, property type
and intent all present with high urgency give HIGH, with the score 95 (the sentiment not
being positive, which would add 5). -/
theorem assessLeadQuality_spec (requirements : Requirements) :
    (assessLeadQuality requirements).score = min 100 (leadPoints requirements) ∧
    ((assessLeadQuality requirements).quality = .HIGH ↔
      80 ≤ (assessLeadQuality requirements).score) ∧
    ((assessLeadQuality requirements).quality = .MEDIUM ↔
      (60 ≤ (assessLeadQuality requirements).score ∧
        (assessLeadQuality requirements).score < 80)) ∧
    ((assessLeadQuality requirements).quality = .LOW ↔
      (assessLeadQuality requirements).score < 60) ∧
    (requirements.budget.isSome = true ∧ requirements.location.isSome = true ∧
      requirements.propertyType.isSome = true ∧ requirements.intent.isSome = true ∧
      requirements.urgency = .high →
        (assessLeadQuality requirements).quality = .HIGH ∧
        (requirements.sentiment ≠ .positive → (assessLeadQuality requirements).score = 95)) := by
  obtain ⟨intent, budget, location, propertyType, size, bedrooms, bathrooms, contact, urgency,
    sentiment, confidence, extractedAt⟩ := requirements
  cases intent <;> cases budget <;> cases location <;> cases propertyType <;>
    cases urgency <;> cases sentiment <;> simp [assessLeadQuality, leadPoints]

/-! ## Action recommendation -/

/-- Two numbers, each at most the other, are equal. -/
theorem le_antisymm_num (x y : JSNum) (h1 : x ≤ y) (h2 : y ≤ x) : x = y := by
  cases x <;> cases y <;> first
    | rfl
    | exact False.elim h1
    | exact False.elim h2
    | exact congrArg JSNum.fin (@le_antisymm ℚ _ _ _ h1 h2)

/-- In a list ranked by descending score the first entry carries the best score. -/
theorem head_is_best (first : Match) (others : List Match) (best : JSNum)
    (hsorted : (first :: others).Pairwise (fun a b => b.matchScore ≤ a.matchScore))
    (hmem : ∃ m ∈ first :: others, m.matchScore = best)
    (hbest : ∀ m ∈ first :: others, m.matchScore ≤ best) : first.matchScore = best := by
  obtain ⟨m, hm, rfl⟩ := hmem
  rcases List.mem_cons.mp hm with rfl | hm
  · rfl
  · exact le_antisymm_num _ _ (hbest first (List.mem_cons_self _ _))
      ((List.pairwise_cons.mp hsorted).1 m hm)

/-- C10. For a match list sorted by descending score, `generateActionRecommendation`
returns NO_MATCHES with medium priority when the list is empty, EXCELLENT_MATCH with high
priority when the best score is at least 0.9, GOOD_MATCH with medium priority when the best
score is at least 0.8 and below 0.9, and PARTIAL_MATCH with low priority otherwise. -/
theorem generateActionRecommendation_spec (requirements : Requirements) (found : List Match)
    (hsorted : found.Pairwise (fun a b => b.matchScore ≤ a.matchScore)) :
    (found = [] → generateActionRecommendation requirements found =
      { action := .NO_MATCHES, priority := .medium }) ∧
    (∀ best : JSNum, (∃ m ∈ found, m.matchScore = best) →
      (∀ m ∈ found, m.matchScore ≤ best) →
      (JSNum.fin (9 / 10) ≤ best → generateActionRecommendation requirements found =
        { action := .EXCELLENT_MATCH, priority := .high }) ∧
      (JSNum.fin (8 / 10) ≤ best → best < JSNum.fin (9 / 10) →
        generateActionRecommendation requirements found =
          { action := .GOOD_MATCH, priority := .medium }) ∧
      (¬ (JSNum.fin (8 / 10) ≤ best) → generateActionRecommendation requirements found =
        { action := .PARTIAL_MATCH, priority := .low })) := by
  refine ⟨?_, ?_⟩
  · rintro rfl
    rfl
  · intro best hmem hbest
    match found, hsorted, hmem, hbest with
    | [], _, hmem, _ =>
      obtain ⟨m, hm, _⟩ := hmem
      exact absurd hm (List.not_mem_nil m)
    | first :: others, hsorted, hmem, hbest =>
      have hhead : first.matchScore = best := head_is_best first others best hsorted hmem hbest
      simp only [generateActionRecommendation, hhead]
      refine ⟨?_, ?_, ?_⟩
      · intro h
        simp only [h, if_true]
      · intro h8 h9
        have hn9 : ¬ (JSNum.fin (9 / 10) ≤ best) := by
          intro h
          rcases fin_le_cases _ _ h with ⟨q, rfl, hq⟩ | rfl
          · exact absurd ((JSNum.fin_lt_fin _ _).mp h9) (not_lt.mpr hq)
          · exact False.elim h9
        simp only [hn9, h8, if_true, if_false]
      · intro hn8
        have hn9 : ¬ (JSNum.fin (9 / 10) ≤ best) := by
          intro h
          apply hn8
          rcases fin_le_cases _ _ h with ⟨q, rfl, hq⟩ | rfl
          · rw [JSNum.fin_le_fin]
            have : (8 / 10 : ℚ) ≤ 9 / 10 := by norm_num
            exact le_trans this hq
          · trivial
        simp only [hn9, hn8, if_false]

/-- Witness of C10: a one-entry list whose entry scores 0.9 is recommended as an excellent
match with high priority. -/
theorem generateActionRecommendation_spec_witness :
    generateActionRecommendation sampleRequirements
      [makeMatch sampleRequirements ("p1", sampleProperty "p1" "Maadi" 620000)] =
        { action := .EXCELLENT_MATCH, priority := .high } :=
  have hscore : (makeMatch sampleRequirements
      ("p1", sampleProperty "p1" "Maadi" 620000)).matchScore = .fin (9 / 10) := by
    show calculateMatchingScore sampleRequirements (sampleProperty "p1" "Maadi" 620000) = _
    rw [sampleProperty_score "p1" "Maadi" 620000 1 (by decide) sample_location_same
      (by norm_num) (by norm_num)]
    norm_num
  ((generateActionRecommendation_spec sampleRequirements
      [makeMatch sampleRequirements ("p1", sampleProperty "p1" "Maadi" 620000)]
      (List.pairwise_singleton _ _)).2 (.fin (9 / 10))
      ⟨_, List.mem_singleton.mpr rfl, hscore⟩
      (fun m hm => by
        rw [List.mem_singleton.mp hm, hscore]
        exact (JSNum.fin_le_fin _ _).mpr (le_refl _))).1
    ((JSNum.fin_le_fin _ _).mpr (le_refl _))

/-! ## Requirement store -/

/-- Reading a key just written gives the written value. -/
theorem mapGet_mapSet_self {β : Type} (m : List (String × β)) (k : String) (v : β) :
    mapGet (mapSet m k v) k = some v := by
  induction m with
  | nil => simp [mapGet, mapSet]
  | cons e rest ih =>
    rw [mapSet]
    split_ifs with h
    · simp [mapGet]
    · have ih2 := ih
      simp only [mapGet] at ih2 ⊢
      rw [List.find?_cons_of_neg]
      · exact ih2
      · simpa using h

/-- After `processMessage` the record stored for the sender carries the freshly extracted
requirement in full, whatever was stored before. -/
theorem processMessage_stored (s : AIProcessor) (e : Extraction)
    (sender conversationId : String) (extractedAt lastUpdated : Nat)
    (fetched : Option (List Property)) :
    (mapGet (processMessage s e sender conversationId extractedAt lastUpdated
      fetched).1.customerRequirements sender).map (fun r => r.toRequirements) =
        some (extractCustomerRequirements e extractedAt) := by
  have h : (processMessage s e sender conversationId extractedAt lastUpdated
      fetched).1.customerRequirements =
      mapSet s.customerRequirements sender
        (mergeRequirements (mapGet s.customerRequirements sender)
          (extractCustomerRequirements e extractedAt) lastUpdated conversationId
          (getMessageHistory s conversationId)) := by
    simp only [processMessage, findMatchingProperties, loadPropertyInventory]
    split_ifs <;> cases fetched <;> rfl
  rw [h, mapGet_mapSet_self]
  rfl

/-- C8 fails on the code. A customer has a requirement on file with budget, location,
property type and size; the next message, "hello", yields no field. After `processMessage`
the stored record has lost all four: each is `null`, where the claim has them persist. -/
theorem processMessage_clears_unextracted :
    (mapGet sampleDemandProcessor.customerRequirements "201001234567").map
        (fun r => (r.budget.isSome, r.location.isSome, r.propertyType.isSome, r.size.isSome))
      = some (true, true, true, true) ∧
    (mapGet (processMessage sampleDemandProcessor helloExtraction "201001234567" "c1" 5 6
        none).1.customerRequirements "201001234567").map
        (fun r => (r.budget, r.location, r.propertyType, r.size, r.intent))
      = some (none, none, none, none, none) := by
  refine ⟨by decide, ?_⟩
  have h := processMessage_stored sampleDemandProcessor helloExtraction "201001234567" "c1" 5 6
    none
  cases hget : mapGet (processMessage sampleDemandProcessor helloExtraction "201001234567"
      "c1" 5 6 none).1.customerRequirements "201001234567" with
  | none => simp [hget] at h
  | some r =>
    rw [hget] at h
    simp only [Option.map_some', Option.some.injEq] at h
    simp only [Option.map_some', h]
    rfl

/-! ## Contact decision -/

/-- A number that reaches a finite bound is at most itself. -/
theorem le_refl_of_fin_le (t : ℚ) (x : JSNum) (h : JSNum.fin t ≤ x) : x ≤ x := by
  rcases fin_le_cases _ _ h with ⟨q, rfl, _⟩ | rfl
  · exact (JSNum.fin_le_fin _ _).mpr (le_refl q)
  · trivial

/-- An empty match list has no best score. -/
theorem no_best_of_nil (best : JSNum) : ¬ IsBestScore best [] := by
  rintro ⟨⟨m, hm, _⟩, _⟩
  exact absurd hm (List.not_mem_nil m)

/-- In a list ranked by descending score, a best score of at least 0.8 exists exactly when
the first entry scores at least 0.8. -/
theorem best_good_iff (first : Match) (others : List Match)
    (hsorted : (first :: others).Pairwise (fun a b => b.matchScore ≤ a.matchScore)) :
    (∃ best, IsBestScore best (first :: others) ∧ JSNum.fin (8 / 10) ≤ best) ↔
      JSNum.fin (8 / 10) ≤ first.matchScore := by
  constructor
  · rintro ⟨best, ⟨hmem, hbest⟩, hge⟩
    rw [head_is_best first others best hsorted hmem hbest]
    exact hge
  · intro h
    refine ⟨first.matchScore, ⟨⟨first, List.mem_cons_self _ _, rfl⟩, ?_⟩, h⟩
    intro m hm
    rcases List.mem_cons.mp hm with rfl | hm
    · exact le_refl_of_fin_le _ _ h
    · exact (List.pairwise_cons.mp hsorted).1 m hm

/-- C11. For a match list sorted by descending score, `shouldHumanAgentContact` applies
four rules in order, the first that holds deciding: (1) lead quality HIGH and a best match
score of at least 0.8: contact, high priority, within 1 hour; (2) urgency high: contact,
high priority, within 2 hours; (3) lead quality MEDIUM and at least one match: contact,
medium priority, within 24 hours; (4) otherwise: no contact, low priority, follow up when
more properties are available. -/
theorem shouldHumanAgentContact_spec (requirements : Requirements) (found : List Match)
    (hsorted : found.Pairwise (fun a b => b.matchScore ≤ a.matchScore)) :
    (((assessLeadQuality requirements).quality = .HIGH ∧
        ∃ best, IsBestScore best found ∧ JSNum.fin (8 / 10) ≤ best) →
      shouldHumanAgentContact requirements found =
        { shouldContact := true, priority := .high, timeframe := .withinOneHour }) ∧
    (¬ ((assessLeadQuality requirements).quality = .HIGH ∧
        ∃ best, IsBestScore best found ∧ JSNum.fin (8 / 10) ≤ best) →
      requirements.urgency = .high →
      shouldHumanAgentContact requirements found =
        { shouldContact := true, priority := .high, timeframe := .withinTwoHours }) ∧
    (¬ ((assessLeadQuality requirements).quality = .HIGH ∧
        ∃ best, IsBestScore best found ∧ JSNum.fin (8 / 10) ≤ best) →
      requirements.urgency ≠ .high →
      ((assessLeadQuality requirements).quality = .MEDIUM ∧ found ≠ []) →
      shouldHumanAgentContact requirements found =
        { shouldContact := true, priority := .medium, timeframe := .withinOneDay }) ∧
    (¬ ((assessLeadQuality requirements).quality = .HIGH ∧
        ∃ best, IsBestScore best found ∧ JSNum.fin (8 / 10) ≤ best) →
      requirements.urgency ≠ .high →
      ¬ ((assessLeadQuality requirements).quality = .MEDIUM ∧ found ≠ []) →
      shouldHumanAgentContact requirements found =
        { shouldContact := false, priority := .low, timeframe := .whenMoreProperties }) := by
  cases found with
  | nil =>
    have hno : ¬ ((assessLeadQuality requirements).quality = .HIGH ∧ false = true) := by simp
    have hlen : ¬ ((assessLeadQuality requirements).quality = .MEDIUM ∧
        ([] : List Match).length > 0) := by simp
    simp only [shouldHumanAgentContact]
    refine ⟨?_, ?_, ?_, ?_⟩
    · rintro ⟨_, best, hbest, _⟩
      exact absurd hbest (no_best_of_nil best)
    · intro _ h2
      rw [if_neg hno, if_pos h2]
    · intro _ _ h3
      exact absurd rfl h3.2
    · intro _ h2 _
      rw [if_neg hno, if_neg h2, if_neg hlen]
  | cons first others =>
    have hgood := best_good_iff first others hsorted
    have hlen : (first :: others).length > 0 := by simp
    have hne : first :: others ≠ [] := by simp
    simp only [shouldHumanAgentContact, decide_eq_true_eq, hlen, hne, and_true,
      ne_eq, not_false_eq_true]
    rw [hgood]
    refine ⟨?_, ?_, ?_, ?_⟩
    · intro h1
      rw [if_pos h1]
    · intro h1 h2
      rw [if_neg h1, if_pos h2]
    · intro h1 h2 h3
      rw [if_neg h1, if_neg h2, if_pos h3]
    · intro h1 h2 h3
      rw [if_neg h1, if_neg h2, if_neg h3]

/-- Witness of C11: the sample requirement (no intent, low urgency: lead quality MEDIUM)
with one match scoring 0.9 falls under rule 3. -/
theorem shouldHumanAgentContact_spec_witness :
    shouldHumanAgentContact sampleRequirements
      [makeMatch sampleRequirements ("p1", sampleProperty "p1" "Maadi" 620000)] =
        { shouldContact := true, priority := .medium, timeframe := .withinOneDay } :=
  (shouldHumanAgentContact_spec sampleRequirements
      [makeMatch sampleRequirements ("p1", sampleProperty "p1" "Maadi" 620000)]
      (List.pairwise_singleton _ _)).2.2.1
    (fun h => by
      have hq : (assessLeadQuality sampleRequirements).quality = .MEDIUM := by decide
      rw [hq] at h
      exact absurd h.1 (by decide))
    (by decide)
    ⟨by decide, by simp⟩

/-! ## Budget extraction -/

/-- The value `parseFloat` gives to a numeral with whole part `whole` and fraction digits
`fraction`. -/
theorem parseFloat_eq (cs whole fraction : List Char)
    (hw : cs.takeWhile Char.isDigit = whole)
    (hf : (match cs.dropWhile Char.isDigit with
      | '.' :: ds => ds.takeWhile Char.isDigit
      | _ => []) = fraction)
    (hne : whole.isEmpty = false) :
    parseFloat cs =
      roundDouble
        ((parseDigits whole : ℚ) + (parseDigits fraction : ℚ) / 10 ^ fraction.length) := by
  simp only [parseFloat, hw, hf, hne, Bool.false_and, Bool.false_eq_true, if_false]

/-- The amount `extractBudget` answers when the first budget pattern matches with the
amount text `g1` and the unit text `g2`. -/
theorem extractBudget_first (message : String) (whole g1 g2 digits fraction : List Char)
    (h : regexMatch true (keywordBudgetPattern (Regex.lit "budget")) message.toList =
      some ⟨whole, [(2, g2), (1, g1)]⟩)
    (hw : (g1.filter (fun c => c != ',')).takeWhile Char.isDigit = digits)
    (hf : (match (g1.filter (fun c => c != ',')).dropWhile Char.isDigit with
      | '.' :: ds => ds.takeWhile Char.isDigit
      | _ => []) = fraction)
    (hne : digits.isEmpty = false) :
    (extractBudget message).map (fun b => b.amount) = some
      (convertToEGP
        (roundDouble
          ((parseDigits digits : ℚ) + (parseDigits fraction : ℚ) / 10 ^ fraction.length))
        (toLowerCase (String.mk g2))) := by
  have hg1 : RegExpMatch.group ⟨whole, [(2, g2), (1, g1)]⟩ 1 = g1 := rfl
  have hg2 : RegExpMatch.group ⟨whole, [(2, g2), (1, g1)]⟩ 2 = g2 := rfl
  simp only [extractBudget, leadExtractionRules, List.findSome?_cons, h, Option.map_some',
    hg1, hg2, parseFloat_eq _ digits fraction hw hf hne]

/-- The amount `extractBudget` answers when the budget pattern at a given place of the list
is the first to match, with the amount text `g1` and the unit text `g2`. -/
theorem extractBudget_at (message : String) (place : Nat)
    (pattern : Regex) (whole g1 g2 digits fraction : List Char)
    (hplace : leadExtractionRules.budget.drop place =
      pattern :: leadExtractionRules.budget.drop (place + 1))
    (hbefore : ∀ p ∈ leadExtractionRules.budget.take place,
      regexMatch true p message.toList = none)
    (h : regexMatch true pattern message.toList = some ⟨whole, [(2, g2), (1, g1)]⟩)
    (hw : (g1.filter (fun c => c != ',')).takeWhile Char.isDigit = digits)
    (hf : (match (g1.filter (fun c => c != ',')).dropWhile Char.isDigit with
      | '.' :: ds => ds.takeWhile Char.isDigit
      | _ => []) = fraction)
    (hne : digits.isEmpty = false) :
    (extractBudget message).map (fun b => b.amount) = some
      (convertToEGP
        (roundDouble
          ((parseDigits digits : ℚ) + (parseDigits fraction : ℚ) / 10 ^ fraction.length))
        (toLowerCase (String.mk g2))) := by
  have hg1 : RegExpMatch.group ⟨whole, [(2, g2), (1, g1)]⟩ 1 = g1 := rfl
  have hg2 : RegExpMatch.group ⟨whole, [(2, g2), (1, g1)]⟩ 2 = g2 := rfl
  have hsplit : leadExtractionRules.budget =
      leadExtractionRules.budget.take place ++
        pattern :: leadExtractionRules.budget.drop (place + 1) := by
    rw [← hplace, List.take_append_drop]
  have hnone : (leadExtractionRules.budget.take place).findSome? (fun pattern =>
      (regexMatch true pattern message.toList).map (fun m =>
        ({ amount := convertToEGP (parseFloat ((m.group 1).filter (fun c => c != ',')))
            (toLowerCase (String.mk (m.group 2))),
           currency := "EGP", raw := String.mk m.whole } : Budget))) = none := by
    rw [List.findSome?_eq_none_iff]
    intro p hp
    rw [hbefore p hp]
    rfl
  rw [extractBudget, hsplit, List.findSome?_append, hnone, Option.none_or,
    List.findSome?_cons, h]
  simp only [Option.map_some', hg1, hg2, parseFloat_eq _ digits fraction hw hf hne]

/-- The fraction of an amount is two digits or none: with one decimal, as in
"budget 3.5 million EGP", no budget pattern matches. -/
theorem extractBudget_one_decimal : extractBudget "budget 3.5 million EGP" = none := by
  decide

/-- C12, as stated, fails: none of the three messages carries one of the keywords that
every budget pattern requires next to the amount, so `extractBudget` answers `null` for
each of them. -/
theorem extractBudget_bare_amounts :
    extractBudget "3.5 million EGP" = none ∧
    extractBudget "850k" = none ∧
    extractBudget "1,250,000 EGP" = none := by
  decide

/-- C12, amended. Where the amount stands next to a budget keyword, extraction normalizes
to absolute EGP: "budget 3.50 million EGP" yields 3,500,000, "budget 850k" yields 850,000
and "budget 1,250,000 EGP" yields 1,250,000, the thousands separators being stripped before
parsing; so do "850k budget", "can afford 850k", "up to 2 million" and "max 500 thousand";
the unit 'million' multiplies by 1,000,000, 'k' or 'thousand' by 1,000, and any other unit
('egp', 'le', 'pound') by 1. -/
theorem extractBudget_normalizes :
    (extractBudget "budget 3.50 million EGP").map (fun b => b.amount)
      = some (.fin 3500000) ∧
    (extractBudget "budget 850k").map (fun b => b.amount) = some (.fin 850000) ∧
    (extractBudget "budget 1,250,000 EGP").map (fun b => b.amount) = some (.fin 1250000) ∧
    (extractBudget "850k budget").map (fun b => b.amount) = some (.fin 850000) ∧
    (extractBudget "can afford 850k").map (fun b => b.amount) = some (.fin 850000) ∧
    (extractBudget "up to 2 million").map (fun b => b.amount) = some (.fin 2000000) ∧
    (extractBudget "max 500 thousand").map (fun b => b.amount) = some (.fin 500000) ∧
    (∀ (amount : JSNum) (unit : String),
      unit ∈ ["egp", "le", "pound", "million", "k", "thousand"] →
      convertToEGP amount unit.toList = amount * .fin (unitFactor unit)) := by
  refine ⟨?_, ?_, ?_, ?_, ?_, ?_, ?_, ?_⟩
  · rw [extractBudget_first "budget 3.50 million EGP" "budget 3.50 million".toList
      "3.50".toList "million".toList "3".toList "50".toList (by decide) (by decide)
      (by decide) (by decide)]
    rw [convertToEGP, if_pos (by decide)]
    have h1 : parseDigits "3".toList = 3 := by decide
    have h2 : parseDigits "50".toList = 50 := by decide
    rw [h1, h2, show (((3 : ℕ) : ℚ) + ((50 : ℕ) : ℚ) /
      10 ^ "50".toList.length) = 7 / 2 by norm_num, double_three_and_a_half]
    norm_num
  · rw [extractBudget_first "budget 850k" "budget 850k".toList "850".toList "k".toList
      "850".toList [] (by decide) (by decide) (by decide) (by decide)]
    rw [convertToEGP, if_neg (by decide), if_pos (by decide)]
    have h1 : parseDigits "850".toList = 850 := by decide
    have h2 : parseDigits [] = 0 := by decide
    rw [h1, h2, show (((850 : ℕ) : ℚ) + ((0 : ℕ) : ℚ) / 10 ^ ([] : List Char).length) =
      850 by norm_num, double_850]
    norm_num
  · rw [extractBudget_first "budget 1,250,000 EGP" "budget 1,250,000 EGP".toList
      "1,250,000".toList "EGP".toList "1250000".toList [] (by decide) (by decide)
      (by decide) (by decide)]
    rw [convertToEGP, if_neg (by decide), if_neg (by decide)]
    have h1 : parseDigits "1250000".toList = 1250000 := by decide
    have h2 : parseDigits [] = 0 := by decide
    rw [h1, h2, show (((1250000 : ℕ) : ℚ) + ((0 : ℕ) : ℚ) / 10 ^ ([] : List Char).length) =
      1250000 by norm_num, double_1250000]
  · rw [extractBudget_at "850k budget" 1 _ "850k budget".toList "850".toList "k".toList
      "850".toList [] rfl (by decide) (by decide) (by decide) (by decide) (by decide)]
    rw [convertToEGP, if_neg (by decide), if_pos (by decide)]
    have h1 : parseDigits "850".toList = 850 := by decide
    have h2 : parseDigits [] = 0 := by decide
    rw [h1, h2, show (((850 : ℕ) : ℚ) + ((0 : ℕ) : ℚ) / 10 ^ ([] : List Char).length) =
      850 by norm_num, double_850]
    norm_num
  · rw [extractBudget_at "can afford 850k" 2 _ "can afford 850k".toList "850".toList
      "k".toList "850".toList [] rfl (by decide) (by decide) (by decide) (by decide)
      (by decide)]
    rw [convertToEGP, if_neg (by decide), if_pos (by decide)]
    have h1 : parseDigits "850".toList = 850 := by decide
    have h2 : parseDigits [] = 0 := by decide
    rw [h1, h2, show (((850 : ℕ) : ℚ) + ((0 : ℕ) : ℚ) / 10 ^ ([] : List Char).length) =
      850 by norm_num, double_850]
    norm_num
  · rw [extractBudget_at "up to 2 million" 3 _ "up to 2 million".toList "2".toList
      "million".toList "2".toList [] rfl (by decide) (by decide) (by decide) (by decide)
      (by decide)]
    rw [convertToEGP, if_pos (by decide)]
    have h1 : parseDigits "2".toList = 2 := by decide
    have h2 : parseDigits [] = 0 := by decide
    rw [h1, h2, show (((2 : ℕ) : ℚ) + ((0 : ℕ) : ℚ) / 10 ^ ([] : List Char).length) =
      2 by norm_num, double_two]
    norm_num
  · rw [extractBudget_at "max 500 thousand" 4 _ "max 500 thousand".toList "500".toList
      "thousand".toList "500".toList [] rfl (by decide) (by decide) (by decide) (by decide)
      (by decide)]
    rw [convertToEGP, if_neg (by decide), if_pos (by decide)]
    have h1 : parseDigits "500".toList = 500 := by decide
    have h2 : parseDigits [] = 0 := by decide
    rw [h1, h2, show (((500 : ℕ) : ℚ) + ((0 : ℕ) : ℚ) / 10 ^ ([] : List Char).length) =
      500 by norm_num, double_500]
    norm_num
  · intro amount unit hunit
    have hone : amount * JSNum.fin 1 = amount := by
      cases amount <;> first | rfl | simp
    simp only [List.mem_cons, List.mem_singleton, List.not_mem_nil, or_false] at hunit
    rcases hunit with rfl | rfl | rfl | rfl | rfl | rfl
    · rw [convertToEGP, if_neg (by decide), if_neg (by decide), unitFactor,
        if_neg (by decide), if_neg (by decide), hone]
    · rw [convertToEGP, if_neg (by decide), if_neg (by decide), unitFactor,
        if_neg (by decide), if_neg (by decide), hone]
    · rw [convertToEGP, if_neg (by decide), if_neg (by decide), unitFactor,
        if_neg (by decide), if_neg (by decide), hone]
    · rw [convertToEGP, if_pos (by decide), unitFactor, if_pos (by decide)]
    · rw [convertToEGP, if_neg (by decide), if_pos (by decide), unitFactor,
        if_neg (by decide), if_pos (by decide)]
    · rw [convertToEGP, if_neg (by decide), if_pos (by decide), unitFactor,
        if_neg (by decide), if_pos (by decide)]

/-! ## Intent classification -/

/-- The inner loop of `classifyIntent` over the keywords of one category answers that
category exactly when the text contains one of the keywords. -/
theorem keywordLoop_intent (text : List Char) (category : IntentCategory)
    (keywords : List String) :
    (keywords.findSome? (fun keyword =>
      if includes text keyword.toList then
        some ({ intent := category, confidence := .fin (8 / 10), keyword := keyword } : Intent)
      else none)).map (fun i => i.intent) =
    if keywords.any (fun keyword => includes text keyword.toList) then some category
    else none := by
  induction keywords with
  | nil => rfl
  | cons k rest ih =>
    rw [List.findSome?_cons, List.any_cons]
    by_cases h : includes text k.toList = true
    · simp only [h, if_true, Bool.true_or]
      rfl
    · have h2 : includes text k.toList = false := by simpa using h
      simp only [h2, Bool.false_eq_true, if_false, Bool.false_or]
      exact ih

/-- What the inner loop of `classifyIntent` answers is one of the keywords, and the text
contains it. -/
theorem keywordLoop_keyword (text : List Char) (category : IntentCategory)
    (keywords : List String) (i : Intent)
    (h : keywords.findSome? (fun keyword =>
      if includes text keyword.toList then
        some ({ intent := category, confidence := .fin (8 / 10), keyword := keyword } : Intent)
      else none) = some i) :
    i.intent = category ∧ i.keyword ∈ keywords ∧ includes text i.keyword.toList = true := by
  induction keywords with
  | nil => simp at h
  | cons k rest ih =>
    rw [List.findSome?_cons] at h
    by_cases hk : includes text k.toList = true
    · simp only [hk, if_true, Option.some.injEq] at h
      subst h
      exact ⟨rfl, List.mem_cons_self _ _, hk⟩
    · have h2 : includes text k.toList = false := by simpa using hk
      simp only [h2, Bool.false_eq_true, if_false] at h
      obtain ⟨h3, h4, h5⟩ := ih h
      exact ⟨h3, List.mem_cons_of_mem _ h4, h5⟩

/-- Mapping the answer of a first-success search is searching for the mapped answers. -/
theorem map_findSome {α β γ : Type} (l : List α) (g : α → Option β) (f : β → γ) :
    (l.findSome? g).map f = l.findSome? (fun a => (g a).map f) := by
  induction l with
  | nil => rfl
  | cons a rest ih =>
    rw [List.findSome?_cons, List.findSome?_cons]
    cases g a with
    | none => simpa using ih
    | some b => rfl

/-- The two loops of `classifyIntent` answer the category of the first table entry one of
whose keywords the text contains. -/
theorem categoryLoop_intent (text : List Char)
    (entries : List (IntentCategory × List String)) :
    (entries.findSome? (fun entry =>
      entry.2.findSome? (fun keyword =>
        if includes text keyword.toList then
          some ({ intent := entry.1, confidence := .fin (8 / 10), keyword := keyword } : Intent)
        else none))).map (fun i => i.intent) =
    (entries.find? (fun entry =>
      entry.2.any (fun keyword => includes text keyword.toList))).map Prod.fst := by
  induction entries with
  | nil => rfl
  | cons e rest ih =>
    have hloop := keywordLoop_intent text e.1 e.2
    rw [List.findSome?_cons, List.find?_cons]
    cases hany : e.2.any (fun keyword => includes text keyword.toList) with
    | true =>
      rw [hany, if_pos rfl] at hloop
      cases hfound : e.2.findSome? (fun keyword =>
          if includes text keyword.toList then
            some ({ intent := e.1, confidence := .fin (8 / 10), keyword := keyword } : Intent)
          else none) with
      | none => rw [hfound] at hloop; exact absurd hloop (by simp)
      | some i =>
        rw [hfound] at hloop
        simpa using hloop
    | false =>
      rw [hany, if_neg (by simp)] at hloop
      cases hfound : e.2.findSome? (fun keyword =>
          if includes text keyword.toList then
            some ({ intent := e.1, confidence := .fin (8 / 10), keyword := keyword } : Intent)
          else none) with
      | none => simpa using ih
      | some i => rw [hfound] at hloop; exact absurd hloop (by simp)

/-- What the two loops of `classifyIntent` answer is a keyword of the answered category's
table entry, and the text contains it. -/
theorem categoryLoop_keyword (text : List Char)
    (entries : List (IntentCategory × List String)) (i : Intent)
    (h : entries.findSome? (fun entry =>
      entry.2.findSome? (fun keyword =>
        if includes text keyword.toList then
          some ({ intent := entry.1, confidence := .fin (8 / 10), keyword := keyword } : Intent)
        else none)) = some i) :
    (∃ entry ∈ entries, entry.1 = i.intent ∧ i.keyword ∈ entry.2) ∧
      includes text i.keyword.toList = true := by
  induction entries with
  | nil => simp at h
  | cons e rest ih =>
    rw [List.findSome?_cons] at h
    cases hfound : e.2.findSome? (fun keyword =>
        if includes text keyword.toList then
          some ({ intent := e.1, confidence := .fin (8 / 10), keyword := keyword } : Intent)
        else none) with
    | none =>
      rw [hfound] at h
      obtain ⟨⟨entry, hmem, h1, h2⟩, h3⟩ := ih h
      exact ⟨⟨entry, List.mem_cons_of_mem _ hmem, h1, h2⟩, h3⟩
    | some j =>
      rw [hfound] at h
      cases h
      obtain ⟨ha, hb, hc⟩ := keywordLoop_keyword _ _ _ _ hfound
      exact ⟨⟨e, List.mem_cons_self _ _, ha.symm, hb⟩, hc⟩

/-- C13. `classifyIntent` returns the first category, in the order BUY, RENT, SELL, INVEST,
that has at least one keyword contained in the lower-cased message, and returns no intent
when no keyword of any category is contained; the keyword it reports is one of that
category and is contained in the lower-cased message. -/
theorem classifyIntent_spec (message : String) :
    (classifyIntent message).map (fun i => i.intent) =
      [IntentCategory.BUY, .RENT, .SELL, .INVEST].find? (categoryContained message) ∧
    (classifyIntent message = none ↔
      ∀ category : IntentCategory, categoryContained message category = false) ∧
    (∀ i : Intent, classifyIntent message = some i →
      i.keyword ∈ keywordsOf i.intent ∧
      includes (toLowerCase message) i.keyword.toList = true) := by
  have hfirst : (classifyIntent message).map (fun i => i.intent) =
      [IntentCategory.BUY, .RENT, .SELL, .INVEST].find? (categoryContained message) := by
    rw [classifyIntent, categoryLoop_intent]
    simp only [intentCategories, List.find?_cons, List.find?_nil, categoryContained,
      keywordsOf]
    generalize (["buy", "purchase", "invest", "own", "ownership"] : List String).any
      (fun keyword => includes (toLowerCase message) keyword.toList) = b1
    generalize (["rent", "lease", "rental", "monthly", "tenant"] : List String).any
      (fun keyword => includes (toLowerCase message) keyword.toList) = b2
    generalize (["sell", "selling", "market", "list", "offer"] : List String).any
      (fun keyword => includes (toLowerCase message) keyword.toList) = b3
    generalize (["investment", "roi", "return", "profit", "portfolio"] : List String).any
      (fun keyword => includes (toLowerCase message) keyword.toList) = b4
    cases b1 <;> cases b2 <;> cases b3 <;> cases b4 <;> rfl
  refine ⟨hfirst, ?_, ?_⟩
  · constructor
    · intro h
      rw [h] at hfirst
      have h2 := (List.find?_eq_none.mp hfirst.symm)
      intro category
      have hmem : category ∈ [IntentCategory.BUY, .RENT, .SELL, .INVEST] := by
        cases category <;> simp
      simpa using h2 category hmem
    · intro h
      have h2 : [IntentCategory.BUY, .RENT, .SELL, .INVEST].find?
          (categoryContained message) = none := by
        apply List.find?_eq_none.mpr
        intro c _
        simp [h c]
      rw [h2] at hfirst
      simpa using hfirst
  · intro i hi
    rw [classifyIntent] at hi
    obtain ⟨⟨entry, hmem, h1, h2⟩, h3⟩ := categoryLoop_keyword _ _ _ hi
    refine ⟨?_, h3⟩
    simp only [intentCategories, List.mem_cons, List.mem_singleton, List.not_mem_nil,
      or_false] at hmem
    rcases hmem with rfl | rfl | rfl | rfl <;> rw [← h1] <;> exact h2

/-! ## Sentiment -/

/-- A counting loop over a lexicon adds the number of its entries that pass the test. -/
theorem countLoop_eq (lexicon : List String) (test : String → Bool) (start : Nat) :
    lexicon.foldl (fun score word => if test word then score + 1 else score) start =
      start + (lexicon.filter test).length := by
  induction lexicon generalizing start with
  | nil => simp
  | cons w rest ih =>
    rw [List.foldl_cons, ih, List.filter_cons]
    cases test w with
    | true => simp only [if_true, List.length_cons]; omega
    | false => simp

/-- C14. `analyzeSentiment` returns 'positive' when the number of positive-lexicon entries
contained in the lower-cased message (each entry counted once) exceeds the number of
negative-lexicon entries contained, 'negative' when the negative count exceeds the positive
count, and 'neutral' when the counts are equal; the message "not interested" contains one
entry of each lexicon and is classified neutral. -/
theorem analyzeSentiment_spec :
    (∀ message : String,
      (containedCount negativeWords message < containedCount positiveWords message →
        analyzeSentiment message = .positive) ∧
      (containedCount positiveWords message < containedCount negativeWords message →
        analyzeSentiment message = .negative) ∧
      (containedCount positiveWords message = containedCount negativeWords message →
        analyzeSentiment message = .neutral)) ∧
    containedCount positiveWords "not interested" = 1 ∧
    containedCount negativeWords "not interested" = 1 ∧
    analyzeSentiment "not interested" = .neutral := by
  refine ⟨?_, by decide, by decide, by decide⟩
  intro message
  have hpos : positiveWords.foldl (fun score word =>
      if includes (toLowerCase message) word.toList then score + 1 else score) 0 =
      containedCount positiveWords message := by
    rw [countLoop_eq, containedCount, Nat.zero_add]
  have hneg : negativeWords.foldl (fun score word =>
      if includes (toLowerCase message) word.toList then score + 1 else score) 0 =
      containedCount negativeWords message := by
    rw [countLoop_eq, containedCount, Nat.zero_add]
  simp only [analyzeSentiment, hpos, hneg, gt_iff_lt]
  refine ⟨?_, ?_, ?_⟩
  · intro h
    rw [if_pos h]
  · intro h
    rw [if_neg (by omega), if_pos h]
  · intro h
    rw [if_neg (by omega), if_neg (by omega)]

/-! ## Extraction as a whole -/

/-- Each field that `extractCustomerRequirements` fills holds the answer of its helper;
`contact`, `bedrooms` and `bathrooms` keep their initial `null`. -/
theorem extract_fields (e : Extraction) (now : Nat) :
    (extractCustomerRequirements e now).budget = e.budgetMatch ∧
    (extractCustomerRequirements e now).location = e.locationMatch ∧
    (extractCustomerRequirements e now).propertyType = e.typeMatch ∧
    (extractCustomerRequirements e now).size = e.sizeMatch ∧
    (extractCustomerRequirements e now).intent = e.intentMatch ∧
    (extractCustomerRequirements e now).sentiment = e.sentiment ∧
    (extractCustomerRequirements e now).urgency = e.urgency ∧
    (extractCustomerRequirements e now).contact = none ∧
    (extractCustomerRequirements e now).bedrooms = none ∧
    (extractCustomerRequirements e now).bathrooms = none := by
  obtain ⟨budgetMatch, locationMatch, typeMatch, sizeMatch, intentMatch, sentiment,
    urgency⟩ := e
  cases budgetMatch <;> cases locationMatch <;> cases typeMatch <;> cases sizeMatch <;>
    cases intentMatch <;> exact ⟨rfl, rfl, rfl, rfl, rfl, rfl, rfl, rfl, rfl, rfl⟩

/-- Two requirements extracted from the same answers of the helpers differ in nothing but
the clock reading they record. -/
theorem extract_clock_only (e : Extraction) (now1 now2 : Nat) :
    { extractCustomerRequirements e now1 with extractedAt := 0 } =
      { extractCustomerRequirements e now2 with extractedAt := 0 } := by
  obtain ⟨budgetMatch, locationMatch, typeMatch, sizeMatch, intentMatch, sentiment,
    urgency⟩ := e
  cases budgetMatch <;> cases locationMatch <;> cases typeMatch <;> cases sizeMatch <;>
    cases intentMatch <;> rfl

/-- The confidence of an extracted requirement is the sum of the weights of the fields it
carries, whatever the helpers answered. -/
theorem confidence_eq_weights (e : Extraction) (now : Nat) :
    (extractCustomerRequirements e now).confidence =
      .fin (extractedWeights (extractCustomerRequirements e now)) := by
  obtain ⟨budgetMatch, locationMatch, typeMatch, sizeMatch, intentMatch, sentiment,
    urgency⟩ := e
  cases budgetMatch <;> cases locationMatch <;> cases typeMatch <;> cases sizeMatch <;>
    cases intentMatch <;>
    simp [extractCustomerRequirements, extractedWeights]

/-- The sum of the weights of the fields a requirement carries lies between 0 and 1. -/
theorem extractedWeights_bounds (requirements : Requirements) :
    0 ≤ extractedWeights requirements ∧ extractedWeights requirements ≤ 1 := by
  unfold extractedWeights
  constructor <;> split_ifs <;> norm_num

/-- The confidence of an extracted requirement is the sum of the weights of the helpers
that answered. -/
theorem confidence_eq_answered (e : Extraction) (now : Nat) :
    (extractCustomerRequirements e now).confidence = .fin (answeredWeights e).sum := by
  obtain ⟨budgetMatch, locationMatch, typeMatch, sizeMatch, intentMatch, sentiment,
    urgency⟩ := e
  cases budgetMatch <;> cases locationMatch <;> cases typeMatch <;> cases sizeMatch <;>
    cases intentMatch <;>
    simp [extractCustomerRequirements, answeredWeights] <;> norm_num

/-- The sum of the weights of the helpers that answered lies between 0 and 1. -/
theorem answeredWeights_bounds (e : Extraction) :
    0 ≤ (answeredWeights e).sum ∧ (answeredWeights e).sum ≤ 1 := by
  obtain ⟨budgetMatch, locationMatch, typeMatch, sizeMatch, intentMatch, sentiment,
    urgency⟩ := e
  cases budgetMatch <;> cases locationMatch <;> cases typeMatch <;> cases sizeMatch <;>
    cases intentMatch <;>
    simp [answeredWeights] <;> norm_num

/-- In exact arithmetic the extraction is the extraction of the exact model. -/
theorem exact_extractCustomerRequirements (e : Extraction) (now : Nat) :
    exactArithmetic.extractCustomerRequirements e now = extractCustomerRequirements e now := by
  obtain ⟨budgetMatch, locationMatch, typeMatch, sizeMatch, intentMatch, sentiment,
    urgency⟩ := e
  cases budgetMatch <;> cases locationMatch <;> cases typeMatch <;> cases sizeMatch <;>
    cases intentMatch <;> rfl

/-- In double arithmetic the confidence is the double sum, from the left, of the weights of
the helpers that answered. -/
theorem double_confidence_eq (e : Extraction) (now : Nat) :
    (doubleArithmetic.extractCustomerRequirements e now).confidence =
      sumIn doubleArithmetic ((answeredWeights e).map doubleArithmetic.lit) := by
  obtain ⟨budgetMatch, locationMatch, typeMatch, sizeMatch, intentMatch, sentiment,
    urgency⟩ := e
  cases budgetMatch <;> cases locationMatch <;> cases typeMatch <;> cases sizeMatch <;>
    cases intentMatch <;> rfl

/-- In double arithmetic the sum of the weights of the helpers that answered lies between 0
and 1: the five weights together make exactly 1. -/
theorem double_answeredWeights_bounds (e : Extraction) :
    (sumIn doubleArithmetic ((answeredWeights e).map doubleArithmetic.lit)).InUnit := by
  have hlit : ∀ q, doubleArithmetic.lit q = roundDouble q := fun _ => rfl
  obtain ⟨budgetMatch, locationMatch, typeMatch, sizeMatch, intentMatch, sentiment,
    urgency⟩ := e
  cases budgetMatch <;> cases locationMatch <;> cases typeMatch <;> cases sizeMatch <;>
    cases intentMatch <;>
    simp only [answeredWeights, Option.isSome, if_true, if_false, Bool.false_eq_true,
      List.nil_append, List.append_nil, List.cons_append, List.map_cons, List.map_nil, sumIn,
      List.foldl_cons, List.foldl_nil, hlit, roundDouble_zero, double_literal_02,
      double_literal_025, double_literal_015,
      double_zero_add _ double_of_0_2, double_zero_add _ double_of_0_25,
      double_zero_add _ double_of_0_15,
      double_add_0_15_0_2, double_add_0_25_0_15, double_add_0_25_0_2, double_add_0_2_0_15,
      double_add_0_2_0_2, double_add_0_2_0_25, double_add_0_35_0_2, double_add_0_35_0_25,
      double_add_0_45_0_15, double_add_0_45_0_2, double_add_0_4_0_15, double_add_0_4_0_2,
      double_add_0_55_0_2, double_add_0_65_0_15, double_add_0_65_0_2, double_add_0_6_0_2,
      double_add_0_8_0_2] <;>
    exact ⟨_, rfl, by norm_num, by norm_num⟩

/-- C15. For every message, the requirement returned by `extractCustomerRequirements` holds
in each of the fields budget, location, propertyType, size and intent the answer of the
helper for that field on the message, and its confidence is the sum of the fixed weights
of the helpers that answered (budget 0.2, location 0.25, propertyType 0.2, size 0.15,
intent 0.2), which lies in `[0,1]`. This holds with the sum taken exactly and with the sum
taken in the double arithmetic of the code, where the five weights make exactly 1. For the
message "budget 2 million" only the budget helper answers and the confidence is 0.2. -/
theorem confidence_spec (message : String) (now : Nat) :
    (extractCustomerRequirements (runHelpers message) now).budget = extractBudget message ∧
    (extractCustomerRequirements (runHelpers message) now).location =
      extractLocation message ∧
    (extractCustomerRequirements (runHelpers message) now).propertyType =
      extractPropertyType message ∧
    (extractCustomerRequirements (runHelpers message) now).size = extractSize message ∧
    (extractCustomerRequirements (runHelpers message) now).intent = classifyIntent message ∧
    (extractCustomerRequirements (runHelpers message) now).confidence =
      .fin ((if (extractBudget message).isSome then 2 / 10 else 0) +
        (if (extractLocation message).isSome then 25 / 100 else 0) +
        (if (extractPropertyType message).isSome then 2 / 10 else 0) +
        (if (extractSize message).isSome then 15 / 100 else 0) +
        (if (classifyIntent message).isSome then 2 / 10 else 0)) ∧
    (extractCustomerRequirements (runHelpers message) now).confidence.InUnit ∧
    (doubleArithmetic.extractCustomerRequirements (runHelpers message) now).confidence =
      sumIn doubleArithmetic
        ((answeredWeights (runHelpers message)).map doubleArithmetic.lit) ∧
    (doubleArithmetic.extractCustomerRequirements (runHelpers message) now).confidence.InUnit ∧
    (extractCustomerRequirements (runHelpers "budget 2 million") now).confidence =
      .fin (2 / 10) := by
  obtain ⟨h1, h2, h3, h4, h5, _⟩ := extract_fields (runHelpers message) now
  refine ⟨h1, h2, h3, h4, h5, ?_, ?_, double_confidence_eq _ _, ?_, ?_⟩
  · rw [confidence_eq_weights, extractedWeights, h1, h2, h3, h4, h5]
    rfl
  · rw [confidence_eq_answered]
    exact ⟨_, rfl, answeredWeights_bounds _⟩
  · rw [double_confidence_eq]
    exact double_answeredWeights_bounds _
  · have he : answeredWeights (runHelpers "budget 2 million") = [2 / 10] := by
      have hb : (extractBudget "budget 2 million").isSome = true := by decide
      have hl : extractLocation "budget 2 million" = none := by decide
      have ht : extractPropertyType "budget 2 million" = none := by decide
      have hs : extractSize "budget 2 million" = none := by decide
      have hi : classifyIntent "budget 2 million" = none := by decide
      simp only [answeredWeights, runHelpers, hb, hl, ht, hs, hi]
      rfl
    rw [confidence_eq_answered, he]
    norm_num

/-- C16. For the empty message, `extractCustomerRequirements` returns a requirement in which
intent, budget, location, propertyType, size, bedrooms, bathrooms and contact are all
unset, the confidence is 0, the sentiment neutral and the urgency low. -/
theorem extract_empty_message (now : Nat) :
    (extractCustomerRequirements (runHelpers "") now).intent = none ∧
    (extractCustomerRequirements (runHelpers "") now).budget = none ∧
    (extractCustomerRequirements (runHelpers "") now).location = none ∧
    (extractCustomerRequirements (runHelpers "") now).propertyType = none ∧
    (extractCustomerRequirements (runHelpers "") now).size = none ∧
    (extractCustomerRequirements (runHelpers "") now).bedrooms = none ∧
    (extractCustomerRequirements (runHelpers "") now).bathrooms = none ∧
    (extractCustomerRequirements (runHelpers "") now).contact = none ∧
    (extractCustomerRequirements (runHelpers "") now).confidence = .fin 0 ∧
    (extractCustomerRequirements (runHelpers "") now).sentiment = .neutral ∧
    (extractCustomerRequirements (runHelpers "") now).urgency = .low := by
  have h1 : extractBudget "" = none := by decide
  have h2 : extractLocation "" = none := by decide
  have h3 : extractPropertyType "" = none := by decide
  have h4 : extractSize "" = none := by decide
  have h5 : classifyIntent "" = none := by decide
  have h6 : analyzeSentiment "" = .neutral := by decide
  have h7 : assessUrgency "" = .low := by decide
  have he : runHelpers "" = ⟨none, none, none, none, none, .neutral, .low⟩ := by
    simp only [runHelpers, h1, h2, h3, h4, h5, h6, h7]
  rw [he]
  exact ⟨rfl, rfl, rfl, rfl, rfl, rfl, rfl, rfl, rfl, rfl, rfl⟩

/-- The field `extractedAt` of an extracted requirement is the clock reading of the run. -/
theorem extractedAt_eq (e : Extraction) (now : Nat) :
    (extractCustomerRequirements e now).extractedAt = now := by
  obtain ⟨budgetMatch, locationMatch, typeMatch, sizeMatch, intentMatch, sentiment,
    urgency⟩ := e
  cases budgetMatch <;> cases locationMatch <;> cases typeMatch <;> cases sizeMatch <;>
    cases intentMatch <;> rfl

/-- C17, as stated, fails: two runs on the message "hello" at different clock readings
return requirements that differ, in the field `extractedAt`. -/
theorem extract_runs_differ :
    extractCustomerRequirements (runHelpers "hello") 1 ≠
      extractCustomerRequirements (runHelpers "hello") 2 := by
  intro h
  have h2 := congrArg Requirements.extractedAt h
  rw [extractedAt_eq, extractedAt_eq] at h2
  exact absurd h2 (by decide)

/-- C17, amended. A run of `extractCustomerRequirements` reads the message text and the
clock, and nothing else. Take any run, on a processor in any state, for any sender and at
any clock reading: it leaves the processor as it was, and the requirement it returns holds
in budget, location, propertyType, size, intent, sentiment and urgency the answer of the
helper for that field on the text, `null` in contact, bedrooms and bathrooms, as
confidence the sum of the weights of the helpers that answered, and in `extractedAt` the
clock reading. Any other run on the same text, on a processor in another state, for
another sender and at another clock reading, returns a requirement equal to it in every
field but `extractedAt`, which holds its own clock reading. The text matters: runs on
"budget 2 million" and on "hello" differ in the budget. -/
theorem extract_deterministic (s1 s2 : AIProcessor) (message sender1 sender2 : String)
    (now1 now2 : Nat) :
    (extractCustomerRequirementsRun s1 message sender1 now1).1 = s1 ∧
    (extractCustomerRequirementsRun s1 message sender1 now1).2.budget =
      extractBudget message ∧
    (extractCustomerRequirementsRun s1 message sender1 now1).2.location =
      extractLocation message ∧
    (extractCustomerRequirementsRun s1 message sender1 now1).2.propertyType =
      extractPropertyType message ∧
    (extractCustomerRequirementsRun s1 message sender1 now1).2.size = extractSize message ∧
    (extractCustomerRequirementsRun s1 message sender1 now1).2.intent =
      classifyIntent message ∧
    (extractCustomerRequirementsRun s1 message sender1 now1).2.sentiment =
      analyzeSentiment message ∧
    (extractCustomerRequirementsRun s1 message sender1 now1).2.urgency =
      assessUrgency message ∧
    (extractCustomerRequirementsRun s1 message sender1 now1).2.contact = none ∧
    (extractCustomerRequirementsRun s1 message sender1 now1).2.bedrooms = none ∧
    (extractCustomerRequirementsRun s1 message sender1 now1).2.bathrooms = none ∧
    (extractCustomerRequirementsRun s1 message sender1 now1).2.confidence =
      .fin (answeredWeights (runHelpers message)).sum ∧
    (extractCustomerRequirementsRun s1 message sender1 now1).2.extractedAt = now1 ∧
    (extractCustomerRequirementsRun s2 message sender2 now2).1 = s2 ∧
    { (extractCustomerRequirementsRun s2 message sender2 now2).2 with extractedAt := 0 } =
      { (extractCustomerRequirementsRun s1 message sender1 now1).2 with extractedAt := 0 } ∧
    (extractCustomerRequirementsRun s2 message sender2 now2).2.extractedAt = now2 ∧
    (extractCustomerRequirementsRun s1 "budget 2 million" sender1 now1).2.budget ≠
      (extractCustomerRequirementsRun s1 "hello" sender1 now1).2.budget := by
  obtain ⟨h1, h2, h3, h4, h5, h6, h7, h8, h9, h10⟩ := extract_fields (runHelpers message) now1
  refine ⟨rfl, h1, h2, h3, h4, h5, h6, h7, h8, h9, h10, confidence_eq_answered _ _,
    extractedAt_eq _ _, rfl, extract_clock_only _ _ _, extractedAt_eq _ _, ?_⟩
  show (extractCustomerRequirements (runHelpers "budget 2 million") now1).budget ≠
    (extractCustomerRequirements (runHelpers "hello") now1).budget
  rw [(extract_fields _ _).1, (extract_fields _ _).1]
  show extractBudget "budget 2 million" ≠ extractBudget "hello"
  have hb : (extractBudget "budget 2 million").isSome = true := by decide
  have hh : extractBudget "hello" = none := by decide
  rw [hh]
  intro h
  rw [h] at hb
  exact absurd hb (by decide)

/-- The helpers on the message "hello" answer as `helloExtraction` records. -/
theorem runHelpers_hello :
    extractBudget "hello" = none ∧ extractLocation "hello" = none ∧
    extractPropertyType "hello" = none ∧ extractSize "hello" = none ∧
    classifyIntent "hello" = none ∧ analyzeSentiment "hello" = .neutral ∧
    assessUrgency "hello" = .low := by
  decide

/-! ## Maps, again -/

/-- Reading a key other than the one just written gives what was there before. -/
theorem mapGet_mapSet_ne {β : Type} (m : List (String × β)) (k k' : String) (v : β)
    (h : k ≠ k') : mapGet (mapSet m k v) k' = mapGet m k' := by
  induction m with
  | nil =>
    simp only [mapSet, mapGet]
    rw [List.find?_cons_of_neg]
    simpa using h
  | cons e rest ih =>
    rw [mapSet]
    split_ifs with he
    · simp only [mapGet]
      rw [List.find?_cons_of_neg _ (by simpa using h), List.find?_cons_of_neg]
      rw [he]
      simpa using h
    · simp only [mapGet] at ih ⊢
      by_cases hk : e.1 = k'
      · rw [List.find?_cons_of_pos _ (by simpa using hk),
          List.find?_cons_of_pos _ (by simpa using hk)]
      · rw [List.find?_cons_of_neg _ (by simpa using hk),
          List.find?_cons_of_neg _ (by simpa using hk)]
        exact ih

/-- A map after a write holds the written entry. -/
theorem mem_mapSet_self {β : Type} (m : List (String × β)) (k : String) (v : β) :
    (k, v) ∈ mapSet m k v := by
  induction m with
  | nil => simp [mapSet]
  | cons a rest ih =>
    rw [mapSet]
    split_ifs
    · exact List.mem_cons_self _ _
    · exact List.mem_cons_of_mem _ ih

/-- A map after a write is not empty. -/
theorem mapSet_ne_nil {β : Type} (m : List (String × β)) (k : String) (v : β) :
    mapSet m k v ≠ [] :=
  List.ne_nil_of_mem (mem_mapSet_self m k v)

/-- The keys of a map after a write: the old keys, and the written key last when it is
new. -/
theorem keys_mapSet {β : Type} (m : List (String × β)) (k : String) (v : β) :
    (mapSet m k v).map Prod.fst =
      if k ∈ m.map Prod.fst then m.map Prod.fst else m.map Prod.fst ++ [k] := by
  induction m with
  | nil => simp [mapSet]
  | cons a rest ih =>
    rw [mapSet]
    split_ifs with h1 h2 h3
    · simp [h1]
    · exact absurd (by simp [h1]) h2
    · simp only [List.map_cons, ih]
      have : k ∈ rest.map Prod.fst := by
        rcases List.mem_cons.mp (by simpa using h3 : k ∈ a.1 :: rest.map Prod.fst) with h | h
        · exact absurd h.symm h1
        · exact h
      rw [if_pos this]
    · simp only [List.map_cons, ih]
      have : k ∉ rest.map Prod.fst := by
        intro hk
        apply h3
        simp only [List.map_cons, List.mem_cons]
        exact Or.inr hk
      rw [if_neg this]
      rfl

/-- Distinct keys stay distinct after a write. -/
theorem nodup_keys_mapSet {β : Type} (m : List (String × β)) (k : String) (v : β)
    (h : (m.map Prod.fst).Nodup) : ((mapSet m k v).map Prod.fst).Nodup := by
  rw [keys_mapSet]
  split_ifs with hk
  · exact h
  · exact List.Nodup.append h (List.nodup_singleton k) (by simpa using hk)

/-- Writing under a new key appends the entry. -/
theorem mapSet_of_not_mem {β : Type} (m : List (String × β)) (k : String) (v : β)
    (h : k ∉ m.map Prod.fst) : mapSet m k v = m ++ [(k, v)] := by
  induction m with
  | nil => rfl
  | cons a rest ih =>
    have h1 : ¬ a.1 = k := by
      intro ha
      apply h
      simp [ha]
    have h2 : k ∉ rest.map Prod.fst := by
      intro hk
      apply h
      simp only [List.map_cons, List.mem_cons]
      exact Or.inr hk
    rw [mapSet, if_neg h1, ih h2]
    rfl

/-- In a map with distinct keys two entries under one key are the same entry. -/
theorem eq_of_key_eq {β : Type} (m : List (String × β)) (h : (m.map Prod.fst).Nodup)
    (e e' : String × β) (he : e ∈ m) (he' : e' ∈ m) (hk : e.1 = e'.1) : e = e' := by
  induction m with
  | nil => exact absurd he (List.not_mem_nil e)
  | cons a rest ih =>
    rw [List.map_cons, List.nodup_cons] at h
    rcases List.mem_cons.mp he with h1 | h1
    · rcases List.mem_cons.mp he' with h2 | h2
      · rw [h1, h2]
      · have h3 : e'.1 ∈ rest.map Prod.fst := List.mem_map_of_mem Prod.fst h2
        rw [← hk, h1] at h3
        exact absurd h3 h.1
    · rcases List.mem_cons.mp he' with h2 | h2
      · have h3 : e.1 ∈ rest.map Prod.fst := List.mem_map_of_mem Prod.fst h1
        rw [hk, h2] at h3
        exact absurd h3 h.1
      · exact ih h.2 h1 h2

/-- A write under a key leaves the entries under the other keys as they are. -/
theorem filter_ne_mapSet {β : Type} (m : List (String × β)) (k : String) (v : β)
    (q : String × β → Bool) :
    (mapSet m k v).filter (fun e => decide (e.1 ≠ k) && q e) =
      m.filter (fun e => decide (e.1 ≠ k) && q e) := by
  induction m with
  | nil => simp [mapSet]
  | cons a rest ih =>
    rw [mapSet]
    split_ifs with ha
    · simp [ha]
    · rw [List.filter_cons, List.filter_cons, ih]

/-! ## Re-matching -/

/-- On a non-empty inventory `findMatchingProperties` loads nothing and answers the ranked
slice over the inventory. -/
theorem findMatchingProperties_of_ne_nil (s : AIProcessor) (requirements : Requirements)
    (fetched : Option (List Property)) (h : s.propertyInventory ≠ []) :
    findMatchingProperties s requirements fetched =
      (s, matchesOver s.propertyInventory requirements) := by
  have hlen : ¬ (s.propertyInventory.length = 0) := fun h0 => h (List.length_eq_zero.mp h0)
  simp only [findMatchingProperties, hlen, if_false, matchesOver]

/-- The loop of `triggerReMatching` over some customers, on a non-empty inventory: the
inventory and the customers stay, and the cached results receive one write per customer. -/
theorem rematchLoop_eq (customers : List (String × StoredRequirements)) (s : AIProcessor)
    (fetched : Option (List Property)) (h : s.propertyInventory ≠ []) :
    customers.foldl (fun st entry =>
        let r := findMatchingProperties st entry.2.toRequirements fetched
        let st := r.1
        { st with matchingResults := mapSet st.matchingResults entry.1 r.2 }) s =
      { s with
        matchingResults :=
          customers.foldl (fun cache entry =>
            mapSet cache entry.1 (matchesOver s.propertyInventory entry.2.toRequirements))
            s.matchingResults } := by
  induction customers generalizing s with
  | nil => rfl
  | cons e rest ih =>
    rw [List.foldl_cons, List.foldl_cons]
    simp only [findMatchingProperties_of_ne_nil s _ fetched h]
    exact ih _ h

/-- Writes under other keys leave the value under a key as it is. -/
theorem mapGet_foldl_of_not_mem {β γ : Type} (l : List (String × γ)) (f : γ → β)
    (cache : List (String × β)) (k : String) (h : k ∉ l.map Prod.fst) :
    mapGet (l.foldl (fun c entry => mapSet c entry.1 (f entry.2)) cache) k = mapGet cache k := by
  induction l generalizing cache with
  | nil => rfl
  | cons e rest ih =>
    have h1 : e.1 ≠ k := by
      intro he
      apply h
      simp [he]
    have h2 : k ∉ rest.map Prod.fst := by
      intro hk
      apply h
      simp only [List.map_cons, List.mem_cons]
      exact Or.inr hk
    rw [List.foldl_cons, ih _ h2, mapGet_mapSet_ne _ _ _ _ h1]

/-- After one write per entry of a list with distinct keys, the value under the key of an
entry is the value written for that entry. -/
theorem mapGet_foldl_of_mem {β γ : Type} (l : List (String × γ)) (f : γ → β)
    (cache : List (String × β)) (k : String) (x : γ) (hnd : (l.map Prod.fst).Nodup)
    (hmem : (k, x) ∈ l) :
    mapGet (l.foldl (fun c entry => mapSet c entry.1 (f entry.2)) cache) k = some (f x) := by
  induction l generalizing cache with
  | nil => exact absurd hmem (List.not_mem_nil _)
  | cons e rest ih =>
    rw [List.map_cons, List.nodup_cons] at hnd
    rw [List.foldl_cons]
    rcases List.mem_cons.mp hmem with h1 | h1
    · rw [← h1] at hnd ⊢
      rw [mapGet_foldl_of_not_mem _ _ _ _ hnd.1, mapGet_mapSet_self]
    · exact ih _ hnd.2 h1

/-- After `triggerReMatching` on a non-empty inventory the inventory is as before and the
cached list of each customer on file is the ranked slice for that customer. -/
theorem triggerReMatching_spec (s : AIProcessor) (fetched : Option (List Property))
    (h : s.propertyInventory ≠ []) :
    (triggerReMatching s fetched).propertyInventory = s.propertyInventory ∧
    (triggerReMatching s fetched).customerRequirements = s.customerRequirements ∧
    ((s.customerRequirements.map Prod.fst).Nodup →
      ∀ customerId stored, (customerId, stored) ∈ s.customerRequirements →
        mapGet (triggerReMatching s fetched).matchingResults customerId =
          some (matchesOver s.propertyInventory stored.toRequirements)) := by
  rw [triggerReMatching, rematchLoop_eq _ _ _ h]
  refine ⟨rfl, rfl, ?_⟩
  intro hnd customerId stored hmem
  exact mapGet_foldl_of_mem s.customerRequirements
    (fun stored => matchesOver s.propertyInventory stored.toRequirements) _ _ _ hnd hmem

/-- An inventory entry that reaches the threshold is in the ranked slice when fewer than ten
entries under other keys score at least as high. -/
theorem mem_matchesOver_of_few (inventory : List (String × Property))
    (requirements : Requirements) (e : String × Property)
    (hnd : (inventory.map Prod.fst).Nodup) (he : e ∈ inventory)
    (hthr : matchingThreshold ≤ calculateMatchingScore requirements e.2)
    (hfew : (inventory.filter (fun x => decide (x.1 ≠ e.1) &&
      decide (calculateMatchingScore requirements e.2 ≤
        calculateMatchingScore requirements x.2))).length < 10) :
    makeMatch requirements e ∈ matchesOver inventory requirements := by
  unfold matchesOver
  generalize hfound : (inventory.filter (fun entry =>
    decide (matchingThreshold ≤ calculateMatchingScore requirements entry.2))).map
      (makeMatch requirements) = found
  have hfoundmem : ∀ t ∈ found, ∃ x ∈ inventory, t = makeMatch requirements x ∧
      matchingThreshold ≤ t.matchScore := by
    intro t ht
    rw [← hfound] at ht
    obtain ⟨x, hx, rfl⟩ := List.mem_map.mp ht
    obtain ⟨hinv, hx2⟩ := List.mem_filter.mp hx
    exact ⟨x, hinv, rfl, of_decide_eq_true hx2⟩
  have hm : makeMatch requirements e ∈ found := by
    rw [← hfound]
    exact List.mem_map_of_mem _ (List.mem_filter.mpr ⟨he, decide_eq_true hthr⟩)
  have hperm : (sortMatches found).Perm found := List.perm_insertionSort _ found
  have hranked : (sortMatches found).Pairwise (fun a b => b.matchScore ≤ a.matchScore) :=
    sortMatches_ranked found (fun t ht => (hfoundmem t ht).choose_spec.2.2)
  by_contra hnot
  have hsplit : (sortMatches found).take 10 ++ (sortMatches found).drop 10 =
      sortMatches found := List.take_append_drop 10 _
  have hmsorted : makeMatch requirements e ∈ sortMatches found := hperm.mem_iff.mpr hm
  have hdrop : makeMatch requirements e ∈ (sortMatches found).drop 10 := by
    rw [← hsplit] at hmsorted
    rcases List.mem_append.mp hmsorted with h | h
    · exact absurd h hnot
    · exact h
  have hlen : ((sortMatches found).take 10).length = 10 := by
    rw [List.length_take]
    have : 0 < ((sortMatches found).drop 10).length := List.length_pos_of_mem hdrop
    rw [List.length_drop] at this
    omega
  have hpair := hranked
  rw [← hsplit, List.pairwise_append] at hpair
  have hall : ∀ t ∈ (sortMatches found).take 10,
      (decide (t.propertyId ≠ e.1) &&
        decide ((makeMatch requirements e).matchScore ≤ t.matchScore)) = true := by
    intro t ht
    have hscore := hpair.2.2 t ht _ hdrop
    obtain ⟨x, hx, rfl, _⟩ := hfoundmem t (hperm.mem_iff.mp (List.mem_of_mem_take ht))
    have hkey : x.1 ≠ e.1 := by
      intro hk
      have := eq_of_key_eq inventory hnd x e hx he hk
      rw [this] at ht
      exact hnot ht
    simp only [Bool.and_eq_true, decide_eq_true_eq]
    exact ⟨hkey, hscore⟩
  have hcount : ((sortMatches found).take 10).countP (fun t =>
      decide (t.propertyId ≠ e.1) &&
        decide ((makeMatch requirements e).matchScore ≤ t.matchScore)) = 10 := by
    rw [List.countP_eq_length.mpr hall, hlen]
  have h1 := (List.take_sublist 10 (sortMatches found)).countP_le (fun t =>
      decide (t.propertyId ≠ e.1) &&
        decide ((makeMatch requirements e).matchScore ≤ t.matchScore))
  rw [hcount, hperm.countP_eq, ← hfound, List.countP_map] at h1
  have h2 := (List.filter_sublist (inventory) (p := fun entry =>
      decide (matchingThreshold ≤ calculateMatchingScore requirements entry.2))).countP_le
    ((fun t => decide (t.propertyId ≠ e.1) &&
        decide ((makeMatch requirements e).matchScore ≤ t.matchScore)) ∘
          makeMatch requirements)
  have h4 := List.countP_eq_length_filter ((fun t => decide (t.propertyId ≠ e.1) &&
        decide ((makeMatch requirements e).matchScore ≤ t.matchScore)) ∘
          makeMatch requirements) inventory
  have h3 : (List.filter ((fun t => decide (t.propertyId ≠ e.1) &&
        decide ((makeMatch requirements e).matchScore ≤ t.matchScore)) ∘
          makeMatch requirements) inventory).length < 10 := hfew
  omega

/-- When at least ten inventory entries reach the threshold and are not outscored by a
bound, every entry of the ranked slice exceeds the bound. -/
theorem matchesOver_above_bound (inventory : List (String × Property))
    (requirements : Requirements) (bound : JSNum) (hbound : matchingThreshold ≤ bound)
    (hcrowd : 10 ≤ (inventory.filter (fun x =>
      decide (matchingThreshold ≤ calculateMatchingScore requirements x.2) &&
        !decide (calculateMatchingScore requirements x.2 ≤ bound))).length) :
    ∀ t ∈ matchesOver inventory requirements, ¬ (t.matchScore ≤ bound) := by
  unfold matchesOver
  generalize hfound : (inventory.filter (fun entry =>
    decide (matchingThreshold ≤ calculateMatchingScore requirements entry.2))).map
      (makeMatch requirements) = found
  have hthr : ∀ t ∈ found, matchingThreshold ≤ t.matchScore := by
    intro t ht
    rw [← hfound] at ht
    obtain ⟨x, hx, rfl⟩ := List.mem_map.mp ht
    exact of_decide_eq_true (List.mem_filter.mp hx).2
  have hperm : (sortMatches found).Perm found := List.perm_insertionSort _ found
  have hranked : (sortMatches found).Pairwise (fun a b => b.matchScore ≤ a.matchScore) :=
    sortMatches_ranked found hthr
  have hsplit : (sortMatches found).take 10 ++ (sortMatches found).drop 10 =
      sortMatches found := List.take_append_drop 10 _
  have hcount : 10 ≤ (sortMatches found).countP (fun t => !decide (t.matchScore ≤ bound)) := by
    rw [hperm.countP_eq, ← hfound, List.countP_map, List.countP_filter,
      List.countP_eq_length_filter]
    have hpred : (fun a : String × Property =>
        ((fun t : Match => !decide (t.matchScore ≤ bound)) ∘ makeMatch requirements) a &&
          decide (matchingThreshold ≤ calculateMatchingScore requirements a.2)) =
        (fun x => decide (matchingThreshold ≤ calculateMatchingScore requirements x.2) &&
          !decide (calculateMatchingScore requirements x.2 ≤ bound)) := by
      funext a
      exact Bool.and_comm _ _
    rw [hpred]
    exact hcrowd
  intro t ht hle
  have hpair := hranked
  rw [← hsplit, List.pairwise_append] at hpair
  have hdrop : ((sortMatches found).drop 10).countP
      (fun t => !decide (t.matchScore ≤ bound)) = 0 := by
    rw [List.countP_eq_zero]
    intro d hd
    have h1 : d.matchScore ≤ t.matchScore := hpair.2.2 t ht d hd
    have hd2 := hthr d (hperm.mem_iff.mp (List.mem_of_mem_drop hd))
    have ht2 := hthr t (hperm.mem_iff.mp (List.mem_of_mem_take ht))
    have h2 : d.matchScore ≤ bound := le_trans_of_threshold _ _ _ hbound ht2 hd2 h1 hle
    simp [h2]
  have htake : ((sortMatches found).take 10).countP
      (fun t => !decide (t.matchScore ≤ bound)) < ((sortMatches found).take 10).length := by
    by_contra hge
    have heq := Nat.le_antisymm (List.countP_le_length _) (Nat.not_lt.mp hge)
    have hall := List.countP_eq_length.mp heq t ht
    simp [hle] at hall
  have hlen : ((sortMatches found).take 10).length ≤ 10 := by
    rw [List.length_take]
    omega
  rw [← hsplit, List.countP_append, hdrop] at hcount
  omega

/-- Every entry of the ranked slice is the match of an inventory entry and reaches the
threshold. -/
theorem mem_matchesOver (inventory : List (String × Property)) (requirements : Requirements)
    (t : Match) (h : t ∈ matchesOver inventory requirements) :
    ∃ x ∈ inventory, t = makeMatch requirements x ∧ matchingThreshold ≤ t.matchScore := by
  unfold matchesOver at h
  have h2 := (List.perm_insertionSort _ _).mem_iff.mp (List.mem_of_mem_take h)
  obtain ⟨x, hx, rfl⟩ := List.mem_map.mp h2
  obtain ⟨hinv, hthr⟩ := List.mem_filter.mp hx
  exact ⟨x, hinv, rfl, of_decide_eq_true hthr⟩

/-- After `addPropertyToInventory` the inventory holds the property under its id, and the
cached list of each customer on file is the ranked slice over that inventory. -/
theorem addPropertyToInventory_spec (s : AIProcessor) (property : Property)
    (fetched : Option (List Property)) :
    (addPropertyToInventory s property fetched).propertyInventory =
      mapSet s.propertyInventory property.id property ∧
    ((s.customerRequirements.map Prod.fst).Nodup →
      ∀ customerId stored, (customerId, stored) ∈ s.customerRequirements →
        mapGet (addPropertyToInventory s property fetched).matchingResults customerId =
          some (matchesOver (mapSet s.propertyInventory property.id property)
            stored.toRequirements)) := by
  have h := triggerReMatching_spec
    { s with propertyInventory := mapSet s.propertyInventory property.id property } fetched
    (mapSet_ne_nil _ _ _)
  exact ⟨h.1, h.2.2⟩

/-- A sample apartment in Maadi at 800,000 EGP scores 1.0 against the sample requirement. -/
theorem crowd_score (id : String) :
    calculateMatchingScore sampleRequirements (sampleProperty id "Maadi" 800000) = .fin 1 := by
  have hb : calculateBudgetMatch ⟨.fin 1000000, "EGP", "budget 1,000,000 egp"⟩ (.fin 800000) =
      .fin 1 := by
    simp only [calculateBudgetMatch, JSNum.fin_le_fin,
      JSNum.fin_div_fin _ (by norm_num : (1000000 : ℚ) ≠ 0)]
    norm_num
  have ht : calculateTypeMatch ⟨"apartment", "apartment", .fin (9 / 10)⟩ "apartment" =
      .fin 1 := by
    rw [calculateTypeMatch]
    simp only []
    rw [if_pos (by decide)]
  have hs : calculateSizeMatch ⟨.fin 100, "sqm", "100 sqm"⟩ (.fin 100) = .fin 1 := by
    simp only [calculateSizeMatch, JSNum.fin_sub_fin, JSNum.abs_fin, JSNum.fin_le_fin,
      JSNum.fin_div_fin _ (by norm_num : (100 : ℚ) ≠ 0)]
    norm_num
  have hloc : truthyStr (some "Maadi") = true := by decide
  have htype : truthyStr (some "apartment") = true := by decide
  rw [calculateMatchingScore_eq_steps]
  simp only [Criterion.specified, Criterion.subScore, sampleRequirements, sampleProperty,
    Option.isSome, Bool.true_and, hloc, htype, truthyNum, JSNum.truthy, sample_location_same,
    hb, ht, hs, addCriterion, Criterion.weight, if_true, JSNum.fin_add_fin,
    JSNum.fin_mul_fin, JSNum.fin_lt_fin, decide_eq_true_eq]
  norm_num [JSNum.fin_div_fin]

/-- The sample apartment `p1` at 620,000 EGP scores 0.9 against the sample requirement. -/
theorem p1_score (id : String) :
    calculateMatchingScore sampleRequirements (sampleProperty id "Maadi" 620000) =
      .fin (9 / 10) := by
  rw [sampleProperty_score id "Maadi" 620000 1 (by decide) sample_location_same
    (by norm_num) (by norm_num)]
  norm_num

/-- C18, as stated, fails. Ten apartments scoring 1.0 for the customer on file are in
stock; the added property scores 0.9, above the threshold, yet after the re-matching pass
the customer's cached list, cut to ten entries, does not contain it. -/
theorem addProperty_crowded :
    matchingThreshold ≤ calculateMatchingScore sampleStored.toRequirements
      (sampleProperty "p1" "Maadi" 620000) ∧
    ("201001234567", sampleStored) ∈ crowdedProcessor.customerRequirements ∧
    ∃ cached, mapGet (addPropertyToInventory crowdedProcessor
        (sampleProperty "p1" "Maadi" 620000) none).matchingResults "201001234567" =
          some cached ∧
      ∀ m ∈ cached, m.propertyId ≠ "p1" := by
  have hreq : sampleStored.toRequirements = sampleRequirements := rfl
  have hthr : matchingThreshold ≤ calculateMatchingScore sampleStored.toRequirements
      (sampleProperty "p1" "Maadi" 620000) := by
    rw [hreq, p1_score, matchingThreshold, JSNum.fin_le_fin]
    norm_num
  have hbound : matchingThreshold ≤ JSNum.fin (9 / 10) := by
    rw [matchingThreshold, JSNum.fin_le_fin]
    norm_num
  have hkeys : crowdInventory.map Prod.fst =
      ["q0", "q1", "q2", "q3", "q4", "q5", "q6", "q7", "q8", "q9"] := by
    simp [crowdInventory]
  have hinv : mapSet crowdedProcessor.propertyInventory "p1"
      (sampleProperty "p1" "Maadi" 620000) =
      crowdInventory ++ [("p1", sampleProperty "p1" "Maadi" 620000)] := by
    apply mapSet_of_not_mem
    show "p1" ∉ crowdInventory.map Prod.fst
    rw [hkeys]
    decide
  have hcrowdscore : ∀ x ∈ crowdInventory,
      calculateMatchingScore sampleRequirements x.2 = .fin 1 := by
    intro x hx
    obtain ⟨id, _, rfl⟩ := List.mem_map.mp hx
    exact crowd_score id
  refine ⟨hthr, List.mem_singleton.mpr rfl, _,
    (addPropertyToInventory_spec crowdedProcessor (sampleProperty "p1" "Maadi" 620000)
      none).2 (by decide) "201001234567" sampleStored (List.mem_singleton.mpr rfl), ?_⟩
  have hid : (sampleProperty "p1" "Maadi" 620000).id = "p1" := rfl
  rw [hid, hinv, hreq]
  have habove := matchesOver_above_bound
    (crowdInventory ++ [("p1", sampleProperty "p1" "Maadi" 620000)]) sampleRequirements
    (.fin (9 / 10)) hbound (by
      rw [List.filter_append, List.length_append]
      have hall : crowdInventory.filter (fun x =>
          decide (matchingThreshold ≤ calculateMatchingScore sampleRequirements x.2) &&
            !decide (calculateMatchingScore sampleRequirements x.2 ≤ JSNum.fin (9 / 10))) =
          crowdInventory := by
        apply List.filter_eq_self.mpr
        intro x hx
        rw [hcrowdscore x hx, matchingThreshold]
        simp only [JSNum.fin_le_fin, Bool.and_eq_true, decide_eq_true_eq, Bool.not_eq_true',
          decide_eq_false_iff_not]
        constructor <;> norm_num
      rw [hall]
      have hlen : crowdInventory.length = 10 := by simp [crowdInventory]
      omega)
  intro m hm hpid
  obtain ⟨x, hx, rfl, _⟩ := mem_matchesOver _ _ _ hm
  have hx1 : x.1 = "p1" := hpid
  rcases List.mem_append.mp hx with h | h
  · have hmem : x.1 ∈ crowdInventory.map Prod.fst := List.mem_map_of_mem Prod.fst h
    rw [hkeys, hx1] at hmem
    exact absurd hmem (by decide)
  · rw [List.mem_singleton] at h
    apply habove _ hm
    rw [h]
    show calculateMatchingScore sampleRequirements (sampleProperty "p1" "Maadi" 620000) ≤ _
    rw [p1_score, JSNum.fin_le_fin]

/-- After `addPropertyToInventory` the cached list of a customer on file contains the added
property when it reaches the threshold and fewer than ten other properties score at least
as high. -/
theorem addProperty_cached_of_few (s : AIProcessor) (fetched : Option (List Property))
    (customerId : String) (stored : StoredRequirements) (property : Property)
    (hcust : (s.customerRequirements.map Prod.fst).Nodup)
    (hinv : (s.propertyInventory.map Prod.fst).Nodup)
    (hstored : (customerId, stored) ∈ s.customerRequirements)
    (hscore : matchingThreshold ≤ calculateMatchingScore stored.toRequirements property)
    (hfew : (s.propertyInventory.filter (fun x => decide (x.1 ≠ property.id) &&
      decide (calculateMatchingScore stored.toRequirements property ≤
        calculateMatchingScore stored.toRequirements x.2))).length < 10) :
    ∃ cached, mapGet (addPropertyToInventory s property fetched).matchingResults customerId =
        some cached ∧
      makeMatch stored.toRequirements (property.id, property) ∈ cached := by
  refine ⟨_, (addPropertyToInventory_spec s property fetched).2 hcust customerId stored
    hstored, ?_⟩
  apply mem_matchesOver_of_few _ _ (property.id, property)
    (nodup_keys_mapSet _ _ _ hinv) (mem_mapSet_self _ _ _) hscore
  rw [filter_ne_mapSet]
  exact hfew

/-- C18, amended. For every stored customer Requirement and every property that scores at
least the threshold against it, after `addPropertyToInventory` and the re-matching pass it
triggers, the customer's cached match list contains the property, provided fewer than ten
other properties of the inventory score at least as high for that Requirement (the list
keeps the ten best). The keys of the two maps are distinct, as in any `Map`. -/
theorem addProperty_rematch (s : AIProcessor) (fetched : Option (List Property))
    (customerId : String) (stored : StoredRequirements) (property : Property)
    (hcust : (s.customerRequirements.map Prod.fst).Nodup)
    (hinv : (s.propertyInventory.map Prod.fst).Nodup)
    (hstored : (customerId, stored) ∈ s.customerRequirements)
    (hscore : matchingThreshold ≤ calculateMatchingScore stored.toRequirements property)
    (hfew : (s.propertyInventory.filter (fun x => decide (x.1 ≠ property.id) &&
      decide (calculateMatchingScore stored.toRequirements property ≤
        calculateMatchingScore stored.toRequirements x.2))).length < 10) :
    ∃ cached, mapGet (addPropertyToInventory s property fetched).matchingResults customerId =
        some cached ∧
      makeMatch stored.toRequirements (property.id, property) ∈ cached :=
  addProperty_cached_of_few s fetched customerId stored property hcust hinv hstored hscore hfew

/-- Witness of C18: with three properties in stock and one customer on file, a fourth
property scoring 0.9 enters the customer's cached list. -/
theorem addProperty_rematch_witness :
    ∃ cached, mapGet (addPropertyToInventory sampleDemandProcessor
        (sampleProperty "p4" "Maadi" 620000) none).matchingResults "201001234567" =
          some cached ∧
      makeMatch sampleStored.toRequirements ("p4", sampleProperty "p4" "Maadi" 620000) ∈
        cached :=
  addProperty_rematch sampleDemandProcessor none "201001234567" sampleStored
    (sampleProperty "p4" "Maadi" 620000) (by decide) (by decide)
    (List.mem_singleton.mpr rfl)
    (by
      show matchingThreshold ≤ calculateMatchingScore sampleRequirements _
      rw [p1_score, matchingThreshold, JSNum.fin_le_fin]
      norm_num)
    (lt_of_le_of_lt (List.length_filter_le _ _) (by decide))

/-! ## Removal from the inventory -/

/-- A deleted key is no longer among the keys. -/
theorem not_mem_keys_mapDelete {β : Type} (m : List (String × β)) (k : String) :
    k ∉ (mapDelete m k).map Prod.fst := by
  simp [mapDelete]

/-- C19 fails on the code. `removePropertyFromInventory` never touches the cached match
lists; so with the sample inventory and one customer on file, after property `p1` is
added anew (which caches it for the customer) and then removed, `p1` is gone from the
inventory while the customer's cached list still holds a match whose `propertyId` is
`p1`. -/
theorem removeProperty_keeps_cached :
    (∀ (s : AIProcessor) (propertyId : String),
      (removePropertyFromInventory s propertyId).matchingResults = s.matchingResults) ∧
    "p1" ∉ (removePropertyFromInventory
      (addPropertyToInventory sampleDemandProcessor (sampleProperty "p1" "Maadi" 620000) none)
      "p1").propertyInventory.map Prod.fst ∧
    ∃ cached, mapGet (removePropertyFromInventory
        (addPropertyToInventory sampleDemandProcessor (sampleProperty "p1" "Maadi" 620000)
          none) "p1").matchingResults "201001234567" = some cached ∧
      ∃ m ∈ cached, m.propertyId = "p1" := by
  refine ⟨fun _ _ => rfl, not_mem_keys_mapDelete _ _, ?_⟩
  obtain ⟨cached, hget, hmem⟩ := addProperty_cached_of_few sampleDemandProcessor none
    "201001234567" sampleStored (sampleProperty "p1" "Maadi" 620000) (by decide) (by decide)
    (List.mem_singleton.mpr rfl)
    (by
      show matchingThreshold ≤ calculateMatchingScore sampleRequirements _
      rw [p1_score, matchingThreshold, JSNum.fin_le_fin]
      norm_num)
    (lt_of_le_of_lt (List.length_filter_le _ _) (by decide))
  exact ⟨cached, hget, _, hmem, rfl⟩

/-! ## Distinct ids in the inventory -/

/-- The entries of a map after a write: the written one, or an old one. -/
theorem mem_of_mem_mapSet {β : Type} (m : List (String × β)) (k : String) (v : β)
    (e : String × β) (h : e ∈ mapSet m k v) : e = (k, v) ∨ e ∈ m := by
  induction m with
  | nil =>
    simp only [mapSet, List.mem_singleton] at h
    exact Or.inl h
  | cons a rest ih =>
    rw [mapSet] at h
    split_ifs at h with ha
    · rcases List.mem_cons.mp h with h | h
      · exact Or.inl h
      · exact Or.inr (List.mem_cons_of_mem _ h)
    · rcases List.mem_cons.mp h with h | h
      · exact Or.inr (h ▸ List.mem_cons_self _ _)
      · rcases ih h with h2 | h2
        · exact Or.inl h2
        · exact Or.inr (List.mem_cons_of_mem _ h2)

/-- A write of a property under its own id keeps the keys distinct and every property
under its own id. -/
theorem keyed_mapSet (inventory : List (String × Property)) (k : String) (p : Property)
    (h : (inventory.map Prod.fst).Nodup ∧ ∀ e ∈ inventory, e.2.id = e.1) (hk : p.id = k) :
    ((mapSet inventory k p).map Prod.fst).Nodup ∧
      ∀ e ∈ mapSet inventory k p, e.2.id = e.1 := by
  refine ⟨nodup_keys_mapSet _ _ _ h.1, ?_⟩
  intro e he
  rcases mem_of_mem_mapSet _ _ _ _ he with rfl | he
  · exact hk
  · exact h.2 e he

/-- One inventory call that stores properties under their own ids keeps the keys distinct
and every property under its own id. -/
theorem keyed_run (fetched : Option (List Property)) (s : AIProcessor) (call : InventoryCall)
    (h : (s.propertyInventory.map Prod.fst).Nodup ∧ ∀ e ∈ s.propertyInventory, e.2.id = e.1)
    (hcall : call.KeyedById) :
    (((call.run fetched s).propertyInventory).map Prod.fst).Nodup ∧
      ∀ e ∈ (call.run fetched s).propertyInventory, e.2.id = e.1 := by
  cases call with
  | add property =>
    rw [InventoryCall.run, (addPropertyToInventory_spec s property fetched).1]
    exact keyed_mapSet _ _ _ h rfl
  | update propertyId updatedProperty =>
    rw [InventoryCall.run, updatePropertyInInventory]
    split_ifs
    · rw [(triggerReMatching_spec _ fetched (mapSet_ne_nil _ _ _)).1]
      exact keyed_mapSet _ _ _ h hcall
    · exact h
  | remove propertyId =>
    rw [InventoryCall.run, removePropertyFromInventory]
    refine ⟨(h.1.sublist ((List.filter_sublist _).map Prod.fst)), ?_⟩
    intro e he
    exact h.2 e (List.mem_of_mem_filter he)

/-- C20, as stated, fails: after two properties with the ids "a" and "b" are added, an
update of the entry "a" with a record whose own id is "b" leaves two properties with the
id "b" in the inventory. -/
theorem update_duplicates_id :
    ¬ ((getAllPropertyInventory (runCalls none emptyProcessor
      [.add (sampleProperty "a" "Maadi" 620000), .add (sampleProperty "b" "Giza" 500000),
       .update "a" (sampleProperty "b" "Giza" 500000)])).map (fun p => p.id)).Nodup := by
  have h : (getAllPropertyInventory (runCalls none emptyProcessor
      [.add (sampleProperty "a" "Maadi" 620000), .add (sampleProperty "b" "Giza" 500000),
       .update "a" (sampleProperty "b" "Giza" 500000)])).map (fun p => p.id) = ["b", "b"] := by
    decide
  rw [h]
  decide

/-- C20, amended. Starting from an empty inventory, after any sequence of
`addPropertyToInventory`, `updatePropertyInInventory` and `removePropertyFromInventory`
calls in which every update stores a property whose id is the id it is stored under, no
two properties returned by `getAllPropertyInventory` have the same id. -/
theorem inventory_ids_distinct (fetched : Option (List Property)) (s : AIProcessor)
    (calls : List InventoryCall) (hempty : s.propertyInventory = [])
    (hkeyed : ∀ call ∈ calls, call.KeyedById) :
    ((getAllPropertyInventory (runCalls fetched s calls)).map (fun p => p.id)).Nodup := by
  have hinv : ∀ (calls : List InventoryCall) (s : AIProcessor),
      ((s.propertyInventory.map Prod.fst).Nodup ∧ ∀ e ∈ s.propertyInventory, e.2.id = e.1) →
      (∀ call ∈ calls, call.KeyedById) →
      (((runCalls fetched s calls).propertyInventory.map Prod.fst).Nodup ∧
        ∀ e ∈ (runCalls fetched s calls).propertyInventory, e.2.id = e.1) := by
    intro calls
    induction calls with
    | nil => intro s h _; exact h
    | cons call rest ih =>
      intro s h hk
      rw [runCalls, List.foldl_cons]
      exact ih _ (keyed_run fetched s call h (hk call (List.mem_cons_self _ _)))
        (fun c hc => hk c (List.mem_cons_of_mem _ hc))
  obtain ⟨hnd, hid⟩ := hinv calls s (by rw [hempty]; simp) hkeyed
  have hids : (getAllPropertyInventory (runCalls fetched s calls)).map (fun p => p.id) =
      (runCalls fetched s calls).propertyInventory.map Prod.fst := by
    rw [getAllPropertyInventory, List.map_map]
    apply List.map_congr_left
    intro e he
    exact hid e he
  rw [hids]
  exact hnd

/-- Witness of C20: an add, an update of the same id and an add of another id leave the
ids "a" and "b", once each. -/
theorem inventory_ids_distinct_witness :
    ((getAllPropertyInventory (runCalls none emptyProcessor
      [.add (sampleProperty "a" "Maadi" 620000),
       .update "a" (sampleProperty "a" "Giza" 500000),
       .add (sampleProperty "b" "Giza" 500000)])).map (fun p => p.id)).Nodup :=
  inventory_ids_distinct none emptyProcessor _ rfl (by
    intro call hcall
    simp only [List.mem_cons, List.mem_singleton, List.not_mem_nil, or_false] at hcall
    rcases hcall with rfl | rfl | rfl
    · trivial
    · rfl
    · trivial)

/-! ## The iteration bound of the matcher -/

/-- Mapping two families that agree on the members of a list gives the same results. -/
theorem flatMap_congr_mem {α β : Type} (l : List α) (f g : α → List β)
    (h : ∀ a ∈ l, f a = g a) : l.flatMap f = l.flatMap g := by
  induction l with
  | nil => rfl
  | cons a rest ih =>
    rw [List.flatMap_cons, List.flatMap_cons, h a (List.mem_cons_self _ _),
      ih (fun b hb => h b (List.mem_cons_of_mem _ hb))]

/-- The bound on the iterations of a repetition is never met: with a matcher that does not
lengthen the input, any bound above the input length plus `min` gives the same outcomes as
the next larger bound. -/
theorem repeatMatcher_bound (step : MatchState → List MatchState) (greedy : Bool)
    (hstep : ∀ s s', s' ∈ step s → s'.rest.length ≤ s.rest.length) :
    ∀ (fuel min : Nat) (max : Option Nat) (s : MatchState), s.rest.length + min < fuel →
      repeatMatcher step greedy fuel min max s =
        repeatMatcher step greedy (fuel + 1) min max s := by
  intro fuel
  induction fuel with
  | zero => intro min max s h; exact absurd h (Nat.not_lt_zero _)
  | succ n ih =>
    intro min max s h
    rw [repeatMatcher, repeatMatcher]
    have hmore : (step s).flatMap (fun s' =>
          if min = 0 ∧ s'.rest.length = s.rest.length then []
          else repeatMatcher step greedy n (min - 1) (max.map (fun k => k - 1)) s') =
        (step s).flatMap (fun s' =>
          if min = 0 ∧ s'.rest.length = s.rest.length then []
          else repeatMatcher step greedy (n + 1) (min - 1) (max.map (fun k => k - 1)) s') := by
      apply flatMap_congr_mem
      intro s' hs'
      have hle := hstep s s' hs'
      split_ifs with hc
      · rfl
      · apply ih
        by_cases hmin : min = 0
        · have hne : s'.rest.length ≠ s.rest.length := fun heq => hc ⟨hmin, heq⟩
          omega
        · omega
    simp only [hmore]

/-- A repetition of a matcher that does not lengthen the input does not lengthen it. -/
theorem repeatMatcher_shrinks (step : MatchState → List MatchState) (greedy : Bool)
    (hstep : ∀ s s', s' ∈ step s → s'.rest.length ≤ s.rest.length) :
    ∀ (fuel min : Nat) (max : Option Nat) (s s' : MatchState),
      s' ∈ repeatMatcher step greedy fuel min max s → s'.rest.length ≤ s.rest.length := by
  intro fuel
  induction fuel with
  | zero =>
    intro min max s s' h
    rw [repeatMatcher] at h
    split_ifs at h
    · rw [List.mem_singleton.mp h]
    · exact absurd h (List.not_mem_nil _)
  | succ n ih =>
    intro min max s s' h
    rw [repeatMatcher] at h
    have hstop : s' ∈ (if min = 0 then [s] else []) → s'.rest.length ≤ s.rest.length := by
      intro hs
      split_ifs at hs
      · rw [List.mem_singleton.mp hs]
      · exact absurd hs (List.not_mem_nil _)
    have hmore : s' ∈ (step s).flatMap (fun t =>
          if min = 0 ∧ t.rest.length = s.rest.length then []
          else repeatMatcher step greedy n (min - 1) (max.map (fun k => k - 1)) t) →
        s'.rest.length ≤ s.rest.length := by
      intro hs
      obtain ⟨t, ht, hs2⟩ := List.mem_flatMap.mp hs
      split_ifs at hs2
      · exact absurd hs2 (List.not_mem_nil _)
      · exact Nat.le_trans (ih _ _ _ _ hs2) (hstep s t ht)
    by_cases hmax : max = some 0
    · rw [if_pos hmax] at h
      rw [List.mem_singleton.mp h]
    · rw [if_neg hmax] at h
      cases greedy with
      | true =>
        rcases List.mem_append.mp h with h | h
        · exact hmore h
        · exact hstop h
      | false =>
        rcases List.mem_append.mp h with h | h
        · exact hstop h
        · exact hmore h

/-- A pattern never lengthens the input it reads. -/
theorem matcher_shrinks (ignoreCase : Bool) (re : Regex) :
    ∀ s s' : MatchState, s' ∈ matcher ignoreCase re s → s'.rest.length ≤ s.rest.length := by
  induction re with
  | eps =>
    intro s s' h
    rw [matcher, List.mem_singleton] at h
    rw [h]
  | cls items =>
    intro s s' h
    rw [matcher] at h
    split at h
    · next c cs hrest =>
      split_ifs at h
      · rw [List.mem_singleton.mp h, hrest]
        exact Nat.le_succ _
      · exact absurd h (List.not_mem_nil _)
    · exact absurd h (List.not_mem_nil _)
  | seq a b iha ihb =>
    intro s s' h
    rw [matcher] at h
    obtain ⟨t, ht, hs'⟩ := List.mem_flatMap.mp h
    exact Nat.le_trans (ihb _ _ hs') (iha _ _ ht)
  | alt a b iha ihb =>
    intro s s' h
    rw [matcher] at h
    rcases List.mem_append.mp h with h | h
    · exact iha _ _ h
    · exact ihb _ _ h
  | rep a min max greedy iha =>
    intro s s' h
    rw [matcher] at h
    exact repeatMatcher_shrinks _ greedy iha _ _ _ _ _ h
  | group index a iha =>
    intro s s' h
    rw [matcher] at h
    obtain ⟨t, ht, rfl⟩ := List.mem_map.mp h
    exact iha s t ht

/-- The iteration bound that `matcher` hands to a repetition is enough: any larger bound
gives the same outcomes. -/
theorem matcher_rep_bound (ignoreCase : Bool) (a : Regex) (min : Nat) (max : Option Nat)
    (greedy : Bool) (s : MatchState) (extra : Nat) :
    matcher ignoreCase (.rep a min max greedy) s =
      repeatMatcher (fun s' => matcher ignoreCase a s') greedy
        (s.rest.length + min + 1 + extra) min max s := by
  rw [matcher]
  induction extra with
  | zero => rfl
  | succ k ih =>
    rw [ih]
    exact repeatMatcher_bound _ greedy (matcher_shrinks ignoreCase a) _ _ _ _ (by omega)

/-! ## Prices over and under the budget -/

/-- A price above the budget by at most a tenth of it scores `0.8`. -/
theorem calculateBudgetMatch_over (reqBudget : Budget) (b p : ℚ) (hb : 0 < b)
    (hamount : reqBudget.amount = .fin b) (h1 : b < p) (h2 : p ≤ 11 / 10 * b) :
    calculateBudgetMatch reqBudget (.fin p) = .fin (8 / 10) := by
  have hb0 : b ≠ 0 := ne_of_gt hb
  have h3 : ¬ (p ≤ b) := not_le.mpr h1
  have h4 : (p - b) / b ≤ 1 / 10 := by
    rw [div_le_iff₀ hb]
    linarith
  simp only [calculateBudgetMatch, hamount, JSNum.fin_le_fin, JSNum.fin_sub_fin,
    JSNum.fin_div_fin _ hb0, h3, h4, if_true, if_false]

/-- A price below seven tenths of the budget scores the ratio of the price to the
budget. -/
theorem calculateBudgetMatch_under (reqBudget : Budget) (b p : ℚ) (hb : 0 < b)
    (hamount : reqBudget.amount = .fin b) (h : p < 7 / 10 * b) :
    calculateBudgetMatch reqBudget (.fin p) = .fin (p / b) := by
  have hb0 : b ≠ 0 := ne_of_gt hb
  have h2 : p ≤ b := by linarith
  have h3 : ¬ (7 / 10 ≤ p / b) := by
    rw [le_div_iff₀ hb]
    exact not_le.mpr h
  simp only [calculateBudgetMatch, hamount, JSNum.fin_le_fin, JSNum.fin_div_fin _ hb0, h2,
    h3, if_true, if_false]

/-- C29. The budget sub-score is not monotone in the price: for a budget `b > 0`, a price
`p1` with `0 < p1 < 0.7*b` and a price `p2` with `b < p2 <= 1.1*b`, the dearer property
scores `0.8` and the cheaper one strictly less, the positive ratio `p1/b`. -/
theorem calculateBudgetMatch_not_monotone (reqBudget : Budget) (b p1 p2 : ℚ) (hb : 0 < b)
    (hamount : reqBudget.amount = .fin b) (h1 : 0 < p1) (h1b : p1 < 7 / 10 * b)
    (h2 : b < p2) (h2b : p2 ≤ 11 / 10 * b) :
    p1 < p2 ∧
    calculateBudgetMatch reqBudget (.fin p1) < calculateBudgetMatch reqBudget (.fin p2) ∧
    calculateBudgetMatch reqBudget (.fin p2) = .fin (8 / 10) ∧
    calculateBudgetMatch reqBudget (.fin p1) = .fin (p1 / b) ∧
    JSNum.fin 0 < calculateBudgetMatch reqBudget (.fin p1) := by
  have hlow := calculateBudgetMatch_under reqBudget b p1 hb hamount h1b
  have hhigh := calculateBudgetMatch_over reqBudget b p2 hb hamount h2 h2b
  refine ⟨by linarith, ?_, hhigh, hlow, ?_⟩
  · rw [hlow, hhigh, JSNum.fin_lt_fin, div_lt_iff₀ hb]
    linarith
  · rw [hlow, JSNum.fin_lt_fin]
    exact div_pos h1 hb

/-- Witness of C29 at the budget 1,000,000: the price 500,000 scores 0.5, the price
1,100,000 scores 0.8. -/
theorem calculateBudgetMatch_not_monotone_witness :
    (500000 : ℚ) < 1100000 ∧
    calculateBudgetMatch ⟨.fin 1000000, "EGP", "budget 1,000,000 egp"⟩ (.fin 500000) <
      calculateBudgetMatch ⟨.fin 1000000, "EGP", "budget 1,000,000 egp"⟩ (.fin 1100000) ∧
    calculateBudgetMatch ⟨.fin 1000000, "EGP", "budget 1,000,000 egp"⟩ (.fin 1100000)
      = .fin (8 / 10) ∧
    calculateBudgetMatch ⟨.fin 1000000, "EGP", "budget 1,000,000 egp"⟩ (.fin 500000)
      = .fin (500000 / 1000000) ∧
    JSNum.fin 0 <
      calculateBudgetMatch ⟨.fin 1000000, "EGP", "budget 1,000,000 egp"⟩ (.fin 500000) :=
  calculateBudgetMatch_not_monotone _ 1000000 500000 1100000 (by norm_num) rfl (by norm_num)
    (by norm_num) (by norm_num) (by norm_num)

/-! ## Match reasons -/

/-- The reasons one block of `generateMatchReasons` pushes for a sub-score: the first
reason from 0.8 on, the second for a positive score below, none otherwise. -/
theorem reasons_of_score (score : JSNum) (strong soft : MatchReason) (x : MatchReason) :
    (x ∈ (if JSNum.fin (8 / 10) ≤ score then [strong]
      else if JSNum.fin 0 < score then [soft] else [])) ↔
    (JSNum.fin (8 / 10) ≤ score ∧ x = strong) ∨
    (¬ (JSNum.fin (8 / 10) ≤ score) ∧ JSNum.fin 0 < score ∧ x = soft) := by
  by_cases h1 : JSNum.fin (8 / 10) ≤ score
  · simp only [h1, if_true, List.mem_singleton, true_and, not_true_eq_false, false_and,
      or_false]
  · by_cases h2 : JSNum.fin 0 < score
    · simp only [h1, h2, if_true, if_false, List.mem_singleton, false_and, true_and,
        not_false_eq_true, false_or]
    · simp only [h1, h2, if_false, List.not_mem_nil, false_and, and_false, or_false]

/-- The list of `generateMatchReasons` is what the location block pushes followed by what
the budget block pushes. -/
theorem generateMatchReasons_eq (requirements : Requirements) (property : Property) :
    generateMatchReasons requirements property =
      (match requirements.location, property.location with
        | some reqLocation, some propLocation =>
            if truthyStr (some propLocation) then
              if JSNum.fin (8 / 10) ≤ calculateLocationMatch reqLocation propLocation then
                [MatchReason.excellentLocation propLocation]
              else if JSNum.fin 0 < calculateLocationMatch reqLocation propLocation then
                [MatchReason.goodLocation propLocation]
              else []
            else []
        | _, _ => []) ++
      (match requirements.budget, property.price with
        | some reqBudget, some propPrice =>
            if truthyNum (some propPrice) then
              if JSNum.fin (8 / 10) ≤ calculateBudgetMatch reqBudget propPrice then
                [MatchReason.withinBudget propPrice]
              else if JSNum.fin 0 < calculateBudgetMatch reqBudget propPrice then
                [MatchReason.nearBudget propPrice]
              else []
            else []
        | _, _ => []) := by
  unfold generateMatchReasons
  cases requirements.location <;> cases property.location <;>
    cases requirements.budget <;> cases property.price
  all_goals try simp only [List.nil_append, List.append_nil]
  split_ifs <;> simp
/-- No block of `generateMatchReasons` pushes a reason of another block: a reason pushed
for a sub-score is one of the two reasons of its block. -/
theorem reasons_of_score_cases (score : JSNum) (strong soft : MatchReason) (x : MatchReason)
    (h : x ∈ (if JSNum.fin (8 / 10) ≤ score then [strong]
      else if JSNum.fin 0 < score then [soft] else [])) : x = strong ∨ x = soft := by
  rcases (reasons_of_score score strong soft x).mp h with ⟨_, h1⟩ | ⟨_, _, h1⟩
  · exact Or.inl h1
  · exact Or.inr h1

/-- The location block of `generateMatchReasons` pushes location reasons only. -/
theorem location_block_cases (requirements : Requirements) (property : Property)
    (x : MatchReason)
    (h : x ∈ (match requirements.location, property.location with
        | some reqLocation, some propLocation =>
            if truthyStr (some propLocation) then
              if JSNum.fin (8 / 10) ≤ calculateLocationMatch reqLocation propLocation then
                [MatchReason.excellentLocation propLocation]
              else if JSNum.fin 0 < calculateLocationMatch reqLocation propLocation then
                [MatchReason.goodLocation propLocation]
              else []
            else []
        | _, _ => [])) :
    ∃ reqLocation propLocation, requirements.location = some reqLocation ∧
      property.location = some propLocation ∧ truthyStr (some propLocation) = true ∧
      ((JSNum.fin (8 / 10) ≤ calculateLocationMatch reqLocation propLocation ∧
          x = .excellentLocation propLocation) ∨
       (¬ (JSNum.fin (8 / 10) ≤ calculateLocationMatch reqLocation propLocation) ∧
          JSNum.fin 0 < calculateLocationMatch reqLocation propLocation ∧
          x = .goodLocation propLocation)) := by
  cases hr : requirements.location with
  | none => simp [hr] at h
  | some reqLocation =>
    cases hp : property.location with
    | none => simp [hr, hp] at h
    | some propLocation =>
      simp only [hr, hp] at h
      by_cases ht : truthyStr (some propLocation) = true
      · rw [if_pos ht] at h
        exact ⟨reqLocation, propLocation, rfl, rfl, ht, (reasons_of_score _ _ _ x).mp h⟩
      · rw [if_neg ht] at h
        simp at h

/-- The budget block of `generateMatchReasons` pushes budget reasons only. -/
theorem budget_block_cases (requirements : Requirements) (property : Property)
    (x : MatchReason)
    (h : x ∈ (match requirements.budget, property.price with
        | some reqBudget, some propPrice =>
            if truthyNum (some propPrice) then
              if JSNum.fin (8 / 10) ≤ calculateBudgetMatch reqBudget propPrice then
                [MatchReason.withinBudget propPrice]
              else if JSNum.fin 0 < calculateBudgetMatch reqBudget propPrice then
                [MatchReason.nearBudget propPrice]
              else []
            else []
        | _, _ => [])) :
    ∃ reqBudget propPrice, requirements.budget = some reqBudget ∧
      property.price = some propPrice ∧ truthyNum (some propPrice) = true ∧
      ((JSNum.fin (8 / 10) ≤ calculateBudgetMatch reqBudget propPrice ∧
          x = .withinBudget propPrice) ∨
       (¬ (JSNum.fin (8 / 10) ≤ calculateBudgetMatch reqBudget propPrice) ∧
          JSNum.fin 0 < calculateBudgetMatch reqBudget propPrice ∧
          x = .nearBudget propPrice)) := by
  cases hr : requirements.budget with
  | none => simp [hr] at h
  | some reqBudget =>
    cases hp : property.price with
    | none => simp [hr, hp] at h
    | some propPrice =>
      simp only [hr, hp] at h
      by_cases ht : truthyNum (some propPrice) = true
      · rw [if_pos ht] at h
        exact ⟨reqBudget, propPrice, rfl, rfl, ht, (reasons_of_score _ _ _ x).mp h⟩
      · rw [if_neg ht] at h
        simp at h

/-- Membership in the list of `generateMatchReasons`, reason by reason: a reason is listed
exactly when its block pushes it. -/
theorem mem_generateMatchReasons (requirements : Requirements) (property : Property)
    (x : MatchReason) :
    x ∈ generateMatchReasons requirements property ↔
      (∃ reqLocation propLocation, requirements.location = some reqLocation ∧
        property.location = some propLocation ∧ truthyStr (some propLocation) = true ∧
        ((JSNum.fin (8 / 10) ≤ calculateLocationMatch reqLocation propLocation ∧
            x = .excellentLocation propLocation) ∨
         (¬ (JSNum.fin (8 / 10) ≤ calculateLocationMatch reqLocation propLocation) ∧
            JSNum.fin 0 < calculateLocationMatch reqLocation propLocation ∧
            x = .goodLocation propLocation))) ∨
      (∃ reqBudget propPrice, requirements.budget = some reqBudget ∧
        property.price = some propPrice ∧ truthyNum (some propPrice) = true ∧
        ((JSNum.fin (8 / 10) ≤ calculateBudgetMatch reqBudget propPrice ∧
            x = .withinBudget propPrice) ∨
         (¬ (JSNum.fin (8 / 10) ≤ calculateBudgetMatch reqBudget propPrice) ∧
            JSNum.fin 0 < calculateBudgetMatch reqBudget propPrice ∧
            x = .nearBudget propPrice))) := by
  rw [generateMatchReasons_eq, List.mem_append]
  constructor
  · rintro (h | h)
    · exact Or.inl (location_block_cases requirements property x h)
    · exact Or.inr (budget_block_cases requirements property x h)
  · rintro (⟨reqLocation, propLocation, hr, hp, ht, h⟩ | ⟨reqBudget, propPrice, hr, hp, ht, h⟩)
    · left
      simp only [hr, hp]
      rw [if_pos ht]
      exact (reasons_of_score _ _ _ x).mpr h
    · right
      simp only [hr, hp]
      rw [if_pos ht]
      exact (reasons_of_score _ _ _ x).mpr h
/-- A number strictly below another is not at or above it. -/
theorem not_le_of_lt_num (x y : JSNum) (h : x < y) : ¬ (y ≤ x) := by
  intro hle
  cases x with
  | fin a =>
    cases y with
    | fin b =>
      exact absurd ((JSNum.fin_le_fin b a).mp hle) (not_le.mpr ((JSNum.fin_lt_fin a b).mp h))
    | posInf => exact hle
    | negInf => exact h
    | nan => exact h
  | posInf => exact h
  | negInf =>
    cases y with
    | fin b => exact hle
    | posInf => exact hle
    | negInf => exact h
    | nan => exact h
  | nan => exact h

/-- The sample type against the same type scores 1.0. -/
theorem sample_type_same :
    calculateTypeMatch ⟨"apartment", "apartment", .fin (9 / 10)⟩ "apartment" = .fin 1 := by
  rw [calculateTypeMatch]
  simp only []
  rw [if_pos (by decide)]

/-- The sample size against the same size scores 1.0. -/
theorem sample_size_same :
    calculateSizeMatch ⟨.fin 100, "sqm", "100 sqm"⟩ (.fin 100) = .fin 1 := by
  simp only [calculateSizeMatch, JSNum.fin_sub_fin, JSNum.abs_fin, JSNum.fin_le_fin,
    JSNum.fin_div_fin _ (by norm_num : (100 : ℚ) ≠ 0)]
  norm_num

/-- C22, as stated, fails for the property type and the size. The requirement and the
property both carry a type and a size, each sub-score is 1.0, yet `generateMatchReasons`
lists no reason at all. -/
theorem generateMatchReasons_type_size_silent :
    typeAndSizeRequirements.propertyType = some ⟨"apartment", "apartment", .fin (9 / 10)⟩ ∧
    (sampleProperty "p1" "Maadi" 800000).type = some "apartment" ∧
    JSNum.fin (8 / 10) ≤
      calculateTypeMatch ⟨"apartment", "apartment", .fin (9 / 10)⟩ "apartment" ∧
    typeAndSizeRequirements.size = some ⟨.fin 100, "sqm", "100 sqm"⟩ ∧
    (sampleProperty "p1" "Maadi" 800000).size = some (.fin 100) ∧
    JSNum.fin (8 / 10) ≤ calculateSizeMatch ⟨.fin 100, "sqm", "100 sqm"⟩ (.fin 100) ∧
    generateMatchReasons typeAndSizeRequirements (sampleProperty "p1" "Maadi" 800000) = [] := by
  refine ⟨rfl, rfl, ?_, rfl, rfl, ?_, rfl⟩
  · rw [sample_type_same, JSNum.fin_le_fin]
    norm_num
  · rw [sample_size_same, JSNum.fin_le_fin]
    norm_num

/-- C22, amended. For the criteria location and budget, each present in the requirement
and set on the property (a non-empty location, a price other than 0 and NaN),
`generateMatchReasons` lists the strongly worded reason of the criterion and not the softer
one when the sub-score is at least 0.8, the softer one and not the strong one when the
sub-score lies strictly between 0 and 0.8, and neither when the sub-score is 0. The
property type and the size never yield a reason: the list stays the same whatever type and
size the requirement and the property carry. -/
theorem generateMatchReasons_bands (requirements : Requirements) (property : Property) :
    (∀ reqLocation propLocation, requirements.location = some reqLocation →
      property.location = some propLocation → propLocation ≠ "" →
      (JSNum.fin (8 / 10) ≤ calculateLocationMatch reqLocation propLocation →
        MatchReason.excellentLocation propLocation ∈
          generateMatchReasons requirements property ∧
        ∀ l, MatchReason.goodLocation l ∉ generateMatchReasons requirements property) ∧
      (JSNum.fin 0 < calculateLocationMatch reqLocation propLocation →
        calculateLocationMatch reqLocation propLocation < JSNum.fin (8 / 10) →
        MatchReason.goodLocation propLocation ∈ generateMatchReasons requirements property ∧
        ∀ l, MatchReason.excellentLocation l ∉ generateMatchReasons requirements property) ∧
      (calculateLocationMatch reqLocation propLocation = JSNum.fin 0 →
        ∀ l, MatchReason.excellentLocation l ∉ generateMatchReasons requirements property ∧
          MatchReason.goodLocation l ∉ generateMatchReasons requirements property)) ∧
    (∀ reqBudget propPrice, requirements.budget = some reqBudget →
      property.price = some propPrice → truthyNum (some propPrice) = true →
      (JSNum.fin (8 / 10) ≤ calculateBudgetMatch reqBudget propPrice →
        MatchReason.withinBudget propPrice ∈ generateMatchReasons requirements property ∧
        ∀ x, MatchReason.nearBudget x ∉ generateMatchReasons requirements property) ∧
      (JSNum.fin 0 < calculateBudgetMatch reqBudget propPrice →
        calculateBudgetMatch reqBudget propPrice < JSNum.fin (8 / 10) →
        MatchReason.nearBudget propPrice ∈ generateMatchReasons requirements property ∧
        ∀ x, MatchReason.withinBudget x ∉ generateMatchReasons requirements property) ∧
      (calculateBudgetMatch reqBudget propPrice = JSNum.fin 0 →
        ∀ x, MatchReason.withinBudget x ∉ generateMatchReasons requirements property ∧
          MatchReason.nearBudget x ∉ generateMatchReasons requirements property)) ∧
    (∀ (reqType : Option PropertyType) (reqSize : Option Size) (propType : Option String)
      (propSize : Option JSNum),
      generateMatchReasons { requirements with propertyType := reqType, size := reqSize }
        { property with type := propType, size := propSize } =
      generateMatchReasons requirements property) := by
  have hzero8 : ¬ (JSNum.fin (8 / 10) ≤ JSNum.fin 0) := by
    rw [JSNum.fin_le_fin]
    norm_num
  have hzero0 : ¬ (JSNum.fin 0 < JSNum.fin 0) := by
    rw [JSNum.fin_lt_fin]
    norm_num
  refine ⟨?_, ?_, ?_⟩
  · intro reqLocation propLocation hr hp hne
    have ht := truthyStr_of_ne propLocation hne
    refine ⟨?_, ?_, ?_⟩
    · intro hs
      refine ⟨(mem_generateMatchReasons _ _ _).mpr
        (Or.inl ⟨reqLocation, propLocation, hr, hp, ht, Or.inl ⟨hs, rfl⟩⟩), ?_⟩
      intro l hmem
      rcases (mem_generateMatchReasons _ _ _).mp hmem with
        ⟨rl, pl, hr2, hp2, _, ⟨_, h⟩ | ⟨hn, _, _⟩⟩ | ⟨_, _, _, _, _, ⟨_, h⟩ | ⟨_, _, h⟩⟩
      · cases h
      · rw [hr] at hr2
        rw [hp] at hp2
        cases hr2
        cases hp2
        exact hn hs
      · cases h
      · cases h
    · intro hpos hlt
      have hn := not_le_of_lt_num _ _ hlt
      refine ⟨(mem_generateMatchReasons _ _ _).mpr
        (Or.inl ⟨reqLocation, propLocation, hr, hp, ht, Or.inr ⟨hn, hpos, rfl⟩⟩), ?_⟩
      intro l hmem
      rcases (mem_generateMatchReasons _ _ _).mp hmem with
        ⟨rl, pl, hr2, hp2, _, ⟨hs, _⟩ | ⟨_, _, h⟩⟩ | ⟨_, _, _, _, _, ⟨_, h⟩ | ⟨_, _, h⟩⟩
      · rw [hr] at hr2
        rw [hp] at hp2
        cases hr2
        cases hp2
        exact hn hs
      · cases h
      · cases h
      · cases h
    · intro hs l
      constructor
      · intro hmem
        rcases (mem_generateMatchReasons _ _ _).mp hmem with
          ⟨rl, pl, hr2, hp2, _, ⟨hs2, _⟩ | ⟨_, _, h⟩⟩ | ⟨_, _, _, _, _, ⟨_, h⟩ | ⟨_, _, h⟩⟩
        · rw [hr] at hr2
          rw [hp] at hp2
          cases hr2
          cases hp2
          rw [hs] at hs2
          exact hzero8 hs2
        · cases h
        · cases h
        · cases h
      · intro hmem
        rcases (mem_generateMatchReasons _ _ _).mp hmem with
          ⟨rl, pl, hr2, hp2, _, ⟨_, h⟩ | ⟨_, hpos, _⟩⟩ | ⟨_, _, _, _, _, ⟨_, h⟩ | ⟨_, _, h⟩⟩
        · cases h
        · rw [hr] at hr2
          rw [hp] at hp2
          cases hr2
          cases hp2
          rw [hs] at hpos
          exact hzero0 hpos
        · cases h
        · cases h
  · intro reqBudget propPrice hr hp ht
    refine ⟨?_, ?_, ?_⟩
    · intro hs
      refine ⟨(mem_generateMatchReasons _ _ _).mpr
        (Or.inr ⟨reqBudget, propPrice, hr, hp, ht, Or.inl ⟨hs, rfl⟩⟩), ?_⟩
      intro x hmem
      rcases (mem_generateMatchReasons _ _ _).mp hmem with
        ⟨_, _, _, _, _, ⟨_, h⟩ | ⟨_, _, h⟩⟩ | ⟨rb, pp, hr2, hp2, _, ⟨_, h⟩ | ⟨hn, _, _⟩⟩
      · cases h
      · cases h
      · cases h
      · rw [hr] at hr2
        rw [hp] at hp2
        cases hr2
        cases hp2
        exact hn hs
    · intro hpos hlt
      have hn := not_le_of_lt_num _ _ hlt
      refine ⟨(mem_generateMatchReasons _ _ _).mpr
        (Or.inr ⟨reqBudget, propPrice, hr, hp, ht, Or.inr ⟨hn, hpos, rfl⟩⟩), ?_⟩
      intro x hmem
      rcases (mem_generateMatchReasons _ _ _).mp hmem with
        ⟨_, _, _, _, _, ⟨_, h⟩ | ⟨_, _, h⟩⟩ | ⟨rb, pp, hr2, hp2, _, ⟨hs, _⟩ | ⟨_, _, h⟩⟩
      · cases h
      · cases h
      · rw [hr] at hr2
        rw [hp] at hp2
        cases hr2
        cases hp2
        exact hn hs
      · cases h
    · intro hs x
      constructor
      · intro hmem
        rcases (mem_generateMatchReasons _ _ _).mp hmem with
          ⟨_, _, _, _, _, ⟨_, h⟩ | ⟨_, _, h⟩⟩ | ⟨rb, pp, hr2, hp2, _, ⟨hs2, _⟩ | ⟨_, _, h⟩⟩
        · cases h
        · cases h
        · rw [hr] at hr2
          rw [hp] at hp2
          cases hr2
          cases hp2
          rw [hs] at hs2
          exact hzero8 hs2
        · cases h
      · intro hmem
        rcases (mem_generateMatchReasons _ _ _).mp hmem with
          ⟨_, _, _, _, _, ⟨_, h⟩ | ⟨_, _, h⟩⟩ | ⟨rb, pp, hr2, hp2, _, ⟨_, h⟩ | ⟨_, hpos, _⟩⟩
        · cases h
        · cases h
        · cases h
        · rw [hr] at hr2
          rw [hp] at hp2
          cases hr2
          cases hp2
          rw [hs] at hpos
          exact hzero0 hpos
  · intro reqType reqSize propType propSize
    rfl
/-- The sample budget of 1,000,000 EGP against a price of 1,150,000 EGP scores 0.6. -/
theorem sample_budget_near :
    calculateBudgetMatch ⟨.fin 1000000, "EGP", "budget 1,000,000 egp"⟩ (.fin 1150000) =
      .fin (6 / 10) := by
  simp only [calculateBudgetMatch, JSNum.fin_le_fin, JSNum.fin_sub_fin,
    JSNum.fin_div_fin _ (by norm_num : (1000000 : ℚ) ≠ 0)]
  norm_num

/-- Witness of C22 on the sample requirement and a sample apartment in Maadi at 1,150,000
EGP: the location scores 1.0 and gets the strong reason, the budget scores 0.6 and gets the
softer one. -/
theorem generateMatchReasons_bands_witness :
    (MatchReason.excellentLocation "Maadi" ∈
        generateMatchReasons sampleRequirements (sampleProperty "p1" "Maadi" 1150000) ∧
      ∀ l, MatchReason.goodLocation l ∉
        generateMatchReasons sampleRequirements (sampleProperty "p1" "Maadi" 1150000)) ∧
    (MatchReason.nearBudget (.fin 1150000) ∈
        generateMatchReasons sampleRequirements (sampleProperty "p1" "Maadi" 1150000) ∧
      ∀ x, MatchReason.withinBudget x ∉
        generateMatchReasons sampleRequirements (sampleProperty "p1" "Maadi" 1150000)) :=
  ⟨((generateMatchReasons_bands sampleRequirements
      (sampleProperty "p1" "Maadi" 1150000)).1 _ _ rfl rfl (by decide)).1
      (by rw [sample_location_same, JSNum.fin_le_fin]; norm_num),
   ((generateMatchReasons_bands sampleRequirements
      (sampleProperty "p1" "Maadi" 1150000)).2.1 _ _ rfl rfl
        (by simp [truthyNum, JSNum.truthy])).2.1
      (by rw [sample_budget_near, JSNum.fin_lt_fin]; norm_num)
      (by rw [sample_budget_near, JSNum.fin_lt_fin]; norm_num)⟩

/-- C27. The reason 'Within budget: <price> EGP' is listed exactly when the requirement
carries a budget, the property a price (other than 0 and NaN) and the budget sub-score is
at least 0.8. That includes properties over the budget: with a budget `b > 0` and a price
`p` with `b < p <= 1.1*b` the list holds 'Within budget' for the price `p`. -/
theorem withinBudget_reason (requirements : Requirements) (property : Property) :
    (∀ x : JSNum, MatchReason.withinBudget x ∈ generateMatchReasons requirements property ↔
      ∃ reqBudget, requirements.budget = some reqBudget ∧ property.price = some x ∧
        truthyNum (some x) = true ∧
        JSNum.fin (8 / 10) ≤ calculateBudgetMatch reqBudget x) ∧
    (∀ (reqBudget : Budget) (b p : ℚ), requirements.budget = some reqBudget →
      reqBudget.amount = .fin b → property.price = some (.fin p) → 0 < b → b < p →
      p ≤ 11 / 10 * b →
      MatchReason.withinBudget (.fin p) ∈ generateMatchReasons requirements property) := by
  have hiff : ∀ x : JSNum,
      MatchReason.withinBudget x ∈ generateMatchReasons requirements property ↔
      ∃ reqBudget, requirements.budget = some reqBudget ∧ property.price = some x ∧
        truthyNum (some x) = true ∧
        JSNum.fin (8 / 10) ≤ calculateBudgetMatch reqBudget x := by
    intro x
    rw [mem_generateMatchReasons]
    constructor
    · rintro (⟨_, _, _, _, _, ⟨_, h⟩ | ⟨_, _, h⟩⟩ | ⟨rb, pp, hr, hp, ht, ⟨hs, h⟩ | ⟨_, _, h⟩⟩)
      · cases h
      · cases h
      · cases h
        exact ⟨rb, hr, hp, ht, hs⟩
      · cases h
    · rintro ⟨rb, hr, hp, ht, hs⟩
      exact Or.inr ⟨rb, x, hr, hp, ht, Or.inl ⟨hs, rfl⟩⟩
  refine ⟨hiff, ?_⟩
  intro reqBudget b p hr hamount hp hb h1 h2
  have hp0 : p ≠ 0 := by
    intro h0
    rw [h0] at h1
    exact absurd h1 (not_lt.mpr (le_of_lt hb))
  refine (hiff (.fin p)).mpr ⟨reqBudget, hr, hp, ?_, ?_⟩
  · simp [truthyNum, JSNum.truthy, hp0]
  · rw [calculateBudgetMatch_over reqBudget b p hb hamount h1 h2]
    exact le_refl_of_fin_le _ _ (by rw [JSNum.fin_le_fin])

/-- Witness of C27 on the sample requirement (budget 1,000,000 EGP): a property priced
1,050,000 EGP, over the budget, is reported as 'Within budget'. -/
theorem withinBudget_reason_witness :
    (1000000 : ℚ) < 1050000 ∧
    MatchReason.withinBudget (.fin 1050000) ∈
      generateMatchReasons sampleRequirements (sampleProperty "p1" "Giza" 1050000) :=
  ⟨by norm_num,
   (withinBudget_reason sampleRequirements (sampleProperty "p1" "Giza" 1050000)).2 _
     1000000 1050000 rfl rfl rfl (by norm_num) (by norm_num) (by norm_num)⟩

/-! ## Recommended action of a returned match -/

/-- A score that reaches the threshold 0.75 gets one of the three contact actions. -/
theorem getRecommendedAction_of_threshold (score : JSNum) (h : matchingThreshold ≤ score) :
    getRecommendedAction score = .IMMEDIATE_CONTACT ∨
    getRecommendedAction score = .SCHEDULE_VIEWING ∨
    getRecommendedAction score = .PRESENT_OPTION := by
  rcases fin_le_cases _ _ h with ⟨q, rfl, hq⟩ | rfl
  · simp only [getRecommendedAction, JSNum.fin_le_fin]
    split_ifs with h1 h2 h3
    · exact Or.inl rfl
    · exact Or.inr (Or.inl rfl)
    · exact Or.inr (Or.inr rfl)
    · exact absurd (le_trans (by norm_num) hq) h3
  · left
    rw [getRecommendedAction, if_pos]
    exact True.intro

/-- C30. With the threshold 0.75 every match returned by `findMatchingProperties` carries
a score of at least 0.75 and the action computed from it, which is IMMEDIATE_CONTACT,
SCHEDULE_VIEWING or PRESENT_OPTION and never COLLECT_MORE_INFO, whatever the requirement
and the inventory. -/
theorem findMatchingProperties_actions (s : AIProcessor) (requirements : Requirements)
    (fetched : Option (List Property)) (m : Match)
    (h : m ∈ (findMatchingProperties s requirements fetched).2) :
    matchingThreshold ≤ m.matchScore ∧
    m.recommendedAction = getRecommendedAction m.matchScore ∧
    (m.recommendedAction = .IMMEDIATE_CONTACT ∨ m.recommendedAction = .SCHEDULE_VIEWING ∨
      m.recommendedAction = .PRESENT_OPTION) ∧
    m.recommendedAction ≠ .COLLECT_MORE_INFO := by
  have hsame : (findMatchingProperties s requirements fetched).2 =
      matchesOver (findMatchingProperties s requirements fetched).1.propertyInventory
        requirements := rfl
  rw [hsame] at h
  obtain ⟨x, _, rfl, hthr⟩ := mem_matchesOver _ _ _ h
  have hact := getRecommendedAction_of_threshold _ hthr
  refine ⟨hthr, rfl, hact, ?_⟩
  intro hbad
  have hbad2 : getRecommendedAction (makeMatch requirements x).matchScore =
      .COLLECT_MORE_INFO := hbad
  rw [hbad2] at hact
  rcases hact with h1 | h1 | h1 <;> cases h1

/-- Witness of C30: the sample apartment `p1` scores 0.9 for the sample requirement, is
returned, and carries a contact action. -/
theorem findMatchingProperties_actions_witness :
    makeMatch sampleRequirements ("p1", sampleProperty "p1" "Maadi" 620000) ∈
      (findMatchingProperties singleProcessor sampleRequirements none).2 ∧
    (makeMatch sampleRequirements ("p1", sampleProperty "p1" "Maadi" 620000)).recommendedAction
      ≠ .COLLECT_MORE_INFO :=
  have hmem : makeMatch sampleRequirements ("p1", sampleProperty "p1" "Maadi" 620000) ∈
      (findMatchingProperties singleProcessor sampleRequirements none).2 := by
    rw [findMatchingProperties_of_ne_nil singleProcessor sampleRequirements none
      (by simp [singleProcessor])]
    refine mem_matchesOver_of_few _ _ _ (by simp [singleProcessor])
      (List.mem_singleton.mpr rfl) ?_ ?_
    · rw [p1_score, matchingThreshold, JSNum.fin_le_fin]
      norm_num
    · exact lt_of_le_of_lt (List.length_filter_le _ _) (by simp [singleProcessor])
  ⟨hmem, (findMatchingProperties_actions _ _ _ _ hmem).2.2.2⟩
/-! ## Validation of inventory records -/

/-- C21, as stated, fails. A property with an empty id, a negative price and a size of zero
is added to an empty inventory: nothing rejects it, and the inventory holds it afterwards. -/
theorem addProperty_invalid_stored :
    invalidProperty.id = "" ∧ invalidProperty.price = some (.fin (-1)) ∧
    invalidProperty.size = some (.fin 0) ∧
    (addPropertyToInventory emptyProcessor invalidProperty none).propertyInventory =
      [("", invalidProperty)] ∧
    (addPropertyToInventory emptyProcessor invalidProperty none).propertyInventory ≠
      emptyProcessor.propertyInventory := by
  refine ⟨rfl, rfl, rfl, rfl, ?_⟩
  intro h
  have h2 : (addPropertyToInventory emptyProcessor invalidProperty none).propertyInventory =
      [("", invalidProperty)] := rfl
  rw [h2] at h
  exact absurd h (List.cons_ne_nil _ _)

/-- C21, amended. For every inventory state and every property, whatever its id, price and
size, `addPropertyToInventory` rejects nothing: the property is written under its id, and
afterwards the inventory answers it for that id and lists it. -/
theorem addProperty_stores_any (s : AIProcessor) (property : Property)
    (fetched : Option (List Property)) :
    (addPropertyToInventory s property fetched).propertyInventory =
      mapSet s.propertyInventory property.id property ∧
    mapGet (addPropertyToInventory s property fetched).propertyInventory property.id =
      some property ∧
    property ∈ getAllPropertyInventory (addPropertyToInventory s property fetched) := by
  have h := (addPropertyToInventory_spec s property fetched).1
  refine ⟨h, ?_, ?_⟩
  · rw [h]
    exact mapGet_mapSet_self _ _ _
  · rw [getAllPropertyInventory, h]
    exact List.mem_map.mpr ⟨(property.id, property), mem_mapSet_self _ _ _, rfl⟩

/-! ## Bedroom and bathroom counts -/

/-- The fields `bedrooms` and `bathrooms` of the object built by
`extractCustomerRequirements` keep their initial `null`, whatever the helpers answer. -/
theorem extract_rooms_unset (e : Extraction) (now : Nat) :
    (extractCustomerRequirements e now).bedrooms = none ∧
    (extractCustomerRequirements e now).bathrooms = none := by
  obtain ⟨budgetMatch, locationMatch, typeMatch, sizeMatch, intentMatch, sentiment,
    urgency⟩ := e
  cases budgetMatch <;> cases locationMatch <;> cases typeMatch <;> cases sizeMatch <;>
    cases intentMatch <;> exact ⟨rfl, rfl⟩

/-- C24. For the message "3 bed apartment" the requirement returned by
`extractCustomerRequirements` carries no bedroom count, where the specification promises
the count 3. The rule library holds the pattern
`(\d+)\s*(bed|bedroom|br)\s*(apartment|flat|villa)`, which matches the message with the
count "3" as its first group, and the requirement is built with a field `bedrooms`; but
`extractPropertyType` answers on the first pattern of its list, the bare type word
"apartment", and no statement assigns `bedrooms`. -/
theorem extract_three_bed (now : Nat) :
    (extractCustomerRequirements (runHelpers "3 bed apartment") now).bedrooms = none ∧
    (extractCustomerRequirements (runHelpers "3 bed apartment") now).propertyType.map
      (fun t => t.type) = some "apartment" ∧
    ((leadExtractionRules.propertyType.drop 1).head?.bind (fun pattern =>
      regexMatch true pattern "3 bed apartment".toList)).map
        (fun m => (m.whole, m.group 1)) = some ("3 bed apartment".toList, "3".toList) := by
  refine ⟨(extract_rooms_unset _ _).1, ?_, by decide⟩
  rw [(extract_fields _ _).2.2.1]
  show (extractPropertyType "3 bed apartment").map (fun t => t.type) = some "apartment"
  decide

/-! ## The keyword 'invest' inside 'investment' -/

/-- A text that contains "investment" contains "invest". -/
theorem includes_invest (text : List Char)
    (h : includes text "investment".toList = true) :
    includes text "invest".toList = true := by
  rw [includes_iff] at h ⊢
  exact List.IsInfix.trans ⟨[], "ment".toList, rfl⟩ h

/-- C28. For every message whose lower-cased text contains "investment", `classifyIntent`
returns BUY, on a keyword of BUY: 'invest' is contained as well and BUY is tested first.
INVEST is returned only for a message that contains 'roi', 'return', 'profit' or
'portfolio' and no keyword of BUY, RENT or SELL. -/
theorem classifyIntent_investment (message : String) :
    (includes (toLowerCase message) "investment".toList = true →
      ∃ i : Intent, classifyIntent message = some i ∧ i.intent = .BUY ∧
        i.keyword ∈ keywordsOf .BUY) ∧
    (∀ i : Intent, classifyIntent message = some i → i.intent = .INVEST →
      (includes (toLowerCase message) "roi".toList = true ∨
        includes (toLowerCase message) "return".toList = true ∨
        includes (toLowerCase message) "profit".toList = true ∨
        includes (toLowerCase message) "portfolio".toList = true) ∧
      includes (toLowerCase message) "investment".toList = false ∧
      categoryContained message .BUY = false ∧ categoryContained message .RENT = false ∧
      categoryContained message .SELL = false) := by
  have hfirst : (classifyIntent message).map (fun i => i.intent) =
      [IntentCategory.BUY, .RENT, .SELL, .INVEST].find? (categoryContained message) := by
    rw [classifyIntent, categoryLoop_intent]
    simp only [intentCategories, List.find?_cons, List.find?_nil, categoryContained,
      keywordsOf]
    generalize (["buy", "purchase", "invest", "own", "ownership"] : List String).any
      (fun keyword => includes (toLowerCase message) keyword.toList) = b1
    generalize (["rent", "lease", "rental", "monthly", "tenant"] : List String).any
      (fun keyword => includes (toLowerCase message) keyword.toList) = b2
    generalize (["sell", "selling", "market", "list", "offer"] : List String).any
      (fun keyword => includes (toLowerCase message) keyword.toList) = b3
    generalize (["investment", "roi", "return", "profit", "portfolio"] : List String).any
      (fun keyword => includes (toLowerCase message) keyword.toList) = b4
    cases b1 <;> cases b2 <;> cases b3 <;> cases b4 <;> rfl
  have hbuy : includes (toLowerCase message) "investment".toList = true →
      categoryContained message .BUY = true := by
    intro h
    have h2 := includes_invest _ h
    simp only [categoryContained, keywordsOf, List.any_cons, List.any_nil, h2, Bool.true_or,
      Bool.or_true]
  constructor
  · intro h
    have hb := hbuy h
    rw [List.find?_cons, hb] at hfirst
    cases hc : classifyIntent message with
    | none =>
      rw [hc] at hfirst
      exact absurd hfirst (by simp)
    | some i =>
      rw [hc] at hfirst
      have hi : i.intent = .BUY := by simpa using hfirst
      have hk := (categoryLoop_keyword (toLowerCase message) intentCategories i hc).1
      obtain ⟨entry, hentry, h1, h2⟩ := hk
      refine ⟨i, rfl, hi, ?_⟩
      rw [hi] at h1
      simp only [intentCategories, List.mem_cons, List.mem_singleton, List.not_mem_nil,
        or_false] at hentry
      rcases hentry with rfl | rfl | rfl | rfl
      · exact h2
      · exact absurd h1 (by decide)
      · exact absurd h1 (by decide)
      · exact absurd h1 (by decide)
  · intro i hc hi
    rw [hc] at hfirst
    simp only [Option.map_some', hi] at hfirst
    cases h1 : categoryContained message .BUY with
    | true =>
      rw [List.find?_cons, h1] at hfirst
      exact absurd hfirst (by simp)
    | false =>
      cases h2 : categoryContained message .RENT with
      | true =>
        rw [List.find?_cons, h1, List.find?_cons, h2] at hfirst
        exact absurd hfirst (by simp)
      | false =>
        cases h3 : categoryContained message .SELL with
        | true =>
          rw [List.find?_cons, h1, List.find?_cons, h2, List.find?_cons, h3] at hfirst
          exact absurd hfirst (by simp)
        | false =>
          cases h4 : categoryContained message .INVEST with
          | false =>
            rw [List.find?_cons, h1, List.find?_cons, h2, List.find?_cons, h3,
              List.find?_cons, h4] at hfirst
            exact absurd hfirst (by simp)
          | true =>
            have hno : includes (toLowerCase message) "investment".toList = false := by
              cases hinv : includes (toLowerCase message) "investment".toList with
              | false => rfl
              | true =>
                rw [hbuy hinv] at h1
                exact absurd h1 (by decide)
            refine ⟨?_, hno, rfl, rfl, rfl⟩
            simp only [categoryContained, keywordsOf, List.any_cons, List.any_nil, hno,
              Bool.false_or, Bool.or_false, Bool.or_eq_true] at h4
            rcases h4 with h | h | h | h
            · exact Or.inl h
            · exact Or.inr (Or.inl h)
            · exact Or.inr (Or.inr (Or.inl h))
            · exact Or.inr (Or.inr (Or.inr h))

/-- Witness of C28: "a good investment" is classified BUY; "what is the roi" is classified
INVEST and contains 'roi'. -/
theorem classifyIntent_investment_witness :
    (∃ i : Intent, classifyIntent "a good investment" = some i ∧ i.intent = .BUY ∧
      i.keyword ∈ keywordsOf .BUY) ∧
    (classifyIntent "what is the roi").map (fun i => i.intent) = some .INVEST ∧
    categoryContained "what is the roi" .BUY = false :=
  ⟨(classifyIntent_investment "a good investment").1 (by decide),
   by decide,
   ((classifyIntent_investment "what is the roi").2
      ⟨.INVEST, .fin (8 / 10), "roi"⟩ rfl rfl).2.2.1⟩
/-! ## What a match reads and what it captures -/

/-- A relation between the state before and a state after that every single step keeps,
and that is reflexive and transitive, holds across a repetition. -/
theorem repeatMatcher_relates (R : MatchState → MatchState → Prop) (hrefl : ∀ s, R s s)
    (htrans : ∀ a b c, R a b → R b c → R a c)
    (step : MatchState → List MatchState) (greedy : Bool)
    (hstep : ∀ s s', s' ∈ step s → R s s') :
    ∀ (fuel min : Nat) (max : Option Nat) (s s' : MatchState),
      s' ∈ repeatMatcher step greedy fuel min max s → R s s' := by
  intro fuel
  induction fuel with
  | zero =>
    intro min max s s' h
    rw [repeatMatcher] at h
    split_ifs at h
    · rw [List.mem_singleton.mp h]
      exact hrefl s
    · exact absurd h (List.not_mem_nil _)
  | succ n ih =>
    intro min max s s' h
    rw [repeatMatcher] at h
    have hstop : s' ∈ (if min = 0 then [s] else []) → R s s' := by
      intro hs
      split_ifs at hs
      · rw [List.mem_singleton.mp hs]
        exact hrefl s
      · exact absurd hs (List.not_mem_nil _)
    have hmore : s' ∈ (step s).flatMap (fun t =>
          if min = 0 ∧ t.rest.length = s.rest.length then []
          else repeatMatcher step greedy n (min - 1) (max.map (fun k => k - 1)) t) →
        R s s' := by
      intro hs
      obtain ⟨t, ht, hs2⟩ := List.mem_flatMap.mp hs
      split_ifs at hs2
      · exact absurd hs2 (List.not_mem_nil _)
      · exact htrans _ _ _ (hstep s t ht) (ih _ _ _ _ hs2)
    by_cases hmax : max = some 0
    · rw [if_pos hmax] at h
      rw [List.mem_singleton.mp h]
      exact hrefl s
    · rw [if_neg hmax] at h
      cases greedy with
      | true =>
        rcases List.mem_append.mp h with h | h
        · exact hmore h
        · exact hstop h
      | false =>
        rcases List.mem_append.mp h with h | h
        · exact hstop h
        · exact hmore h

/-- What a pattern leaves to read is a final part of what it was given. -/
theorem matcher_suffix (ignoreCase : Bool) (re : Regex) :
    ∀ s s' : MatchState, s' ∈ matcher ignoreCase re s → s'.rest <:+ s.rest := by
  induction re with
  | eps =>
    intro s s' h
    rw [matcher, List.mem_singleton] at h
    rw [h]
  | cls items =>
    intro s s' h
    rw [matcher] at h
    split at h
    · next c cs hrest =>
      split_ifs at h
      · rw [List.mem_singleton.mp h, hrest]
        exact List.suffix_cons c cs
      · exact absurd h (List.not_mem_nil _)
    · exact absurd h (List.not_mem_nil _)
  | seq a b iha ihb =>
    intro s s' h
    rw [matcher] at h
    obtain ⟨t, ht, hs'⟩ := List.mem_flatMap.mp h
    exact List.IsSuffix.trans (ihb _ _ hs') (iha _ _ ht)
  | alt a b iha ihb =>
    intro s s' h
    rw [matcher] at h
    rcases List.mem_append.mp h with h | h
    · exact iha _ _ h
    · exact ihb _ _ h
  | rep a min max greedy iha =>
    intro s s' h
    rw [matcher] at h
    exact repeatMatcher_relates (fun s s' => s'.rest <:+ s.rest)
      (fun s => List.suffix_refl _) (fun _ _ _ h1 h2 => List.IsSuffix.trans h2 h1)
      _ greedy iha _ _ _ _ _ h
  | group index a iha =>
    intro s s' h
    rw [matcher] at h
    obtain ⟨t, ht, rfl⟩ := List.mem_map.mp h
    exact iha s t ht

/-- A pattern without a capturing group leaves the captures as they were. -/
theorem matcher_captures (ignoreCase : Bool) (re : Regex) (hfree : re.groupFree = true) :
    ∀ s s' : MatchState, s' ∈ matcher ignoreCase re s → s'.captures = s.captures := by
  induction re with
  | eps =>
    intro s s' h
    rw [matcher, List.mem_singleton] at h
    rw [h]
  | cls items =>
    intro s s' h
    rw [matcher] at h
    split at h
    · split_ifs at h
      · rw [List.mem_singleton.mp h]
      · exact absurd h (List.not_mem_nil _)
    · exact absurd h (List.not_mem_nil _)
  | seq a b iha ihb =>
    intro s s' h
    rw [Regex.groupFree, Bool.and_eq_true] at hfree
    rw [matcher] at h
    obtain ⟨t, ht, hs'⟩ := List.mem_flatMap.mp h
    rw [ihb hfree.2 _ _ hs', iha hfree.1 _ _ ht]
  | alt a b iha ihb =>
    intro s s' h
    rw [Regex.groupFree, Bool.and_eq_true] at hfree
    rw [matcher] at h
    rcases List.mem_append.mp h with h | h
    · exact iha hfree.1 _ _ h
    · exact ihb hfree.2 _ _ h
  | rep a min max greedy iha =>
    intro s s' h
    rw [Regex.groupFree] at hfree
    rw [matcher] at h
    exact repeatMatcher_relates (fun s s' => s'.captures = s.captures)
      (fun s => rfl) (fun _ _ _ h1 h2 => h2.trans h1)
      _ greedy (iha hfree) _ _ _ _ _ h
  | group index a _ =>
    rw [Regex.groupFree] at hfree
    exact absurd hfree (by decide)

/-- The outcomes of a sequence: an outcome of the first pattern, then one of the second. -/
theorem mem_matcher_seq (ignoreCase : Bool) (a b : Regex) (s s' : MatchState) :
    s' ∈ matcher ignoreCase (.seq a b) s ↔
      ∃ t ∈ matcher ignoreCase a s, s' ∈ matcher ignoreCase b t := by
  rw [matcher, List.mem_flatMap]

/-- The outcomes of a group: an outcome of its pattern, with the text read put in front of
the captures. -/
theorem mem_matcher_group (ignoreCase : Bool) (index : Nat) (a : Regex) (s s' : MatchState) :
    s' ∈ matcher ignoreCase (.group index a) s ↔
      ∃ t ∈ matcher ignoreCase a s,
        s' = ⟨t.rest, (index, s.rest.take (s.rest.length - t.rest.length)) :: t.captures⟩ := by
  rw [matcher, List.mem_map]
  constructor
  · rintro ⟨t, ht, h⟩
    exact ⟨t, ht, h.symm⟩
  · rintro ⟨t, ht, h⟩
    exact ⟨t, ht, h.symm⟩

/-- The outcome of a class: the first character belongs to it and is read. -/
theorem mem_matcher_cls (ignoreCase : Bool) (items : List ClassItem) (s s' : MatchState)
    (h : s' ∈ matcher ignoreCase (.cls items) s) :
    ∃ c cs, s.rest = c :: cs ∧ items.any (ClassItem.test ignoreCase c) = true ∧
      s' = ⟨cs, s.captures⟩ := by
  rw [matcher] at h
  split at h
  · next c cs hrest =>
    split_ifs at h with hany
    · exact ⟨c, cs, hrest, hany, List.mem_singleton.mp h⟩
    · exact absurd h (List.not_mem_nil _)
  · exact absurd h (List.not_mem_nil _)

/-- A match of `match` comes from an outcome of the pattern at some final part of the
input, and carries the captures of that outcome. -/
theorem regexMatch_some (ignoreCase : Bool) (re : Regex) (cs : List Char) (m : RegExpMatch)
    (h : regexMatch ignoreCase re cs = some m) :
    ∃ start s', start <:+ cs ∧ s' ∈ matcher ignoreCase re ⟨start, []⟩ ∧
      m.captures = s'.captures := by
  induction cs with
  | nil =>
    rw [regexMatch] at h
    split at h
    · next s' rest hm =>
      cases h
      exact ⟨[], s', List.suffix_refl _, by rw [hm]; exact List.mem_cons_self _ _, rfl⟩
    · cases h
  | cons c cs ih =>
    rw [regexMatch] at h
    split at h
    · next s' rest hm =>
      cases h
      exact ⟨c :: cs, s', List.suffix_refl _, by rw [hm]; exact List.mem_cons_self _ _, rfl⟩
    · obtain ⟨start, s', h1, h2, h3⟩ := ih h
      exact ⟨start, s', List.IsSuffix.trans h1 (List.suffix_cons c cs), h2, h3⟩
/-! ## What every budget match holds -/

/-- A character whose lower case is a Latin letter is a Latin letter. -/
theorem isAlpha_of_toLower (c x : Char) (hx : x.isAlpha = true) (h : c.toLower = x) :
    c.isAlpha = true := by
  unfold Char.toLower at h
  simp only [] at h
  split_ifs at h with hc
  · have h1 : c.isUpper = true := by
      simp only [Char.isUpper, Bool.and_eq_true, decide_eq_true_eq]
      exact hc
    simp [Char.isAlpha, h1]
  · rw [h]
    exact hx

/-- A digit is not a comma. -/
theorem ne_comma_of_isDigit (d : Char) (h : d.isDigit = true) : (d != ',') = true := by
  cases hd : (d != ',') with
  | true => rfl
  | false =>
    have : d = ',' := by simpa using hd
    subst this
    exact absurd h (by decide)

/-- A literal reads its first character first, up to the case of letters. -/
theorem lit_reads (w : String) (c0 : Char) (cs0 : List Char) (hw : w.toList = c0 :: cs0)
    (s s' : MatchState) (h : s' ∈ matcher true (Regex.lit w) s) :
    ∃ c r, s.rest = c :: r ∧ c.toLower = c0.toLower := by
  rw [Regex.lit, hw, List.foldr_cons, mem_matcher_seq] at h
  obtain ⟨t, ht, _⟩ := h
  obtain ⟨c, cs, hrest, hany, _⟩ := mem_matcher_cls _ _ _ _ ht
  refine ⟨c, cs, hrest, ?_⟩
  simpa [ClassItem.test] using hany

/-- The sub-pattern for the unit reads a Latin letter first. -/
theorem unit_reads_letter (s s' : MatchState) (h : s' ∈ matcher true unitPattern s) :
    ∃ c r, s.rest = c :: r ∧ c.isAlpha = true := by
  simp only [unitPattern, Regex.alts] at h
  rw [matcher, List.mem_append, matcher, List.mem_append, matcher, List.mem_append, matcher,
    List.mem_append, matcher, List.mem_append] at h
  rcases h with h | h | h | h | h | h
  · obtain ⟨c, r, h1, h2⟩ := lit_reads "egp" 'e' _ rfl s s' h
    exact ⟨c, r, h1, isAlpha_of_toLower c _ (by decide) h2⟩
  · obtain ⟨c, r, h1, h2⟩ := lit_reads "le" 'l' _ rfl s s' h
    exact ⟨c, r, h1, isAlpha_of_toLower c _ (by decide) h2⟩
  · obtain ⟨c, r, h1, h2⟩ := lit_reads "pound" 'p' _ rfl s s' h
    exact ⟨c, r, h1, isAlpha_of_toLower c _ (by decide) h2⟩
  · obtain ⟨c, r, h1, h2⟩ := lit_reads "million" 'm' _ rfl s s' h
    exact ⟨c, r, h1, isAlpha_of_toLower c _ (by decide) h2⟩
  · obtain ⟨c, r, h1, h2⟩ := lit_reads "k" 'k' _ rfl s s' h
    exact ⟨c, r, h1, isAlpha_of_toLower c _ (by decide) h2⟩
  · obtain ⟨c, r, h1, h2⟩ := lit_reads "thousand" 't' _ rfl s s' h
    exact ⟨c, r, h1, isAlpha_of_toLower c _ (by decide) h2⟩

/-- The sub-pattern for the amount reads a digit first and captures nothing. -/
theorem amount_reads_digit (s s' : MatchState) (h : s' ∈ matcher true amountPattern s) :
    ∃ d r, s.rest = d :: r ∧ d.isDigit = true ∧ s'.rest <:+ r ∧ s'.captures = s.captures := by
  have hcap := matcher_captures true amountPattern (by decide) s s' h
  simp only [amountPattern, Regex.seqs, List.foldr_cons] at h
  rw [mem_matcher_seq] at h
  obtain ⟨t, ht, hrest⟩ := h
  have hsuffix := matcher_suffix _ _ _ _ hrest
  rw [Regex.times, matcher, repeatMatcher] at ht
  simp only [Option.some.injEq, OfNat.ofNat_ne_zero, if_false, one_ne_zero, false_and,
    if_true, List.append_nil] at ht
  obtain ⟨sd, hsd, ht2⟩ := List.mem_flatMap.mp ht
  obtain ⟨d, r, hd1, hd2, hd3⟩ := mem_matcher_cls _ _ _ _ hsd
  have hdigit : d.isDigit = true := by simpa [ClassItem.test] using hd2
  have ht3 := repeatMatcher_relates (fun s s' => s'.rest <:+ s.rest)
    (fun s => List.suffix_refl _) (fun _ _ _ h1 h2 => List.IsSuffix.trans h2 h1)
    _ true (matcher_suffix true Regex.digit) _ _ _ _ _ ht2
  rw [hd3] at ht3
  exact ⟨d, r, hd1, hdigit, List.IsSuffix.trans hsuffix ht3, hcap⟩
/-- What a budget pattern that starts with a keyword reads and captures: the amount, which
becomes the first group, then the unit, which becomes the second. -/
theorem keywordBudget_parts (keyword : Regex) (hfree : keyword.groupFree = true)
    (s s' : MatchState) (hs : s.captures = [])
    (h : s' ∈ matcher true (keywordBudgetPattern keyword) s) :
    ∃ s2 s3 s4 s5 : MatchState,
      s2.rest <:+ s.rest ∧ s3 ∈ matcher true amountPattern s2 ∧
      s4.rest <:+ s3.rest ∧ s5 ∈ matcher true unitPattern s4 ∧
      s'.captures = [(2, s4.rest.take (s4.rest.length - s5.rest.length)),
        (1, s2.rest.take (s2.rest.length - s3.rest.length))] := by
  simp only [keywordBudgetPattern, Regex.seqs, List.foldr_cons, List.foldr_nil] at h
  rw [mem_matcher_seq] at h
  obtain ⟨s1, h1, h⟩ := h
  rw [mem_matcher_seq] at h
  obtain ⟨s2, h2, h⟩ := h
  rw [mem_matcher_seq] at h
  obtain ⟨g1, hg1, h⟩ := h
  rw [mem_matcher_group] at hg1
  obtain ⟨s3, h3, rfl⟩ := hg1
  rw [mem_matcher_seq] at h
  obtain ⟨s4, h4, h⟩ := h
  rw [mem_matcher_seq] at h
  obtain ⟨g2, hg2, h⟩ := h
  rw [mem_matcher_group] at hg2
  obtain ⟨s5, h5, rfl⟩ := hg2
  rw [matcher, List.mem_singleton] at h
  subst h
  have c1 := matcher_captures true keyword hfree _ _ h1
  have c2 := matcher_captures true _ (by decide) _ _ h2
  have c3 := matcher_captures true amountPattern (by decide) _ _ h3
  have c4 := matcher_captures true _ (by decide) _ _ h4
  have c5 := matcher_captures true unitPattern (by decide) _ _ h5
  have h4s := matcher_suffix _ _ _ _ h4
  refine ⟨s2, s3, s4, s5,
    List.IsSuffix.trans (matcher_suffix _ _ _ _ h2) (matcher_suffix _ _ _ _ h1), h3,
    h4s, h5, ?_⟩
  simp only [c5, c4, c3, c2, c1, hs]

/-- What the budget pattern with the keyword behind the unit reads and captures. -/
theorem trailingBudget_parts (s s' : MatchState) (hs : s.captures = [])
    (h : s' ∈ matcher true (Regex.seqs [.group 1 amountPattern, Regex.star Regex.space,
      .group 2 unitPattern, Regex.star Regex.space, Regex.lit "budget"]) s) :
    ∃ s2 s3 s4 s5 : MatchState,
      s2.rest <:+ s.rest ∧ s3 ∈ matcher true amountPattern s2 ∧
      s4.rest <:+ s3.rest ∧ s5 ∈ matcher true unitPattern s4 ∧
      s'.captures = [(2, s4.rest.take (s4.rest.length - s5.rest.length)),
        (1, s2.rest.take (s2.rest.length - s3.rest.length))] := by
  simp only [Regex.seqs, List.foldr_cons, List.foldr_nil] at h
  rw [mem_matcher_seq] at h
  obtain ⟨g1, hg1, h⟩ := h
  rw [mem_matcher_group] at hg1
  obtain ⟨s3, h3, rfl⟩ := hg1
  rw [mem_matcher_seq] at h
  obtain ⟨s4, h4, h⟩ := h
  rw [mem_matcher_seq] at h
  obtain ⟨g2, hg2, h⟩ := h
  rw [mem_matcher_group] at hg2
  obtain ⟨s5, h5, rfl⟩ := hg2
  rw [mem_matcher_seq] at h
  obtain ⟨s6, h6, h⟩ := h
  rw [mem_matcher_seq] at h
  obtain ⟨s7, h7, h⟩ := h
  rw [matcher, List.mem_singleton] at h
  subst h
  have c3 := matcher_captures true amountPattern (by decide) _ _ h3
  have c4 := matcher_captures true _ (by decide) _ _ h4
  have c5 := matcher_captures true unitPattern (by decide) _ _ h5
  have c6 := matcher_captures true _ (by decide) _ _ h6
  have c7 := matcher_captures true _ (by decide) _ _ h7
  have h4s := matcher_suffix _ _ _ _ h4
  refine ⟨s, s3, s4, s5, List.suffix_refl _, h3, h4s, h5, ?_⟩
  simp only [c7, c6, c5, c4, c3, hs]

/-- What each of the five budget patterns reads and captures. -/
theorem budget_parts (pattern : Regex) (hp : pattern ∈ leadExtractionRules.budget)
    (s s' : MatchState) (hs : s.captures = []) (h : s' ∈ matcher true pattern s) :
    ∃ s2 s3 s4 s5 : MatchState,
      s2.rest <:+ s.rest ∧ s3 ∈ matcher true amountPattern s2 ∧
      s4.rest <:+ s3.rest ∧ s5 ∈ matcher true unitPattern s4 ∧
      s'.captures = [(2, s4.rest.take (s4.rest.length - s5.rest.length)),
        (1, s2.rest.take (s2.rest.length - s3.rest.length))] := by
  simp only [leadExtractionRules, List.mem_cons, List.mem_singleton, List.not_mem_nil,
    or_false] at hp
  rcases hp with rfl | rfl | rfl | rfl | rfl
  · exact keywordBudget_parts _ (by decide) s s' hs h
  · exact trailingBudget_parts s s' hs h
  · exact keywordBudget_parts _ (by decide) s s' hs h
  · exact keywordBudget_parts _ (by decide) s s' hs h
  · exact keywordBudget_parts _ (by decide) s s' hs h

/-- Whatever budget pattern matches a message, the first group starts with a digit and a
Latin letter stands in the message. -/
theorem budget_match_holds (pattern : Regex) (hp : pattern ∈ leadExtractionRules.budget)
    (cs : List Char) (m : RegExpMatch) (h : regexMatch true pattern cs = some m) :
    (∃ d r, m.group 1 = d :: r ∧ d.isDigit = true) ∧ ∃ c ∈ cs, c.isAlpha = true := by
  obtain ⟨start, s', hstart, hs', hcap⟩ := regexMatch_some _ _ _ _ h
  obtain ⟨s2, s3, s4, s5, h2, h3, h4, h5, hc⟩ := budget_parts pattern hp ⟨start, []⟩ s' rfl hs'
  obtain ⟨d, r, hd1, hd2, hd3, _⟩ := amount_reads_digit _ _ h3
  obtain ⟨c, r', hc1, hc2⟩ := unit_reads_letter _ _ h5
  constructor
  · have hlen : s3.rest.length ≤ r.length := List.IsSuffix.length_le hd3
    have htake : s2.rest.take (s2.rest.length - s3.rest.length) =
        d :: r.take (r.length - s3.rest.length) := by
      rw [hd1, List.length_cons, Nat.succ_sub hlen, List.take_succ_cons]
    refine ⟨d, r.take (r.length - s3.rest.length), ?_, hd2⟩
    rw [RegExpMatch.group, RegExpMatch.group?, hcap, hc, htake]
    rfl
  · refine ⟨c, ?_, hc2⟩
    have hmem : c ∈ s4.rest := by
      rw [hc1]
      exact List.mem_cons_self _ _
    have h6 : s4.rest <:+ cs :=
      List.IsSuffix.trans h4 (List.IsSuffix.trans (matcher_suffix _ _ _ _ h3)
        (List.IsSuffix.trans h2 hstart))
    exact h6.subset hmem
/-- A numeral that starts with a digit parses, once the commas are removed, to a number
that is not negative: zero, a positive number or `Infinity`, never `NaN`. -/
theorem parseFloat_nonneg (d : Char) (r : List Char) (hd : d.isDigit = true) :
    JSNum.fin 0 ≤ parseFloat ((d :: r).filter (fun c => c != ',')) := by
  have hfilter : (d :: r).filter (fun c => c != ',') =
      d :: r.filter (fun c => c != ',') :=
    List.filter_cons_of_pos (ne_comma_of_isDigit d hd)
  have hw : (d :: r.filter (fun c => c != ',')).takeWhile Char.isDigit =
      d :: (r.filter (fun c => c != ',')).takeWhile Char.isDigit :=
    List.takeWhile_cons_of_pos hd
  rw [hfilter, parseFloat_eq _ _ _ hw rfl rfl]
  exact roundDouble_nonneg _ (by positivity)

/-- The conversion to EGP keeps a number that is not negative not negative: a finite
amount stays finite, `Infinity` stays `Infinity`. -/
theorem convertToEGP_nonneg (x : JSNum) (unit : List Char) (hx : JSNum.fin 0 ≤ x) :
    (∃ q : ℚ, convertToEGP x unit = .fin q ∧ 0 ≤ q) ∨ convertToEGP x unit = .posInf := by
  rw [convertToEGP]
  rcases fin_le_cases _ _ hx with ⟨q, rfl, hq⟩ | rfl
  · left
    split_ifs
    · exact ⟨q * 1000000, rfl, by positivity⟩
    · exact ⟨q * 1000, rfl, by positivity⟩
    · exact ⟨q, rfl, hq⟩
  · right
    split_ifs <;> rfl

/-- A budget answered by `extractBudget` comes from a match of one of the five budget
patterns. -/
theorem extractBudget_some (message : String) (b : Budget)
    (h : extractBudget message = some b) :
    ∃ pattern ∈ leadExtractionRules.budget, ∃ m : RegExpMatch,
      regexMatch true pattern message.toList = some m ∧
      b = { amount := convertToEGP (parseFloat ((m.group 1).filter (fun c => c != ',')))
              (toLowerCase (String.mk (m.group 2))),
            currency := "EGP", raw := String.mk m.whole } := by
  rw [extractBudget] at h
  obtain ⟨pattern, hp, hpm⟩ := List.exists_of_findSome?_eq_some h
  cases hm : regexMatch true pattern message.toList with
  | none =>
    rw [hm] at hpm
    exact absurd hpm (by simp)
  | some m =>
    rw [hm] at hpm
    simp only [Option.map_some', Option.some.injEq] at hpm
    exact ⟨pattern, hp, m, hm, hpm.symm⟩

/-- C23, as stated, fails: from the message "budget 0 EGP" a budget is extracted whose
amount is 0, which is not positive. -/
theorem extractBudget_zero :
    (extractBudget "budget 0 EGP").map (fun b => b.amount) = some (.fin 0) ∧
    ¬ (JSNum.fin 0).Positive := by
  constructor
  · rw [extractBudget_first "budget 0 EGP" "budget 0 EGP".toList "0".toList "EGP".toList
      "0".toList [] (by decide) (by decide) (by decide) (by decide)]
    rw [convertToEGP, if_neg (by decide), if_neg (by decide)]
    have h1 : parseDigits "0".toList = 0 := by decide
    have h2 : parseDigits [] = 0 := by decide
    rw [h1, h2, show (((0 : ℕ) : ℚ) + ((0 : ℕ) : ℚ) / 10 ^ ([] : List Char).length) =
      0 by norm_num, roundDouble_zero]
  · rintro ⟨q, hq, hpos⟩
    rw [← JSNum.fin.inj hq] at hpos
    exact absurd hpos (lt_irrefl _)

set_option maxRecDepth 1000000 in
set_option exponentiation.threshold 2000 in
/-- The amount of a budget can be `Infinity`: the amount of `longBudgetMessage`, a one
followed by 103 groups of three zeros, is above every finite double. -/
theorem extractBudget_overflow :
    (extractBudget longBudgetMessage).map (fun b => b.amount) = some .posInf := by
  rw [extractBudget_first longBudgetMessage longBudgetMessage.toList
    ("1" ++ String.join (List.replicate 103 ",000")).toList "egp".toList
    ('1' :: List.replicate 309 '0') [] (by decide) (by decide) (by decide) (by decide)]
  rw [convertToEGP, if_neg (by decide), if_neg (by decide)]
  have h1 : 2 ^ 1024 ≤ parseDigits ('1' :: List.replicate 309 '0') := by decide
  have h2 : parseDigits [] = 0 := by decide
  have h3 : (2 : ℚ) ^ (1024 : ℤ) ≤ (parseDigits ('1' :: List.replicate 309 '0') : ℚ) := by
    exact_mod_cast h1
  refine congrArg some (roundDouble_overflow _ ?_)
  rw [h2]
  simpa using h3

/-- C23, amended. For every message from which `extractBudget` extracts a budget, the
currency is "EGP" and the amount is a number that is not negative: zero (for an amount
written with zeros only), a positive number, or `Infinity` (for an amount of so many digit
groups that it has no finite double); it is never negative and never `NaN`. -/
theorem extractBudget_amount_range (message : String) (b : Budget)
    (h : extractBudget message = some b) :
    b.currency = "EGP" ∧ ((∃ q : ℚ, b.amount = .fin q ∧ 0 ≤ q) ∨ b.amount = .posInf) := by
  obtain ⟨pattern, hp, m, hm, rfl⟩ := extractBudget_some message b h
  refine ⟨rfl, ?_⟩
  obtain ⟨⟨d, r, hg, hd⟩, _⟩ := budget_match_holds pattern hp _ m hm
  simp only [hg]
  exact convertToEGP_nonneg _ _ (parseFloat_nonneg d r hd)

/-- Witness of C23: the message "budget 850k" yields a budget, in EGP, with an amount that
is not negative; and the amount of `longBudgetMessage` is `Infinity`. -/
theorem extractBudget_amount_range_witness :
    (∃ b, extractBudget "budget 850k" = some b ∧ b.currency = "EGP" ∧
      ((∃ q : ℚ, b.amount = .fin q ∧ 0 ≤ q) ∨ b.amount = .posInf)) ∧
    (extractBudget longBudgetMessage).map (fun b => b.amount) = some .posInf := by
  refine ⟨?_, extractBudget_overflow⟩
  cases hb : extractBudget "budget 850k" with
  | none =>
    have hsome : (extractBudget "budget 850k").isSome = true := by decide
    rw [hb] at hsome
    exact absurd hsome (by decide)
  | some b => exact ⟨b, rfl, extractBudget_amount_range "budget 850k" b hb⟩

/-! ## Messages in Arabic -/

/-- A message without a Latin letter yields no budget: each budget pattern wants a unit
written in Latin letters. -/
theorem extractBudget_none_of_no_latin (message : String)
    (h : ∀ c ∈ message.toList, c.isAlpha = false) : extractBudget message = none := by
  cases hb : extractBudget message with
  | none => rfl
  | some b =>
    obtain ⟨pattern, hp, m, hm, _⟩ := extractBudget_some message b hb
    obtain ⟨_, c, hc, hc2⟩ := budget_match_holds pattern hp _ m hm
    rw [h c hc] at hc2
    exact absurd hc2 (by decide)

/-- C25. For the message "ميزانية 2 مليون" `extractBudget` returns no budget, where the
specification promises the amount 2,000,000. `extractBudget` reads the list
`patterns.budget` only, whose keywords and units are written in Latin letters. The list
`arabicPatterns.budget`, which the rule library holds under the comment "Arabic patterns
for Egyptian market", is read by no method: its first pattern matches the whole message,
with the amount "2" and the unit "مليون". Nor does the conversion step know the Arabic
units: it leaves the amount 2 next to the unit "مليون" as it is. -/
theorem extractBudget_arabic_example :
    extractBudget "ميزانية 2 مليون" = none ∧
    (arabicBudgetPatterns.head?.bind (fun pattern =>
      regexMatch true pattern "ميزانية 2 مليون".toList)).map
        (fun m => (m.whole, m.group 1, m.group 2)) =
      some ("ميزانية 2 مليون".toList, "2".toList, "مليون".toList) ∧
    convertToEGP (.fin 2) (toLowerCase "مليون") = .fin 2 := by
  refine ⟨by decide, by decide, ?_⟩
  rw [convertToEGP, if_neg (by decide), if_neg (by decide)]

end AIProcessor

/-! ## The match score in double arithmetic -/

/-- In exact arithmetic the score is the score of the exact model. -/
theorem exact_calculateMatchingScore (requirements : Requirements) (property : Property) :
    exactArithmetic.calculateMatchingScore requirements property =
      AIProcessor.calculateMatchingScore requirements property := by
  obtain ⟨intent, budget, location, propertyType, size, bedrooms, bathrooms, contact, urgency,
    sentiment, confidence, extractedAt⟩ := requirements
  obtain ⟨id, title, ptype, plocation, price, psize, pbedrooms, pbathrooms, amenities,
    status⟩ := property
  cases budget <;> cases location <;> cases propertyType <;> cases size <;>
    cases ptype <;> cases plocation <;> cases price <;> cases psize <;> rfl

/-- The four guarded blocks of `calculateMatchingScore`, written with the guard and the
sub-score of each criterion, in any arithmetic. -/
theorem calculateMatchingScore_steps (A : Arithmetic) (requirements : Requirements)
    (property : Property) :
    A.calculateMatchingScore requirements property =
      (let g := Criterion.specified requirements property
       let sc := Criterion.subScoreIn A requirements property
       let acc := A.addCriterion (A.lit 0, A.lit 0) (g .location) (sc .location)
         (Criterion.weightIn A .location)
       let acc := A.addCriterion acc (g .budget) (sc .budget) (Criterion.weightIn A .budget)
       let acc := A.addCriterion acc (g .propertyType) (sc .propertyType)
         (Criterion.weightIn A .propertyType)
       let acc := A.addCriterion acc (g .size) (sc .size) (Criterion.weightIn A .size)
       if A.lit 0 < acc.2 then A.div acc.1 acc.2 else A.lit 0) := by
  obtain ⟨intent, budget, location, propertyType, size, bedrooms, bathrooms, contact, urgency,
    sentiment, confidence, extractedAt⟩ := requirements
  obtain ⟨id, title, ptype, plocation, price, psize, pbedrooms, pbathrooms, amenities,
    status⟩ := property
  cases budget <;> cases location <;> cases propertyType <;> cases size <;>
    cases ptype <;> cases plocation <;> cases price <;> cases psize <;> rfl

/-- The totals of `calculateMatchingScore` are the sums over the criteria specified on both
sides, in any arithmetic whose product does not depend on the order of its factors. -/
theorem calculateMatchingScore_sums (A : Arithmetic) (hcomm : ∀ x y, A.mul x y = A.mul y x)
    (requirements : Requirements) (property : Property) :
    A.calculateMatchingScore requirements property =
      if A.lit 0 < sumIn A ((specifiedCriteria requirements property).map
          (Criterion.weightIn A)) then
        A.div
          (sumIn A ((specifiedCriteria requirements property).map (fun c =>
            A.mul (c.weightIn A) (c.subScoreIn A requirements property))))
          (sumIn A ((specifiedCriteria requirements property).map (Criterion.weightIn A)))
      else A.lit 0 := by
  rw [calculateMatchingScore_steps]
  simp only [specifiedCriteria, List.filter_cons, List.filter_nil]
  generalize Criterion.specified requirements property .location = gl
  generalize Criterion.specified requirements property .budget = gb
  generalize Criterion.specified requirements property .propertyType = gt
  generalize Criterion.specified requirements property .size = gs
  cases gl <;> cases gb <;> cases gt <;> cases gs <;>
    simp only [Arithmetic.addCriterion, sumIn, List.map_cons, List.map_nil, List.foldl_cons,
      List.foldl_nil, if_true, if_false, Bool.false_eq_true,
      hcomm (Criterion.weightIn A .location), hcomm (Criterion.weightIn A .budget),
      hcomm (Criterion.weightIn A .propertyType), hcomm (Criterion.weightIn A .size)]

/-- The product of two numbers does not depend on their order. -/
theorem mul_comm_num (x y : JSNum) : x * y = y * x := by
  cases x <;> cases y <;> first | rfl | exact congrArg JSNum.fin (mul_comm _ _)

/-- A double sum with a term of at least an eighth, the other term being zero or at least
an eighth, is at least an eighth. -/
theorem eighth_le_add (x y : JSNum) (hx : x = .fin 0 ∨ JSNum.fin (1 / 8) ≤ x)
    (hy : JSNum.fin (1 / 8) ≤ y) : JSNum.fin (1 / 8) ≤ doubleArithmetic.add x y := by
  show JSNum.fin (1 / 8) ≤ roundNum (x + y)
  rcases AIProcessor.fin_le_cases _ _ hy with ⟨b, rfl, hb⟩ | rfl
  · rcases hx with rfl | hx
    · rw [JSNum.fin_add_fin]
      exact eighth_le_roundDouble _ (by linarith)
    · rcases AIProcessor.fin_le_cases _ _ hx with ⟨a, rfl, ha⟩ | rfl
      · rw [JSNum.fin_add_fin]
        exact eighth_le_roundDouble _ (by linarith)
      · exact True.intro
  · rcases hx with rfl | hx
    · exact True.intro
    · rcases AIProcessor.fin_le_cases _ _ hx with ⟨a, rfl, ha⟩ | rfl
      · exact True.intro
      · exact True.intro

/-- In double arithmetic each weight is at least an eighth. -/
theorem eighth_le_weight (c : Criterion) :
    JSNum.fin (1 / 8) ≤ Criterion.weightIn doubleArithmetic c := by
  cases c <;> exact eighth_le_roundDouble _ (by norm_num)

/-- In double arithmetic the sum of the weights of some criteria, added to a total that is
zero or at least an eighth, is zero or at least an eighth, and at least an eighth when
there is a criterion. -/
theorem eighth_le_weights (l : List Criterion) :
    ∀ acc : JSNum, (acc = .fin 0 ∨ JSNum.fin (1 / 8) ≤ acc) →
      (l ≠ [] → JSNum.fin (1 / 8) ≤
        (l.map (Criterion.weightIn doubleArithmetic)).foldl doubleArithmetic.add acc) ∧
      ((l.map (Criterion.weightIn doubleArithmetic)).foldl doubleArithmetic.add acc = .fin 0 ∨
        JSNum.fin (1 / 8) ≤
          (l.map (Criterion.weightIn doubleArithmetic)).foldl doubleArithmetic.add acc) := by
  induction l with
  | nil =>
    intro acc hacc
    exact ⟨fun h => absurd rfl h, hacc⟩
  | cons c rest ih =>
    intro acc hacc
    have hstep := eighth_le_add acc _ hacc (eighth_le_weight c)
    rw [List.map_cons, List.foldl_cons]
    have hrest := (ih _ (Or.inr hstep)).2
    have hall : JSNum.fin (1 / 8) ≤ (rest.map (Criterion.weightIn doubleArithmetic)).foldl
        doubleArithmetic.add (doubleArithmetic.add acc (Criterion.weightIn doubleArithmetic c)) := by
      by_cases hr : rest = []
      · rw [hr]
        exact hstep
      · exact (ih _ (Or.inr hstep)).1 hr
    exact ⟨fun _ => hall, Or.inr hall⟩

/-- In double arithmetic the total weight is positive exactly when a criterion is specified
on both sides. -/
theorem totalWeight_pos_iff (l : List Criterion) :
    doubleArithmetic.lit 0 < sumIn doubleArithmetic (l.map (Criterion.weightIn doubleArithmetic))
      ↔ l ≠ [] := by
  have hzero : doubleArithmetic.lit 0 = .fin 0 := roundDouble_zero
  constructor
  · intro h hl
    rw [hl, sumIn, List.map_nil, List.foldl_nil, hzero] at h
    exact absurd h (by rw [JSNum.fin_lt_fin]; exact lt_irrefl _)
  · intro hl
    have h := (eighth_le_weights l (doubleArithmetic.lit 0) (Or.inl hzero)).1 hl
    rw [sumIn, hzero] at *
    rcases AIProcessor.fin_le_cases _ _ h with ⟨a, ha, ha2⟩ | ha
    · rw [ha, JSNum.fin_lt_fin]
      linarith
    · rw [ha]
      exact True.intro

/-- The sample requirement for a villa against the sample apartment in Maadi at exactly the
budget, in double arithmetic: the location and the budget score 1, the type scores 0. -/
theorem villa_subscores :
    doubleArithmetic.calculateLocationMatch ⟨"Maadi", "in Maadi", .fin (8 / 10)⟩ "Maadi" =
      .fin 1 ∧
    doubleArithmetic.calculateBudgetMatch ⟨.fin 1000000, "EGP", "budget 1,000,000 egp"⟩
      (.fin 1000000) = .fin 1 ∧
    doubleArithmetic.calculateTypeMatch ⟨"villa", "villa", .fin (9 / 10)⟩ "apartment" =
      .fin 0 := by
  refine ⟨?_, ?_, ?_⟩
  · rw [Arithmetic.calculateLocationMatch]
    simp only []
    rw [if_pos (by decide)]
    exact double_one
  · have hratio : doubleArithmetic.div (.fin 1000000) (.fin 1000000) = .fin 1 := by
      show roundNum (JSNum.fin 1000000 / JSNum.fin 1000000) = .fin 1
      rw [JSNum.fin_div_fin _ (by norm_num : (1000000 : ℚ) ≠ 0)]
      show roundDouble (1000000 / 1000000) = .fin 1
      rw [show ((1000000 : ℚ) / 1000000) = 1 by norm_num]
      exact double_one
    have hlit : doubleArithmetic.lit (7 / 10) = .fin (3152519739159347 / 4503599627370496) :=
      double_literal_07
    have hone : doubleArithmetic.lit 1 = .fin 1 := double_one
    simp only [Arithmetic.calculateBudgetMatch, hratio, hlit, hone, JSNum.fin_le_fin]
    norm_num
  · rw [Arithmetic.calculateTypeMatch]
    simp only []
    rw [if_neg (by decide), if_neg (by decide)]
    exact roundDouble_zero

/-- The exact sub-scores of the same pair: 1, 1 and 0. -/
theorem villa_exact_subscores :
    AIProcessor.calculateLocationMatch ⟨"Maadi", "in Maadi", .fin (8 / 10)⟩ "Maadi" = .fin 1 ∧
    AIProcessor.calculateBudgetMatch ⟨.fin 1000000, "EGP", "budget 1,000,000 egp"⟩
      (.fin 1000000) = .fin 1 ∧
    AIProcessor.calculateTypeMatch ⟨"villa", "villa", .fin (9 / 10)⟩ "apartment" = .fin 0 := by
  refine ⟨?_, ?_, ?_⟩
  · rw [AIProcessor.calculateLocationMatch]
    simp only []
    rw [if_pos (by decide)]
  · simp only [AIProcessor.calculateBudgetMatch, JSNum.fin_le_fin,
      JSNum.fin_div_fin _ (by norm_num : (1000000 : ℚ) ≠ 0)]
    norm_num
  · rw [AIProcessor.calculateTypeMatch]
    simp only []
    rw [if_neg (by decide), if_neg (by decide)]

/-- C1, as stated, fails. The requirement asks for a villa in Maadi for 1,000,000 EGP; the
property is an apartment in Maadi at 1,000,000 EGP. Location and budget score 1, the type
scores 0, so the weighted average is `(0.35 + 0.25 + 0) / 0.8 = 3/4`. In the double
arithmetic of the code the two sums are the doubles 0.6 and 0.8 and their quotient is
0.7499999999999999: the score is not the weighted average, and it misses the threshold
0.75 that the average reaches. -/
theorem calculateMatchingScore_rounded_example :
    doubleArithmetic.calculateMatchingScore villaRequirements
      (sampleProperty "p1" "Maadi" 1000000) =
        .fin (6755399441055743 / 9007199254740992) ∧
    weightedAverage villaRequirements (sampleProperty "p1" "Maadi" 1000000) = .fin (3 / 4) ∧
    doubleArithmetic.calculateMatchingScore villaRequirements
      (sampleProperty "p1" "Maadi" 1000000) ≠
        weightedAverage villaRequirements (sampleProperty "p1" "Maadi" 1000000) ∧
    AIProcessor.matchingThreshold ≤
      weightedAverage villaRequirements (sampleProperty "p1" "Maadi" 1000000) ∧
    ¬ (AIProcessor.matchingThreshold ≤
      doubleArithmetic.calculateMatchingScore villaRequirements
        (sampleProperty "p1" "Maadi" 1000000)) := by
  obtain ⟨hl, hb, ht⟩ := villa_subscores
  obtain ⟨hl2, hb2, ht2⟩ := villa_exact_subscores
  have hloc : truthyStr (some "Maadi") = true := by decide
  have htype : truthyStr (some "apartment") = true := by decide
  have hprice : truthyNum (some (.fin 1000000)) = true := by
    simp [truthyNum, JSNum.truthy]
  have hwl : doubleArithmetic.lit (35 / 100) =
      .fin (3152519739159347 / 9007199254740992) := double_literal_035
  have hwb : doubleArithmetic.lit (25 / 100) = .fin (1 / 4) := double_literal_025
  have hwt : doubleArithmetic.lit (20 / 100) =
      .fin (3602879701896397 / 18014398509481984) := double_literal_020
  have hzero : doubleArithmetic.lit 0 = .fin 0 := roundDouble_zero
  have hscore : doubleArithmetic.calculateMatchingScore villaRequirements
      (sampleProperty "p1" "Maadi" 1000000) = .fin (6755399441055743 / 9007199254740992) := by
    rw [calculateMatchingScore_steps]
    simp only [Criterion.specified, Criterion.subScoreIn, Criterion.weightIn, villaRequirements,
      sampleRequirements, sampleProperty, Option.isSome, Bool.true_and, Bool.false_and, hloc,
      htype, hprice, hl, hb, ht, hwl, hwb, hwt, hzero,
      Arithmetic.addCriterion, if_true, if_false, decide_eq_true_eq, Bool.false_eq_true,
      double_one_mul _ double_of_0_35, double_zero_add _ double_of_0_35,
      double_one_mul _ double_of_0_25, double_add_0_35_0_25, double_zero_mul,
      double_add_zero _ double_of_0_6, double_add_0_6_0_2, double_div_0_6_0_8,
      JSNum.fin_lt_fin]
    rw [if_pos (by norm_num)]
  have havg : weightedAverage villaRequirements (sampleProperty "p1" "Maadi" 1000000) =
      .fin (3 / 4) := by
    simp only [weightedAverage, specifiedCriteria, List.filter_cons, List.filter_nil,
      Criterion.specified, Criterion.subScore, Criterion.weight, villaRequirements,
      sampleRequirements, sampleProperty, Option.isSome, Bool.true_and, Bool.false_and, hloc,
      htype, hprice, hl2, hb2, ht2, if_true, if_false, Bool.false_eq_true, List.isEmpty,
      List.map_cons, List.map_nil, sumNums, List.foldr_cons, List.foldr_nil,
      AIProcessor.propertyMatchingWeights, JSNum.fin_add_fin, JSNum.fin_mul_fin]
    rw [JSNum.fin_div_fin _ (by norm_num)]
    norm_num
  refine ⟨hscore, havg, ?_, ?_, ?_⟩
  · rw [hscore, havg]
    intro h
    have h2 := JSNum.fin.inj h
    norm_num at h2
  · rw [havg, AIProcessor.matchingThreshold, JSNum.fin_le_fin]
    norm_num
  · rw [hscore, AIProcessor.matchingThreshold, JSNum.fin_le_fin]
    norm_num

/-- The product of double arithmetic does not depend on the order of its factors. -/
theorem double_mul_comm (x y : JSNum) : doubleArithmetic.mul x y = doubleArithmetic.mul y x :=
  congrArg roundNum (mul_comm_num x y)

/-- The score of double arithmetic is 0 when no criterion is specified on both sides, and
the quotient of the two double sums otherwise. -/
theorem double_calculateMatchingScore (requirements : Requirements) (property : Property) :
    doubleArithmetic.calculateMatchingScore requirements property =
      weightedAverageIn doubleArithmetic requirements property := by
  rw [calculateMatchingScore_sums doubleArithmetic double_mul_comm, weightedAverageIn]
  by_cases hl : specifiedCriteria requirements property = []
  · rw [if_neg (fun h => (totalWeight_pos_iff _).mp h hl), hl]
    rfl
  · rw [if_pos ((totalWeight_pos_iff _).mpr hl), if_neg]
    intro h
    exact hl (List.isEmpty_iff.mp h)

/-- C1 (amended). For every requirement and every property, the score that
`calculateMatchingScore` computes in the double arithmetic of the code is the weighted
average `(sum of w_c * s_c) / (sum of w_c)` over the criteria c among location (0.35),
budget (0.25), propertyType (0.20) and size (0.15) that are specified on both sides, where
every literal, product, sum and quotient is the double operation (rounded to nearest, ties
to even) and the sums are taken from the left in the order location, budget,
propertyType, size; it is `0` when no criterion is specified on both sides. With exact
arithmetic in place of the double operations the same code returns the exact weighted
average. A side specifies a criterion when the test of the source finds it set; on a
property whose fields hold proper values that is exactly when both sides carry the
criterion. -/
theorem calculateMatchingScore_doubleAverage (requirements : Requirements)
    (property : Property) :
    doubleArithmetic.calculateMatchingScore requirements property =
      weightedAverageIn doubleArithmetic requirements property ∧
    (specifiedCriteria requirements property = [] →
      doubleArithmetic.calculateMatchingScore requirements property = .fin 0) ∧
    exactArithmetic.calculateMatchingScore requirements property =
      weightedAverage requirements property ∧
    (property.Proper → ∀ c : Criterion,
      Criterion.specified requirements property c =
        Criterion.present requirements property c) := by
  refine ⟨double_calculateMatchingScore requirements property, ?_, ?_,
    AIProcessor.specified_eq_present requirements property⟩
  · intro hl
    rw [double_calculateMatchingScore, weightedAverageIn, hl]
    exact roundDouble_zero
  · rw [exact_calculateMatchingScore]
    exact AIProcessor.calculateMatchingScore_eq_weightedAverage requirements property

namespace PropertyMatcher

/-! ## The threshold of the secondary matcher -/

/-- The sample row against the sample criteria: the price equals the budget and nothing
else fits, so the score is the budget weight over the sum of the five weights, 0.3. -/
theorem zamalek_score :
    calculateMatchScore zamalekRow villaCriteria = some (.fin (3 / 10)) := by
  have hb : scoreBudgetMatch (.fin 1000000) (.fin 1000000) = .fin 1 := by
    simp only [scoreBudgetMatch, JSNum.fin_sub_fin, JSNum.abs_fin, JSNum.fin_le_fin,
      JSNum.fin_div_fin _ (by norm_num : (1000000 : ℚ) ≠ 0)]
    norm_num
  have hl : scoreLocationMatch (some "Zamalek") "maadi" = some (.fin 0) := by
    rw [scoreLocationMatch]
    simp only []
    rw [if_neg (by decide), if_neg (by decide)]
  have hbed : scoreBedroomMatch (.fin 2) (.fin 5) = .fin 0 := by
    simp only [scoreBedroomMatch, JSNum.fin_sub_fin, JSNum.abs_fin, JSNum.fin.injEq]
    norm_num
  have hbath : scoreBathroomMatch (.fin 1) (.fin 4) = .fin 0 := by
    simp only [scoreBathroomMatch, JSNum.fin_sub_fin, JSNum.abs_fin, JSNum.fin.injEq]
    norm_num
  have ht1 : truthyNum (some (JSNum.fin 1000000)) = true := by
    simp [truthyNum, JSNum.truthy]
  have ht2 : truthyNum (some (JSNum.fin 5)) = true := by simp [truthyNum, JSNum.truthy]
  have ht3 : truthyNum (some (JSNum.fin 4)) = true := by simp [truthyNum, JSNum.truthy]
  have ht4 : truthyStr (some "maadi") = true := by decide
  have ht5 : truthyStr (some "villa") = true := by decide
  have hty : ¬ ((some "apartment" : Option String) = some "villa") := by decide
  simp only [calculateMatchScore, zamalekRow, villaCriteria, toNumber, weights, hb, hl, hbed,
    hbath, ht1, ht2, ht3, ht4, ht5, hty, if_true, if_false, Option.map_some',
    Option.bind_eq_bind, Option.some_bind, Option.pure_def, JSNum.fin_add_fin,
    JSNum.fin_mul_fin, JSNum.fin_lt_fin]
  norm_num [JSNum.fin_div_fin]

/-- C26: the code at the failing input. The sample row is available and scores exactly 0.3
against the sample criteria, a 30% match, yet `findMatches` answers the empty array: its
test is `score > 0.3`. -/
theorem findMatches_boundary :
    zamalekRow.status = "available" ∧
    calculateMatchScore zamalekRow villaCriteria = some (.fin (3 / 10)) ∧
    JSNum.fin (3 / 10) ≤ JSNum.fin (3 / 10) ∧
    findMatches (some [zamalekRow]) villaCriteria = [] := by
  refine ⟨rfl, zamalek_score, (JSNum.fin_le_fin _ _).mpr (le_refl _), ?_⟩
  have hlt : ¬ (JSNum.fin (3 / 10) < JSNum.fin (3 / 10)) := by
    rw [JSNum.fin_lt_fin]
    exact lt_irrefl _
  have hloop : scoreLoop villaCriteria [zamalekRow] = some [] := by
    simp only [scoreLoop, zamalek_score, hlt, if_false, Option.bind_eq_bind, Option.some_bind,
      List.nil_append, Option.pure_def]
  have hfilter : [zamalekRow].filter (fun prop => prop.status = "available") = [zamalekRow] := by
    decide
  simp only [findMatches, List.length_singleton, one_ne_zero, if_false, hfilter, hloop]
  rfl

/-- The entries of a loop of `findMatches` that ran to its end: one for each row whose
score is strictly above 0.3, with that score and the reasons of the row. -/
theorem mem_scoreLoop (criteria : Criteria) (rows : List PropertyRow)
    (scored : List ScoredProperty) (h : scoreLoop criteria rows = some scored)
    (sp : ScoredProperty) :
    sp ∈ scored ↔ ∃ p ∈ rows, ∃ score reasons, calculateMatchScore p criteria = some score ∧
      getMatchReasons p criteria = some reasons ∧ JSNum.fin (3 / 10) < score ∧
      sp = ⟨p, score, reasons⟩ := by
  induction rows generalizing scored with
  | nil =>
    simp only [scoreLoop, Option.some.injEq] at h
    subst h
    simp
  | cons p rest ih =>
    rw [scoreLoop] at h
    cases hscore : calculateMatchScore p criteria with
    | none => simp [hscore] at h
    | some score =>
      cases hrest : scoreLoop criteria rest with
      | none =>
        by_cases hgt : JSNum.fin (3 / 10) < score
        · cases hreasons : getMatchReasons p criteria <;>
            simp [hscore, hrest, hgt, hreasons] at h
        · simp [hscore, hrest, hgt] at h
      | some tail =>
        have iht := ih tail hrest
        by_cases hgt : JSNum.fin (3 / 10) < score
        · cases hreasons : getMatchReasons p criteria with
          | none => simp [hscore, hrest, hgt, hreasons] at h
          | some reasons =>
            simp only [hscore, hrest, hgt, hreasons, if_true, Option.map_some',
              Option.bind_eq_bind, Option.some_bind, Option.pure_def, Option.some.injEq,
              List.singleton_append] at h
            subst h
            rw [List.mem_cons, iht]
            constructor
            · rintro (rfl | ⟨q, hq, sc, rs, h1, h2, h3, h4⟩)
              · exact ⟨p, List.mem_cons_self _ _, score, reasons, hscore, hreasons, hgt, rfl⟩
              · exact ⟨q, List.mem_cons_of_mem _ hq, sc, rs, h1, h2, h3, h4⟩
            · rintro ⟨q, hq, sc, rs, h1, h2, h3, h4⟩
              rcases List.mem_cons.mp hq with rfl | hq2
              · left
                rw [hscore] at h1
                rw [hreasons] at h2
                cases h1
                cases h2
                exact h4
              · exact Or.inr ⟨q, hq2, sc, rs, h1, h2, h3, h4⟩
        · simp only [hscore, hrest, hgt, if_false, Option.bind_eq_bind, Option.some_bind,
            Option.pure_def, Option.some.injEq, List.nil_append] at h
          subst h
          rw [iht]
          constructor
          · rintro ⟨q, hq, sc, rs, h1, h2, h3, h4⟩
            exact ⟨q, List.mem_cons_of_mem _ hq, sc, rs, h1, h2, h3, h4⟩
          · rintro ⟨q, hq, sc, rs, h1, h2, h3, h4⟩
            rcases List.mem_cons.mp hq with rfl | hq2
            · rw [hscore] at h1
              cases h1
              exact absurd h3 hgt
            · exact ⟨q, hq2, sc, rs, h1, h2, h3, h4⟩

/-- Every entry answered by `findMatches` is a fetched row with the status 'available'
whose score is strictly above 0.3. -/
theorem mem_findMatches (fetched : Option (List PropertyRow)) (criteria : Criteria)
    (sp : ScoredProperty) (h : sp ∈ findMatches fetched criteria) :
    ∃ rows, fetched = some rows ∧ sp.property ∈ rows ∧ sp.property.status = "available" ∧
      calculateMatchScore sp.property criteria = some sp.matchScore ∧
      JSNum.fin (3 / 10) < sp.matchScore := by
  cases fetched with
  | none => simp [findMatches] at h
  | some rows =>
    rw [findMatches] at h
    simp only [] at h
    split_ifs at h with hlen
    · simp at h
    · cases hloop : scoreLoop criteria (rows.filter (fun prop => prop.status = "available")) with
      | none => simp [hloop] at h
      | some scored =>
        simp only [hloop] at h
        have h2 : sp ∈ scored := (List.perm_insertionSort _ _).mem_iff.mp h
        obtain ⟨p, hp, score, reasons, h3, _, h5, rfl⟩ :=
          (mem_scoreLoop criteria _ scored hloop sp).mp h2
        obtain ⟨hp1, hp2⟩ := List.mem_filter.mp hp
        exact ⟨rows, rfl, hp1, of_decide_eq_true hp2, h3, h5⟩

/-- When no iteration throws, `findMatches` answers every available row whose score is
strictly above 0.3, with that score. -/
theorem findMatches_complete (rows : List PropertyRow) (criteria : Criteria)
    (p : PropertyRow) (score : JSNum)
    (hrun : (scoreLoop criteria (rows.filter (fun prop => prop.status = "available"))).isSome
      = true)
    (hp : p ∈ rows) (hstatus : p.status = "available")
    (hscore : calculateMatchScore p criteria = some score)
    (hgt : JSNum.fin (3 / 10) < score) :
    ∃ sp ∈ findMatches (some rows) criteria, sp.property = p ∧ sp.matchScore = score := by
  have hne : ¬ (rows.length = 0) := by
    intro h0
    rw [List.length_eq_zero.mp h0] at hp
    exact absurd hp (List.not_mem_nil _)
  cases hloop : scoreLoop criteria (rows.filter (fun prop => prop.status = "available")) with
  | none =>
    rw [hloop] at hrun
    exact absurd hrun (by decide)
  | some scored =>
    have hpf : p ∈ rows.filter (fun prop => prop.status = "available") :=
      List.mem_filter.mpr ⟨hp, decide_eq_true hstatus⟩
    cases hreasons : getMatchReasons p criteria with
    | none =>
      exfalso
      have hgen : ∀ (l : List PropertyRow), p ∈ l → scoreLoop criteria l = none := by
        intro l hl
        induction l with
        | nil => exact absurd hl (List.not_mem_nil _)
        | cons q rest ih =>
          rw [scoreLoop]
          rcases List.mem_cons.mp hl with rfl | hl2
          · simp [hscore, hgt, hreasons]
          · cases hq : calculateMatchScore q criteria with
            | none => simp
            | some sc =>
              simp only [Option.bind_eq_bind, Option.some_bind, ih hl2]
              cases (if JSNum.fin (3 / 10) < sc then
                  (getMatchReasons q criteria).map (fun reasons =>
                    [({ property := q, matchScore := sc, matchReasons := reasons } :
                      ScoredProperty)])
                else some []) <;> simp
      rw [hgen _ hpf] at hloop
      exact absurd hloop (by simp)
    | some reasons =>
      have hmem : (⟨p, score, reasons⟩ : ScoredProperty) ∈ scored :=
        (mem_scoreLoop criteria _ scored hloop _).mpr
          ⟨p, hpf, score, reasons, hscore, hreasons, hgt, rfl⟩
      refine ⟨⟨p, score, reasons⟩, ?_, rfl, rfl⟩
      simp only [findMatches, hne, if_false, hloop]
      exact (List.perm_insertionSort _ _).mem_iff.mpr hmem

/-! ## Ranking of the secondary matcher -/

/-- A number strictly above a finite bound is at or above it. -/
theorem le_of_fin_lt (t : ℚ) (x : JSNum) (h : JSNum.fin t < x) : JSNum.fin t ≤ x := by
  cases x with
  | fin q => exact (JSNum.fin_le_fin _ _).mpr (le_of_lt ((JSNum.fin_lt_fin _ _).mp h))
  | posInf => exact True.intro
  | negInf => exact False.elim h
  | nan => exact False.elim h

/-- On scores above a finite bound the comparator of the sort orders by descending score:
it is positive exactly when the first score is strictly lower. -/
theorem sub_not_pos_iff (t : ℚ) (x y : JSNum) (hx : JSNum.fin t ≤ x) (hy : JSNum.fin t ≤ y) :
    ¬ (JSNum.fin 0 < y - x) ↔ y ≤ x := by
  rcases AIProcessor.fin_le_cases _ _ hx with ⟨a, rfl, _⟩ | rfl <;>
    rcases AIProcessor.fin_le_cases _ _ hy with ⟨b, rfl, _⟩ | rfl
  · simp
  · exact ⟨fun h => h trivial, fun h => False.elim h⟩
  · exact ⟨fun _ => trivial, fun _ h => h⟩
  · exact ⟨fun _ => trivial, fun _ h => h⟩

/-- Scores above a finite bound are totally ordered. -/
theorem le_total_of_bound (t : ℚ) (x y : JSNum) (hx : JSNum.fin t ≤ x)
    (hy : JSNum.fin t ≤ y) : y ≤ x ∨ x ≤ y := by
  rcases AIProcessor.fin_le_cases _ _ hx with ⟨a, rfl, _⟩ | rfl <;>
    rcases AIProcessor.fin_le_cases _ _ hy with ⟨b, rfl, _⟩ | rfl
  · exact le_total b a
  · exact Or.inr trivial
  · exact Or.inl trivial
  · exact Or.inl trivial

/-- The order on scores above a finite bound is transitive. -/
theorem le_trans_of_bound (t : ℚ) (x y z : JSNum) (hx : JSNum.fin t ≤ x)
    (hy : JSNum.fin t ≤ y) (hz : JSNum.fin t ≤ z) (h1 : z ≤ y) (h2 : y ≤ x) : z ≤ x := by
  rcases AIProcessor.fin_le_cases _ _ hx with ⟨a, rfl, _⟩ | rfl <;>
    rcases AIProcessor.fin_le_cases _ _ hy with ⟨b, rfl, _⟩ | rfl <;>
    rcases AIProcessor.fin_le_cases _ _ hz with ⟨c, rfl, _⟩ | rfl
  · exact @le_trans ℚ _ c b a h1 h2
  · exact False.elim h1
  · exact False.elim h2
  · exact False.elim h2
  · exact trivial
  · exact trivial
  · exact trivial
  · exact trivial

/-- Inserting an entry into a list ranked by descending score keeps it ranked, all scores
being above 0.3. -/
theorem orderedInsert_scored (a : ScoredProperty) (l : List ScoredProperty)
    (ha : JSNum.fin (3 / 10) ≤ a.matchScore)
    (hl : ∀ m ∈ l, JSNum.fin (3 / 10) ≤ m.matchScore)
    (hs : l.Pairwise (fun x y => y.matchScore ≤ x.matchScore)) :
    (l.orderedInsert (fun x y => ¬ (JSNum.fin 0 < y.matchScore - x.matchScore)) a).Pairwise
      (fun x y => y.matchScore ≤ x.matchScore) := by
  induction l with
  | nil => simp
  | cons b l ih =>
    have hb : JSNum.fin (3 / 10) ≤ b.matchScore := hl b (List.mem_cons_self _ _)
    have hl2 : ∀ m ∈ l, JSNum.fin (3 / 10) ≤ m.matchScore :=
      fun m hm => hl m (List.mem_cons_of_mem _ hm)
    rw [List.pairwise_cons] at hs
    rw [List.orderedInsert]
    split_ifs with h
    · have hba : a.matchScore ≤ b.matchScore := by
        rcases le_total_of_bound _ _ _ ha hb with h1 | h1
        · exact absurd h ((sub_not_pos_iff _ _ _ ha hb).mpr h1)
        · exact h1
      rw [List.pairwise_cons]
      refine ⟨?_, ih hl2 hs.2⟩
      intro x hx
      rcases (List.mem_orderedInsert _).mp hx with rfl | hx
      · exact hba
      · exact hs.1 x hx
    · have hab : b.matchScore ≤ a.matchScore := (sub_not_pos_iff _ _ _ ha hb).mp h
      rw [List.pairwise_cons]
      refine ⟨?_, List.pairwise_cons.mpr hs⟩
      intro x hx
      rcases List.mem_cons.mp hx with rfl | hx
      · exact hab
      · exact le_trans_of_bound _ _ _ _ ha hb (hl2 x hx) (hs.1 x hx) hab

/-- The sort of `findMatches` ranks by descending score, all scores being above 0.3. -/
theorem sortScored_ranked (l : List ScoredProperty)
    (hl : ∀ m ∈ l, JSNum.fin (3 / 10) ≤ m.matchScore) :
    (sortScored l).Pairwise (fun x y => y.matchScore ≤ x.matchScore) := by
  induction l with
  | nil => simp [sortScored]
  | cons a l ih =>
    have hl2 : ∀ m ∈ l, JSNum.fin (3 / 10) ≤ m.matchScore :=
      fun m hm => hl m (List.mem_cons_of_mem _ hm)
    have hmem : ∀ m ∈ sortScored l, JSNum.fin (3 / 10) ≤ m.matchScore := by
      intro m hm
      exact hl2 m ((List.perm_insertionSort _ l).mem_iff.mp hm)
    exact orderedInsert_scored a (sortScored l) (hl a (List.mem_cons_self _ _)) hmem (ih hl2)

/-- The array answered by `findMatches` is ordered by descending score. -/
theorem findMatches_ranked (fetched : Option (List PropertyRow)) (criteria : Criteria) :
    (findMatches fetched criteria).Pairwise (fun x y => y.matchScore ≤ x.matchScore) := by
  cases fetched with
  | none => simp [findMatches]
  | some rows =>
    rw [findMatches]
    simp only []
    split_ifs with hlen
    · exact List.Pairwise.nil
    · cases hloop : scoreLoop criteria (rows.filter (fun prop => prop.status = "available")) with
      | none => exact List.Pairwise.nil
      | some scored =>
        refine sortScored_ranked scored ?_
        intro m hm
        obtain ⟨p, _, score, reasons, _, _, h5, rfl⟩ :=
          (mem_scoreLoop criteria _ scored hloop m).mp hm
        exact le_of_fin_lt _ _ h5

end PropertyMatcher

end CrystalPower
